import Mathlib

/-!
# MusicSynth / DemoFiltering.cpp : note lifecycle and render loop

A shallow embedding of `src/MusicSynth/DemoFiltering.cpp`.

Conventions of the embedding
* A `float` value is a rational (`ℚ`); infinities and NaN are outside the model.  The
  definitions that carry the names of the source compute exactly: the literals `0.1f`, `0.8f` are
  `1/10`, `4/5`, `float(n)` of an integer is the integer itself, and no operation rounds.
* Where a statement depends on the rounding of the source (the death test of `GenerateEnvelope`
  compares a rounded time in release with `0.1f`), it is made on `GenerateEnvelopeFl`,
  `SampleAudioSampleFl` and `GenerateNoteSampleFl`: the same functions with the `float` arithmetic
  as a parameter (`FloatOps`).  `exactOps` gives back the exact definitions (`exactOps_eq`);
  `binary32Ops` is IEEE-754 binary32 with rounding to nearest, ties to even.
* `size_t` is modelled by `Nat` with explicit reduction modulo `2^64` at every arithmetic
  operation of the source (`++`, `*`, `-`, `+`).
* Code that mutates its argument through a reference returns the new value next to its result.
* The functions declared in `DemoMgr.h`, `AudioEffects.h` and `Samples.h` are not part of the
  source file.  The waveform generators, `NoteToFrequency`, `sinf`, `c_pi`, `ScaleBiPolarValue`,
  the sample clips and the biquad filter are parameters of the embedding (`Env`, `SBiQuadOps`);
  the envelope interpolators are modelled from the specification.
* `CDemoMgr::GetSampleClock()` is a parameter `clock` that is constant during one buffer render.
* A key is the `char` code that `OnKey` receives, an `Int`; console output is not modelled.
* Calls of `SetEffectParams` are counted by running the code with the filter `countingOps F`,
  which wraps a filter `F` and changes nothing else (`GenerateAudioSamples_erase`).
-/

namespace DemoFiltering

/-! ## Machine integers -/

/-- Number of values of a `size_t` (64-bit build). -/
def SIZE_MOD : Nat := 2 ^ 64

/-- Unsigned `a + b` on `size_t`. -/
def size_add (a b : Nat) : Nat := (a + b) % SIZE_MOD

/-- Unsigned `a - b` on `size_t` (wraps below zero). -/
def size_sub (a b : Nat) : Nat := (a % SIZE_MOD + (SIZE_MOD - b % SIZE_MOD)) % SIZE_MOD

/-- Unsigned `a * b` on `size_t`. -/
def size_mul (a b : Nat) : Nat := (a * b) % SIZE_MOD

/-- The conversion `size_t(x)` of a `float`: truncation towards zero.  C++ defines the conversion
only when the truncated value is a value of `size_t` (`-1 < x < 2^64`), and there the definition
is `⌊x⌋` for `0 ≤ x`.  Outside of that range the behaviour is undefined in C++; the definition
takes the truncated value modulo `2^64` (the two's-complement reading, `2^64 - 16` for `-16`), and
the statements on the beat size are made inside the range. -/
def size_of_float (x : ℚ) : Nat :=
  ((if 0 ≤ x then x.floor else -((-x).floor)) % (SIZE_MOD : ℤ)).toNat

/-! ## Data model -/

/-- The enum `EWaveForm`. -/
inductive EWaveForm where
  | e_waveSine
  | e_waveSaw
  | e_waveSquare
  | e_waveTriangle
  | e_sampleCymbals
  | e_sampleVoice
  deriving DecidableEq, Repr

/-- The enum `EEffect` (without the counting sentinel `e_effectCount`). -/
inductive EEffect where
  | e_none
  | e_small
  | e_medium
  | e_large
  | e_LFO
  deriving DecidableEq, Repr

/-- The struct `SNote`. -/
structure SNote where
  m_frequency : ℚ
  m_waveForm : EWaveForm
  m_age : Nat
  m_dead : Bool
  m_wantsKeyRelease : Bool
  m_releaseAge : Nat
  deriving DecidableEq, Repr

/-- The constructor `SNote(frequency, waveForm)`. -/
def SNote.new (frequency : ℚ) (waveForm : EWaveForm) : SNote :=
  { m_frequency := frequency
    m_waveForm := waveForm
    m_age := 0
    m_dead := false
    m_wantsKeyRelease := false
    m_releaseAge := 0 }

/-- The fields of `SWavFile` (declared in `Samples.h`) that the demo reads. -/
structure SWavFile where
  m_numChannels : Nat
  m_numSamples : Nat
  m_lengthSeconds : ℚ
  m_samples : List ℚ
  deriving DecidableEq, Repr

/-- The two filter kinds of `SBiQuad::EType` that the demo uses. -/
inductive EType where
  | e_lowPass
  | e_highPass
  deriving DecidableEq, Repr

/-- The external collaborators of the note renderer and of the rhythm generator: the waveform
generators, `NoteToFrequency`, `sinf`, `c_pi` and `ScaleBiPolarValue` of `DemoMgr.h`, and the two
clips of `Samples.h`. -/
structure Env where
  SineWave : ℚ → ℚ
  SawWave : ℚ → ℚ
  SquareWave : ℚ → ℚ
  TriangleWave : ℚ → ℚ
  NoteToFrequency : Nat → Nat → ℚ
  sinf : ℚ → ℚ
  c_pi : ℚ
  ScaleBiPolarValue : ℚ → ℚ → ℚ → ℚ
  g_sample_cymbal : SWavFile
  g_sample_legend1 : SWavFile

/-- The interface of the recursive filter `SBiQuad` of `AudioEffects.h` over a state type `B`:
`SetEffectParams(type, frequency, sampleRate, Q, gain)` and `AddSample(value)`. -/
structure SBiQuadOps (B : Type) where
  SetEffectParams : B → EType → ℚ → ℚ → ℚ → ℚ → B
  AddSample : B → ℚ → B × ℚ

/-- The global variables of the demo. -/
structure Globals where
  g_notes : List SNote
  g_currentWaveForm : EWaveForm
  g_lpf : EEffect
  g_hpf : EEffect
  g_rhythmOn : Bool
  g_masterOutLPFOn : Bool
  deriving DecidableEq, Repr

/-- The function-local `static` variables of `GenerateAudioSamples`. -/
structure Statics (B : Type) where
  masterOutLPF : B
  masterOutLPFInited : Bool
  lowPassFilter : List B
  lastLPF : EEffect
  highPassFilter : List B
  lastHPF : EEffect
  rhythmWasOn : Bool
  rhythmStart : Nat

/-- The number of cascade stages `c_numFilters`. -/
def c_numFilters : Nat := 4

/-- The statics before the first call: default-constructed filters `b0`, `e_none`, `false`,
`0`. -/
def Statics.init {B : Type} (b0 : B) : Statics B :=
  { masterOutLPF := b0
    masterOutLPFInited := false
    lowPassFilter := List.replicate c_numFilters b0
    lastLPF := EEffect.e_none
    highPassFilter := List.replicate c_numFilters b0
    lastHPF := EEffect.e_none
    rhythmWasOn := false
    rhythmStart := 0 }

/-! ## Primitives of `DemoMgr.h` and `<cmath>` -/

/-- The function `std::fmodf(x, y)`: the remainder of the division truncated towards zero. -/
def fmodf (x y : ℚ) : ℚ :=
  let q := x / y
  let t : ℤ := if 0 ≤ q then q.floor else -((-q).floor)
  x - y * t

/-- Modelled from the spec: `Envelope2Pt` is declared in `DemoMgr.h`; the spec describes it as a
linear ramp between two points that holds the end values outside of them (clamped linear
interpolation). -/
def Envelope2Pt (time time0 volume0 time1 volume1 : ℚ) : ℚ :=
  if time ≤ time0 then volume0
  else if time1 ≤ time then volume1
  else volume0 + (volume1 - volume0) * ((time - time0) / (time1 - time0))

/-- Modelled from the spec: `Envelope3Pt` is declared in `DemoMgr.h`; piecewise-linear through
three points, clamped outside of them. -/
def Envelope3Pt (time time0 volume0 time1 volume1 time2 volume2 : ℚ) : ℚ :=
  if time ≤ time0 then volume0
  else if time < time1 then volume0 + (volume1 - volume0) * ((time - time0) / (time1 - time0))
  else if time < time2 then volume1 + (volume2 - volume1) * ((time - time1) / (time2 - time1))
  else volume2

/-- Modelled from the spec: `Envelope4Pt` is declared in `DemoMgr.h`; piecewise-linear through
four points (attack, sustain, release), clamped outside of them. -/
def Envelope4Pt (time time0 volume0 time1 volume1 time2 volume2 time3 volume3 : ℚ) : ℚ :=
  if time ≤ time0 then volume0
  else if time < time1 then volume0 + (volume1 - volume0) * ((time - time0) / (time1 - time0))
  else if time < time2 then volume1 + (volume2 - volume1) * ((time - time1) / (time2 - time1))
  else if time < time3 then volume2 + (volume3 - volume2) * ((time - time2) / (time3 - time2))
  else volume3

/-! ## Envelope generator and note renderer -/

/-- The constant `c_envelopeTime = 0.1f`. -/
def c_envelopeTime : ℚ := 1 / 10

/-- The function `GenerateEnvelope(note, ageInSeconds, sampleRate)`: the note after the call and
the returned envelope. -/
def GenerateEnvelope (note : SNote) (ageInSeconds sampleRate : ℚ) : SNote × ℚ :=
  -- float envelope = 0.0f;
  let envelope0 : ℚ := 0
  -- if (note.m_releaseAge == 0) { ... }
  let s1 : SNote × ℚ :=
    if note.m_releaseAge = 0 then
      if note.m_wantsKeyRelease = true ∧ ageInSeconds > c_envelopeTime then
        ({ note with m_releaseAge := note.m_age }, envelope0)
      else
        (note, Envelope2Pt ageInSeconds 0 0 c_envelopeTime 1)
    else (note, envelope0)
  -- if (note.m_releaseAge != 0) { ... }
  if s1.1.m_releaseAge ≠ 0 then
    let releaseAgeInSeconds : ℚ := (s1.1.m_releaseAge : ℚ) / sampleRate
    let secondsInRelease : ℚ := ageInSeconds - releaseAgeInSeconds
    let envelope : ℚ := Envelope2Pt secondsInRelease 0 1 c_envelopeTime 0
    if secondsInRelease > c_envelopeTime then
      ({ s1.1 with m_dead := true }, envelope)
    else (s1.1, envelope)
  else s1

/-- The function `SampleAudioSample(note, sample, ageInSeconds)`: the note after the call and the
returned sample value. -/
def SampleAudioSample (note : SNote) (sample : SWavFile) (ageInSeconds : ℚ) : SNote × ℚ :=
  let sampleIndex : Nat := size_mul note.m_age sample.m_numChannels
  if sampleIndex ≥ sample.m_numSamples then
    ({ note with m_dead := true }, 0)
  else
    let envelope : ℚ :=
      Envelope4Pt ageInSeconds 0 0 (1 / 10) 1 (sample.m_lengthSeconds - 1 / 10) 1
        sample.m_lengthSeconds 0
    (note, sample.m_samples.getD sampleIndex 0 * envelope)

/-- The function `GenerateNoteSample(note, sampleRate)`: the note after the call and the returned
sample value. -/
def GenerateNoteSample (E : Env) (note : SNote) (sampleRate : ℚ) : SNote × ℚ :=
  let ageInSeconds : ℚ := (note.m_age : ℚ) / sampleRate
  -- ++note.m_age;
  let note1 : SNote := { note with m_age := size_add note.m_age 1 }
  let r := GenerateEnvelope note1 ageInSeconds sampleRate
  let note2 : SNote := r.1
  let envelope : ℚ := r.2 * (4 / 5)
  let phase : ℚ := fmodf (ageInSeconds * note2.m_frequency) 1
  match note2.m_waveForm with
  | EWaveForm.e_waveSine => (note2, E.SineWave phase * envelope)
  | EWaveForm.e_waveSaw => (note2, E.SawWave phase * envelope)
  | EWaveForm.e_waveSquare => (note2, E.SquareWave phase * envelope)
  | EWaveForm.e_waveTriangle => (note2, E.TriangleWave phase * envelope)
  | EWaveForm.e_sampleCymbals => SampleAudioSample note2 E.g_sample_cymbal ageInSeconds
  | EWaveForm.e_sampleVoice => SampleAudioSample note2 E.g_sample_legend1 ageInSeconds

/-! ## Rhythm generator -/

/-- The function `GenerateRhythm(sampleIndex, sampleRate)`, run in the program state `g` (it reads
the global `g_currentWaveForm`).  The result is `none` when the integer division and modulo by
`beatSize` divide by zero. -/
def GenerateRhythm (E : Env) (g : Globals) (sampleIndex : Nat) (sampleRate : ℚ) : Option ℚ :=
  let beatSize : Nat := size_of_float sampleRate / 8
  let beatTime : ℚ := (beatSize : ℚ) / sampleRate
  if beatSize = 0 then none
  else
    let beatIndex0 : Nat := sampleIndex / beatSize
    let beatOffset : Nat := sampleIndex % beatSize
    let timeInSeconds : ℚ := (beatOffset : ℚ) / sampleRate
    let beatIndex1 : Nat := beatIndex0 % 32
    let beatIndex : Nat := beatIndex1 % 4
    let frequency : ℚ :=
      if beatIndex1 < 16 then
        if beatIndex = 0 then E.NoteToFrequency 2 0
        else if beatIndex = 1 then E.NoteToFrequency 1 0
        else if beatIndex = 2 then E.NoteToFrequency 2 3
        else if beatIndex = 3 then E.NoteToFrequency 1 3
        else 0
      else
        if beatIndex = 0 then E.NoteToFrequency 2 2
        else if beatIndex = 1 then E.NoteToFrequency 1 2
        else if beatIndex = 2 then E.NoteToFrequency 2 5
        else if beatIndex = 3 then E.NoteToFrequency 1 5
        else 0
    let phase : ℚ := fmodf (timeInSeconds * frequency) 1
    let envelope : ℚ := Envelope3Pt timeInSeconds 0 0 (1 / 10) 1 beatTime 0
    match g.g_currentWaveForm with
    | EWaveForm.e_waveSine => some (E.SineWave phase * envelope)
    | EWaveForm.e_waveSaw => some (E.SawWave phase * envelope)
    | EWaveForm.e_waveSquare => some (E.SquareWave phase * envelope)
    | EWaveForm.e_waveTriangle => some (E.TriangleWave phase * envelope)
    | _ => some 0

/-! ## Render loop -/

/-- The loop `for (i = 0; i < c_numFilters; ++i) filter[i].SetEffectParams(...)` over the
`c_numFilters` stages of one channel. -/
def setAllParams {B : Type} (F : SBiQuadOps B) (filters : List B) (type : EType)
    (frequency sampleRate Q gain : ℚ) : List B :=
  filters.map (fun b => F.SetEffectParams b type frequency sampleRate Q gain)

/-- The loop `for (i = 0; i < c_numFilters; ++i) value = filter[i].AddSample(value)`: the stages
after the calls and the final value. -/
def addSampleAll {B : Type} (F : SBiQuadOps B) : List B → ℚ → List B × ℚ
  | [], value => ([], value)
  | b :: rest, value =>
    let r := F.AddSample b value
    let t := addSampleAll F rest r.2
    (r.1 :: t.1, t.2)

/-- The `std::for_each` over `g_notes` that adds `GenerateNoteSample(note, sampleRate)` to
`value`: the notes after the calls and the final value. -/
def sumNotes (E : Env) (sampleRate : ℚ) : List SNote → ℚ → List SNote × ℚ
  | [], value => ([], value)
  | note :: rest, value =>
    let r := GenerateNoteSample E note sampleRate
    let t := sumNotes E sampleRate rest (value + r.2)
    (r.1 :: t.1, t.2)

/-- The loop `for (channel = 0; channel < numChannels; ++channel) outputBuffer[channel] = value`
where `outputBuffer` points at index `offset` of the buffer. -/
def writeChannels (buffer : List ℚ) (offset numChannels : Nat) (value : ℚ) : List ℚ :=
  (List.range numChannels).foldl (fun b channel => b.set (offset + channel) value) buffer

/-- The mutable state of one buffer render: the note registry, the statics and the output
buffer. -/
structure Render (B : Type) where
  g_notes : List SNote
  statics : Statics B
  outputBuffer : List ℚ

/-- The quality factor `Q` of `GenerateAudioSamples`. -/
def Q : ℚ := 2

/-- The body of the per-sample loop of `GenerateAudioSamples` for frame `sample`, whose channel
slots start at index `offset`; `clock` is the value of `CDemoMgr::GetSampleClock()`. -/
def renderFrame {B : Type} (E : Env) (F : SBiQuadOps B) (g : Globals) (clock : Nat)
    (numChannels : Nat) (sampleRate : ℚ) (sample offset : Nat) (s : Render B) :
    Option (Render B) :=
  let currentLPF := g.g_lpf
  let currentHPF := g.g_hpf
  -- handle LFO controlled LPF
  let lowPass1 : List B :=
    if currentLPF = EEffect.e_LFO then
      let LFOValue : ℚ := E.sinf ((clock : ℚ) * (1 / 7) / sampleRate * 2 * E.c_pi)
      let LFOfrequency : ℚ := E.ScaleBiPolarValue LFOValue 250 1500
      setAllParams F s.statics.lowPassFilter EType.e_lowPass LFOfrequency sampleRate Q 1
    else s.statics.lowPassFilter
  -- handle LFO controlled HPF
  let highPass1 : List B :=
    if currentHPF = EEffect.e_LFO then
      let LFOfrequency : ℚ := E.sinf ((clock : ℚ) * (1 / 8) / sampleRate * 2 * E.c_pi) * 225 + 450
      setAllParams F s.statics.highPassFilter EType.e_highPass LFOfrequency sampleRate Q 1
    else s.statics.highPassFilter
  -- add up all notes to get the final value
  let summed := sumNotes E sampleRate s.g_notes 0
  -- generate rhythm notes if we should
  let withRhythm : Option ℚ :=
    if g.g_rhythmOn = true then
      (GenerateRhythm E g (size_add (size_sub clock s.statics.rhythmStart) sample) sampleRate).map
        (fun r => summed.2 + r)
    else some summed.2
  match withRhythm with
  | none => none
  | some value0 =>
    -- apply lpf
    let lp : List B × ℚ :=
      if currentLPF ≠ EEffect.e_none then addSampleAll F lowPass1 value0 else (lowPass1, value0)
    -- apply hpf
    let hp : List B × ℚ :=
      if currentHPF ≠ EEffect.e_none then addSampleAll F highPass1 lp.2 else (highPass1, lp.2)
    -- apply the final LPF if we should
    let ms : B × ℚ :=
      if g.g_masterOutLPFOn = true then F.AddSample s.statics.masterOutLPF hp.2
      else (s.statics.masterOutLPF, hp.2)
    -- copy the value to all audio channels
    some
      { g_notes := summed.1
        statics :=
          { s.statics with lowPassFilter := lp.1, highPassFilter := hp.1, masterOutLPF := ms.1 }
        outputBuffer := writeChannels s.outputBuffer offset numChannels ms.2 }

/-- The loop `for (sample = 0; sample < framesPerBuffer; ++sample, outputBuffer += numChannels)`
with `remaining` iterations left, at frame `sample` and buffer index `offset`. -/
def renderFrames {B : Type} (E : Env) (F : SBiQuadOps B) (g : Globals) (clock : Nat)
    (numChannels : Nat) (sampleRate : ℚ) : Nat → Nat → Nat → Render B → Option (Render B)
  | 0, _, _, s => some s
  | remaining + 1, sample, offset, s =>
    match renderFrame E F g clock numChannels sampleRate sample offset s with
    | none => none
    | some s1 =>
      renderFrames E F g clock numChannels sampleRate remaining (sample + 1)
        (offset + numChannels) s1

/-- The shifting loop of `std::remove_if` (as implemented by the usual standard libraries): `i`
runs from the element after the first match to the end, and every element for which the predicate
is false is assigned to the write position `first`, which then advances.  `SNote` holds scalars
only, so the move assignment copies and the source element keeps its value.  `fuel` is the number
of elements from `i` to the end. -/
def remove_if_loop (pred : SNote → Bool) : Nat → Nat → Nat → List SNote → List SNote × Nat
  | 0, _, first, v => (v, first)
  | fuel + 1, i, first, v =>
    match v[i]? with
    | none => (v, first)
    | some x =>
      if pred x = true then remove_if_loop pred fuel (i + 1) first v
      else remove_if_loop pred fuel (i + 1) (first + 1) (v.set first x)

/-- The algorithm `std::remove_if(v.begin(), v.end(), pred)`: the vector after the call (same
length) and the index of the returned iterator. -/
def remove_if (v : List SNote) (pred : SNote → Bool) : List SNote × Nat :=
  -- first = std::find_if(first, last, pred)
  let first : Nat := v.findIdx pred
  if first ≠ v.length then remove_if_loop pred (v.length - (first + 1)) (first + 1) first v
  else (v, first)

/-- The end of `GenerateAudioSamples`: `iter = std::remove_if(..., m_dead)` followed by
`if (iter != g_notes.end()) g_notes.erase(iter)`, the single-element `erase`. -/
def pruneNotes (notes : List SNote) : List SNote :=
  let r := remove_if notes (fun note => note.m_dead)
  if r.2 ≠ r.1.length then r.1.eraseIdx r.2 else r.1

/-- The statics after the parameter refresh at the head of `GenerateAudioSamples` (master filter,
low-pass level, high-pass level, rhythm latch). -/
def refreshStatics {B : Type} (F : SBiQuadOps B) (g : Globals) (clock : Nat) (sampleRate : ℚ)
    (st : Statics B) : Statics B :=
  -- a LPF to apply at the end
  let st1 : Statics B :=
    if st.masterOutLPFInited = false then
      { st with
        masterOutLPF := F.SetEffectParams st.masterOutLPF EType.e_lowPass 440 sampleRate 1 1
        masterOutLPFInited := true }
    else st
  -- update our low pass filter
  let currentLPF := g.g_lpf
  let st2 : Statics B :=
    if currentLPF ≠ st1.lastLPF then
      { st1 with
        lastLPF := currentLPF
        lowPassFilter :=
          match currentLPF with
          | EEffect.e_small =>
            setAllParams F st1.lowPassFilter EType.e_lowPass 1760 sampleRate Q 1
          | EEffect.e_medium =>
            setAllParams F st1.lowPassFilter EType.e_lowPass 880 sampleRate Q 1
          | EEffect.e_large =>
            setAllParams F st1.lowPassFilter EType.e_lowPass 220 sampleRate Q 1
          | _ => st1.lowPassFilter }
    else st1
  -- update our high pass filter
  let currentHPF := g.g_hpf
  let st3 : Statics B :=
    if currentHPF ≠ st2.lastHPF then
      { st2 with
        lastHPF := currentHPF
        highPassFilter :=
          match currentHPF with
          | EEffect.e_small =>
            setAllParams F st2.highPassFilter EType.e_highPass 220 sampleRate Q 1
          | EEffect.e_medium =>
            setAllParams F st2.highPassFilter EType.e_highPass 880 sampleRate Q 1
          | EEffect.e_large =>
            setAllParams F st2.highPassFilter EType.e_highPass 1760 sampleRate Q 1
          | _ => st2.highPassFilter }
    else st2
  -- handle auto generated rhythm starting and stopping
  let rhythmIsOn := g.g_rhythmOn
  if st3.rhythmWasOn ≠ rhythmIsOn then
    { st3 with rhythmWasOn := rhythmIsOn, rhythmStart := clock }
  else st3

/-- The function `GenerateAudioSamples(outputBuffer, framesPerBuffer, numChannels, sampleRate)`
run on the globals `g`, the statics `st` and the sample clock `clock`: the note registry, the
statics and the buffer after the call, or `none` when the rhythm generator divides by zero. -/
def GenerateAudioSamples {B : Type} (E : Env) (F : SBiQuadOps B) (clock : Nat) (g : Globals)
    (st : Statics B) (outputBuffer : List ℚ) (framesPerBuffer numChannels : Nat)
    (sampleRate : ℚ) : Option (Render B) :=
  let st1 := refreshStatics F g clock sampleRate st
  match renderFrames E F g clock numChannels sampleRate framesPerBuffer 0 0
      { g_notes := g.g_notes, statics := st1, outputBuffer := outputBuffer } with
  | none => none
  | some s =>
    -- remove notes that have died
    some { s with g_notes := pruneNotes s.g_notes }

/-! ## Input dispatcher -/

/-- The body of the lambda of `StopNote` on one note. -/
def stopNoteOne (frequency : ℚ) (note : SNote) : SNote :=
  if note.m_frequency = frequency then { note with m_wantsKeyRelease := true } else note

/-- The function `StopNote(frequency)`: every note of this frequency wants to enter the released
state. -/
def StopNote (g : Globals) (frequency : ℚ) : Globals :=
  { g with g_notes := g.g_notes.map (stopNoteOne frequency) }

/-! ## Concrete collaborators for closed examples -/

/-- A short mono clip: 100 samples of value `1/2`, ten seconds long at 10 samples per second. -/
def demoClip : SWavFile :=
  { m_numChannels := 1
    m_numSamples := 100
    m_lengthSeconds := 10
    m_samples := List.replicate 100 (1 / 2) }

/-- A parabolic stand-in for `sin (2 π phase)` on rational phases in `[0, 1)`. -/
def demoSine (phase : ℚ) : ℚ :=
  if phase ≤ 1 / 2 then 16 * phase * (1 / 2 - phase)
  else -(16 * (phase - 1 / 2) * (1 - phase))

/-- A concrete environment: saw `2 phase - 1`, square `-1` / `1`, triangle `4 |phase - 1/2| - 1`,
a parabolic sine, an octave-doubling note table and the clip `demoClip` for both samples. -/
def demoEnv : Env :=
  { SineWave := demoSine
    SawWave := fun phase => phase * 2 - 1
    SquareWave := fun phase => if phase ≥ 1 / 2 then 1 else -1
    TriangleWave := fun phase => |phase - 1 / 2| * 4 - 1
    NoteToFrequency := fun octave note => 55 * 2 ^ octave * (12 + note) / 12
    sinf := fun x => demoSine (fmodf (x / (2 * (355 / 113))) 1)
    c_pi := 355 / 113
    ScaleBiPolarValue := fun value min max => (value + 1) / 2 * (max - min) + min
    g_sample_cymbal := demoClip
    g_sample_legend1 := demoClip }

/-- A concrete filter whose state is the last cutoff frequency set and which passes samples
through unchanged. -/
def demoBiQuad : SBiQuadOps ℚ :=
  { SetEffectParams := fun _ _ frequency _ _ _ => frequency
    AddSample := fun b value => (b, value) }

/-! ## Vocabulary of the statements -/

/-- The four procedural waveforms. -/
def isProcedural : EWaveForm → Bool
  | EWaveForm.e_waveSine => true
  | EWaveForm.e_waveSaw => true
  | EWaveForm.e_waveSquare => true
  | EWaveForm.e_waveTriangle => true
  | _ => false

/-- The raw waveform value that `GenerateNoteSample` multiplies by the envelope for a procedural
note (the first four cases of its `switch`). -/
def rawWave (E : Env) (w : EWaveForm) (phase : ℚ) : ℚ :=
  match w with
  | EWaveForm.e_waveSine => E.SineWave phase
  | EWaveForm.e_waveSaw => E.SawWave phase
  | EWaveForm.e_waveSquare => E.SquareWave phase
  | EWaveForm.e_waveTriangle => E.TriangleWave phase
  | _ => 0

/-- The clip that `GenerateNoteSample` plays for a sample-backed waveform. -/
def clipOf (E : Env) : EWaveForm → SWavFile
  | EWaveForm.e_sampleVoice => E.g_sample_legend1
  | _ => E.g_sample_cymbal

/-- The larger channel count of the two clips, at least 1: the factor by which a note age is
multiplied at most before it is compared with a clip length. -/
def maxChannels (E : Env) : Nat :=
  max 1 (max E.g_sample_cymbal.m_numChannels E.g_sample_legend1.m_numChannels)

/-- One call that the program can make on a note of the registry. -/
inductive NoteOp where
  | envelope (ageInSeconds sampleRate : ℚ)
  | sampleAudio (sample : SWavFile) (ageInSeconds : ℚ)
  | noteSample (sampleRate : ℚ)
  | stop (frequency : ℚ)

/-- The note after one call. -/
def applyOp (E : Env) (note : SNote) : NoteOp → SNote
  | NoteOp.envelope ageInSeconds sampleRate => (GenerateEnvelope note ageInSeconds sampleRate).1
  | NoteOp.sampleAudio sample ageInSeconds => (SampleAudioSample note sample ageInSeconds).1
  | NoteOp.noteSample sampleRate => (GenerateNoteSample E note sampleRate).1
  | NoteOp.stop frequency => stopNoteOne frequency note

/-- The note after `k` successive `GenerateNoteSample` calls at one sample rate. -/
def renderTimes (E : Env) (sampleRate : ℚ) : Nat → SNote → SNote
  | 0, note => note
  | k + 1, note => renderTimes E sampleRate k (GenerateNoteSample E note sampleRate).1

/-! ## Blocks of the loop body of `GenerateAudioSamples` -/

/-- The block "handle LFO controlled LPF" of the loop body: the low-pass stages after it. -/
def lfoLowPass {B : Type} (E : Env) (F : SBiQuadOps B) (g : Globals) (clock : Nat)
    (sampleRate : ℚ) (stages : List B) : List B :=
  if g.g_lpf = EEffect.e_LFO then
    let LFOValue : ℚ := E.sinf ((clock : ℚ) * (1 / 7) / sampleRate * 2 * E.c_pi)
    let LFOfrequency : ℚ := E.ScaleBiPolarValue LFOValue 250 1500
    setAllParams F stages EType.e_lowPass LFOfrequency sampleRate Q 1
  else stages

/-- The block "handle LFO controlled HPF" of the loop body: the high-pass stages after it. -/
def lfoHighPass {B : Type} (E : Env) (F : SBiQuadOps B) (g : Globals) (clock : Nat)
    (sampleRate : ℚ) (stages : List B) : List B :=
  if g.g_hpf = EEffect.e_LFO then
    let LFOfrequency : ℚ := E.sinf ((clock : ℚ) * (1 / 8) / sampleRate * 2 * E.c_pi) * 225 + 450
    setAllParams F stages EType.e_highPass LFOfrequency sampleRate Q 1
  else stages

/-- The index `CDemoMgr::GetSampleClock() - rhythmStart + sample` that the loop body passes to
`GenerateRhythm`. -/
def rhythmIndex (clock rhythmStart sample : Nat) : Nat :=
  size_add (size_sub clock rhythmStart) sample

/-- The blocks "add up all notes" and "generate rhythm notes if we should" of the loop body: the
value before the filters, `none` when the rhythm generator divides by zero. -/
def frameMix (E : Env) (g : Globals) (clock : Nat) (sampleRate : ℚ) (sample rhythmStart : Nat)
    (notes : List SNote) : Option ℚ :=
  if g.g_rhythmOn = true then
    (GenerateRhythm E g (rhythmIndex clock rhythmStart sample) sampleRate).map
      (fun r => (sumNotes E sampleRate notes 0).2 + r)
  else some (sumNotes E sampleRate notes 0).2

/-- The blocks "apply lpf", "apply hpf" and "apply the final LPF if we should" of the loop body on
the stages `lowPass`, `highPass`, `master` and the value `value0`: the stages after the block and
the final value. -/
def frameFilter {B : Type} (F : SBiQuadOps B) (g : Globals) (lowPass highPass : List B)
    (master : B) (value0 : ℚ) : (List B × List B × B) × ℚ :=
  let lp : List B × ℚ :=
    if g.g_lpf ≠ EEffect.e_none then addSampleAll F lowPass value0 else (lowPass, value0)
  let hp : List B × ℚ :=
    if g.g_hpf ≠ EEffect.e_none then addSampleAll F highPass lp.2 else (highPass, lp.2)
  let ms : B × ℚ :=
    if g.g_masterOutLPFOn = true then F.AddSample master hp.2 else (master, hp.2)
  ((lp.1, hp.1, ms.1), ms.2)

/-- The loop body without the copy to the channels: the notes and the statics after the frame and
the value that the frame writes. -/
def frameCore {B : Type} (E : Env) (F : SBiQuadOps B) (g : Globals) (clock : Nat)
    (sampleRate : ℚ) (sample : Nat) (notes : List SNote) (st : Statics B) :
    Option (List SNote × Statics B × ℚ) :=
  match frameMix E g clock sampleRate sample st.rhythmStart notes with
  | none => none
  | some value0 =>
    let r := frameFilter F g (lfoLowPass E F g clock sampleRate st.lowPassFilter)
      (lfoHighPass E F g clock sampleRate st.highPassFilter) st.masterOutLPF value0
    some ((sumNotes E sampleRate notes 0).1,
      { st with lowPassFilter := r.1.1, highPassFilter := r.1.2.1, masterOutLPF := r.1.2.2 },
      r.2)

/-- The per-sample loop without the output buffer, with `remaining` iterations left at frame
`sample`: the values of the frames in order, and the notes and the statics after the loop. -/
def frameValues {B : Type} (E : Env) (F : SBiQuadOps B) (g : Globals) (clock : Nat)
    (sampleRate : ℚ) : Nat → Nat → List SNote → Statics B →
    Option (List ℚ × List SNote × Statics B)
  | 0, _, notes, st => some ([], notes, st)
  | remaining + 1, sample, notes, st =>
    match frameCore E F g clock sampleRate sample notes st with
    | none => none
    | some r =>
      match frameValues E F g clock sampleRate remaining (sample + 1) r.1 r.2.1 with
      | none => none
      | some t => some (r.2.2 :: t.1, t.2)

/-- The writes of the per-sample loop: the value of each frame copied to `numChannels` slots,
frame after frame from index `offset`. -/
def writeFrames (buffer : List ℚ) (offset numChannels : Nat) : List ℚ → List ℚ
  | [] => buffer
  | value :: rest =>
    writeFrames (writeChannels buffer offset numChannels value) (offset + numChannels)
      numChannels rest

/-- In the words of the spec: the value passed through the cascade stages in series, in index
order, each stage returning its output as the input of the next. -/
def passThrough {B : Type} (F : SBiQuadOps B) (stages : List B) (value : ℚ) : ℚ :=
  stages.foldl (fun v b => (F.AddSample b v).2) value

/-- The filter `F` with every stage carrying the number of `SetEffectParams` calls made on it. -/
def countingOps {B : Type} (F : SBiQuadOps B) : SBiQuadOps (B × Nat) :=
  { SetEffectParams := fun b type frequency sampleRate q gain =>
      (F.SetEffectParams b.1 type frequency sampleRate q gain, b.2 + 1)
    AddSample := fun b value => (((F.AddSample b.1 value).1, b.2), (F.AddSample b.1 value).2) }

/-! ## Blocks of `GenerateRhythm` -/

/-- The beat size `size_t(sampleRate) / 8` of `GenerateRhythm`. -/
def beatSizeOf (sampleRate : ℚ) : Nat := size_of_float sampleRate / 8

/-- The frequency selection of `GenerateRhythm` from the beat index reduced modulo 32 (the `if`
on `beatIndex < 16` and the two `switch` statements on `beatIndex % 4`). -/
def rhythmFrequency (E : Env) (beatIndex1 : Nat) : ℚ :=
  let beatIndex : Nat := beatIndex1 % 4
  if beatIndex1 < 16 then
    if beatIndex = 0 then E.NoteToFrequency 2 0
    else if beatIndex = 1 then E.NoteToFrequency 1 0
    else if beatIndex = 2 then E.NoteToFrequency 2 3
    else if beatIndex = 3 then E.NoteToFrequency 1 3
    else 0
  else
    if beatIndex = 0 then E.NoteToFrequency 2 2
    else if beatIndex = 1 then E.NoteToFrequency 1 2
    else if beatIndex = 2 then E.NoteToFrequency 2 5
    else if beatIndex = 3 then E.NoteToFrequency 1 5
    else 0

/-- The end of `GenerateRhythm`: the tone of frequency `frequency` at the in-beat time
`timeInSeconds` under the beat envelope, in the globally selected waveform. -/
def rhythmTone (E : Env) (g : Globals) (frequency timeInSeconds beatTime : ℚ) : ℚ :=
  let phase : ℚ := fmodf (timeInSeconds * frequency) 1
  let envelope : ℚ := Envelope3Pt timeInSeconds 0 0 (1 / 10) 1 beatTime 0
  match g.g_currentWaveForm with
  | EWaveForm.e_waveSine => E.SineWave phase * envelope
  | EWaveForm.e_waveSaw => E.SawWave phase * envelope
  | EWaveForm.e_waveSquare => E.SquareWave phase * envelope
  | EWaveForm.e_waveTriangle => E.TriangleWave phase * envelope
  | _ => 0

/-- In the words of the spec: phrase A, the four notes of beats 0 to 15. -/
def phraseA (E : Env) : List ℚ :=
  [E.NoteToFrequency 2 0, E.NoteToFrequency 1 0, E.NoteToFrequency 2 3, E.NoteToFrequency 1 3]

/-- In the words of the spec: phrase B, the four notes of beats 16 to 31. -/
def phraseB (E : Env) : List ℚ :=
  [E.NoteToFrequency 2 2, E.NoteToFrequency 1 2, E.NoteToFrequency 2 5, E.NoteToFrequency 1 5]

/-! ## Key events -/

/-- The key-to-note `switch` of `OnKey` as a table from the `char` code of the key to the
arguments `(octave, note)` of `NoteToFrequency`: the QWERTY row, the ASDF row, the ZXCV row and
the two low keys. -/
def keyTable : List (Int × Nat × Nat) :=
  [(81, 3, 0), (87, 3, 1), (69, 3, 2), (82, 3, 3), (84, 3, 4), (89, 3, 5), (85, 3, 6),
    (73, 3, 7), (79, 3, 8), (80, 3, 9), (-37, 3, 10),
    (65, 2, 0), (83, 2, 1), (68, 2, 2), (70, 2, 3), (71, 2, 4), (72, 2, 5), (74, 2, 6),
    (75, 2, 7), (76, 2, 8), (-70, 2, 9), (-34, 2, 10),
    (90, 1, 0), (88, 1, 1), (67, 1, 2), (86, 1, 3), (66, 1, 4), (78, 1, 5), (77, 1, 6),
    (-68, 1, 7), (-66, 1, 8), (-65, 1, 9), (-95, 1, 10),
    (16, 0, 5), (-94, 0, 0)]

/-- The frequency that `OnKey` plays for a key, `none` for the `default: return` of the
`switch`. -/
def keyFrequency (E : Env) (key : Int) : Option ℚ :=
  (keyTable.lookup key).map (fun p => E.NoteToFrequency p.1 p.2)

/-- The step `EEffect((effect + 1) % e_effectCount)`. -/
def nextEffect : EEffect → EEffect
  | EEffect.e_none => EEffect.e_small
  | EEffect.e_small => EEffect.e_medium
  | EEffect.e_medium => EEffect.e_large
  | EEffect.e_large => EEffect.e_LFO
  | EEffect.e_LFO => EEffect.e_none

/-- The first `switch` of `OnKey`, taken when the key is pressed: the globals after a control key
(`'1'` to `'9'` and `'0'`, codes 49 to 57 and 48), `none` for every other key. -/
def controlKey (g : Globals) (key : Int) : Option Globals :=
  if key = 49 then some { g with g_currentWaveForm := EWaveForm.e_waveSine }
  else if key = 50 then some { g with g_currentWaveForm := EWaveForm.e_waveSaw }
  else if key = 51 then some { g with g_currentWaveForm := EWaveForm.e_waveSquare }
  else if key = 52 then some { g with g_currentWaveForm := EWaveForm.e_waveTriangle }
  else if key = 53 then
    some { g with g_notes := g.g_notes ++ [SNote.new 0 EWaveForm.e_sampleCymbals] }
  else if key = 54 then
    some { g with g_notes := g.g_notes ++ [SNote.new 0 EWaveForm.e_sampleVoice] }
  else if key = 55 then some { g with g_lpf := nextEffect g.g_lpf }
  else if key = 56 then some { g with g_hpf := nextEffect g.g_hpf }
  else if key = 57 then some { g with g_rhythmOn := !g.g_rhythmOn }
  else if key = 48 then some { g with g_masterOutLPFOn := !g.g_masterOutLPFOn }
  else none

/-- The function `OnKey(key, pressed)` on the globals (the console output is not modelled). -/
def OnKey (E : Env) (g : Globals) (key : Int) (pressed : Bool) : Globals :=
  -- pressing numbers switches instruments
  match (if pressed = true then controlKey g key else none) with
  | some g1 => g1
  | none =>
    -- figure out what frequency to play
    match keyFrequency E key with
    | none => g
    | some frequency =>
      -- if releasing a note, we need to find and kill the flute note of the same frequency
      if pressed = false then StopNote g frequency
      else { g with g_notes := g.g_notes ++ [SNote.new frequency g.g_currentWaveForm] }

/-- In the words of the spec: the value `M(H(L(mix)))` that a frame writes.  `L` passes the mix
through the low-pass stages in index order if the low-pass level is not `e_none` and is the
identity otherwise, `H` does the same with the high-pass stages, and `M` is the master low-pass
if `g_masterOutLPFOn` and the identity otherwise. -/
def filteredValue {B : Type} (F : SBiQuadOps B) (g : Globals) (lowPass highPass : List B)
    (master : B) (mix : ℚ) : ℚ :=
  let l : ℚ := if g.g_lpf = EEffect.e_none then mix else passThrough F lowPass mix
  let h : ℚ := if g.g_hpf = EEffect.e_none then l else passThrough F highPass l
  if g.g_masterOutLPFOn = true then (F.AddSample master h).2 else h

/-- The number of times the refresh at the head of `GenerateAudioSamples` sets the parameters of
each stage of a channel whose last applied level is `last` and whose selected level is `current`:
once when the level changed to `e_small`, `e_medium` or `e_large`, never otherwise. -/
def refreshCalls (last current : EEffect) : Nat :=
  if current ≠ last ∧
      (current = EEffect.e_small ∨ current = EEffect.e_medium ∨ current = EEffect.e_large) then 1
  else 0

/-! ## Blocks of the parameter refresh of `GenerateAudioSamples` -/

/-- The block of the master low-pass: parameterized when `masterOutLPFInited` is false. -/
def refreshMaster {B : Type} (F : SBiQuadOps B) (sampleRate : ℚ) (st : Statics B) : Statics B :=
  if st.masterOutLPFInited = false then
    { st with
      masterOutLPF := F.SetEffectParams st.masterOutLPF EType.e_lowPass 440 sampleRate 1 1
      masterOutLPFInited := true }
  else st

/-- The block "update our low pass filter". -/
def refreshLowPass {B : Type} (F : SBiQuadOps B) (g : Globals) (sampleRate : ℚ)
    (st : Statics B) : Statics B :=
  if g.g_lpf ≠ st.lastLPF then
    { st with
      lastLPF := g.g_lpf
      lowPassFilter :=
        match g.g_lpf with
        | EEffect.e_small => setAllParams F st.lowPassFilter EType.e_lowPass 1760 sampleRate Q 1
        | EEffect.e_medium => setAllParams F st.lowPassFilter EType.e_lowPass 880 sampleRate Q 1
        | EEffect.e_large => setAllParams F st.lowPassFilter EType.e_lowPass 220 sampleRate Q 1
        | _ => st.lowPassFilter }
  else st

/-- The block of the high-pass filter update. -/
def refreshHighPass {B : Type} (F : SBiQuadOps B) (g : Globals) (sampleRate : ℚ)
    (st : Statics B) : Statics B :=
  if g.g_hpf ≠ st.lastHPF then
    { st with
      lastHPF := g.g_hpf
      highPassFilter :=
        match g.g_hpf with
        | EEffect.e_small => setAllParams F st.highPassFilter EType.e_highPass 220 sampleRate Q 1
        | EEffect.e_medium => setAllParams F st.highPassFilter EType.e_highPass 880 sampleRate Q 1
        | EEffect.e_large =>
          setAllParams F st.highPassFilter EType.e_highPass 1760 sampleRate Q 1
        | _ => st.highPassFilter }
  else st

/-- The block "handle auto generated rhythm starting and stopping". -/
def refreshRhythm {B : Type} (g : Globals) (clock : Nat) (st : Statics B) : Statics B :=
  if st.rhythmWasOn ≠ g.g_rhythmOn then
    { st with rhythmWasOn := g.g_rhythmOn, rhythmStart := clock }
  else st

/-- The statics of a run with the counting filter, with the counts dropped. -/
def eraseCounts {B : Type} (st : Statics (B × Nat)) : Statics B :=
  { masterOutLPF := st.masterOutLPF.1
    masterOutLPFInited := st.masterOutLPFInited
    lowPassFilter := st.lowPassFilter.map Prod.fst
    lastLPF := st.lastLPF
    highPassFilter := st.highPassFilter.map Prod.fst
    lastHPF := st.lastHPF
    rhythmWasOn := st.rhythmWasOn
    rhythmStart := st.rhythmStart }

/-- In the words of the spec: the recompute count "1 per level change plus
(frameCount × isLFO)" for a channel whose last applied level is `last` and whose selected level
is `current`, over a render of `frameCount` frames. -/
def claimedRecomputes (last current : EEffect) (frameCount : Nat) : Nat :=
  (if current ≠ last then 1 else 0) + (if current = EEffect.e_LFO then frameCount else 0)

/-! ## The `float` arithmetic as a parameter

The definitions above compute on `float` values exactly.  The source rounds every `float`
operation, and the comparison of the time in release with `0.1f` in `GenerateEnvelope` depends on
the rounding.  The definitions of this section are the same functions with the arithmetic as a
parameter: `exactOps` gives back the definitions above, `binary32Ops` is IEEE-754 binary32. -/

/-- The `float` arithmetic of a build of the program.  A `float` value is a rational; each field
is an operation as the build computes it, with its rounding: the conversion `float(n)` of a
`size_t`, the operators `-`, `*` and `/`, the literals `0.1f` and `0.8f`, `std::fmodf`, and the
interpolators `Envelope2Pt` and `Envelope4Pt` of `DemoMgr.h`.  Infinities and NaN are outside the
model. -/
structure FloatOps where
  ofSize : Nat → ℚ
  sub : ℚ → ℚ → ℚ
  mul : ℚ → ℚ → ℚ
  div : ℚ → ℚ → ℚ
  lit01 : ℚ
  lit08 : ℚ
  fmodf : ℚ → ℚ → ℚ
  Envelope2Pt : ℚ → ℚ → ℚ → ℚ → ℚ → ℚ
  Envelope4Pt : ℚ → ℚ → ℚ → ℚ → ℚ → ℚ → ℚ → ℚ → ℚ → ℚ

/-- The function `GenerateEnvelope(note, ageInSeconds, sampleRate)` in the arithmetic `A`: the
note after the call and the returned envelope. -/
def GenerateEnvelopeFl (A : FloatOps) (note : SNote) (ageInSeconds sampleRate : ℚ) : SNote × ℚ :=
  -- float envelope = 0.0f;
  let envelope0 : ℚ := 0
  -- if (note.m_releaseAge == 0) { ... }
  let s1 : SNote × ℚ :=
    if note.m_releaseAge = 0 then
      if note.m_wantsKeyRelease = true ∧ ageInSeconds > A.lit01 then
        ({ note with m_releaseAge := note.m_age }, envelope0)
      else
        (note, A.Envelope2Pt ageInSeconds 0 0 A.lit01 1)
    else (note, envelope0)
  -- if (note.m_releaseAge != 0) { ... }
  if s1.1.m_releaseAge ≠ 0 then
    let releaseAgeInSeconds : ℚ := A.div (A.ofSize s1.1.m_releaseAge) sampleRate
    let secondsInRelease : ℚ := A.sub ageInSeconds releaseAgeInSeconds
    let envelope : ℚ := A.Envelope2Pt secondsInRelease 0 1 A.lit01 0
    if secondsInRelease > A.lit01 then
      ({ s1.1 with m_dead := true }, envelope)
    else (s1.1, envelope)
  else s1

/-- The function `SampleAudioSample(note, sample, ageInSeconds)` in the arithmetic `A`. -/
def SampleAudioSampleFl (A : FloatOps) (note : SNote) (sample : SWavFile) (ageInSeconds : ℚ) :
    SNote × ℚ :=
  let sampleIndex : Nat := size_mul note.m_age sample.m_numChannels
  if sampleIndex ≥ sample.m_numSamples then
    ({ note with m_dead := true }, 0)
  else
    let envelope : ℚ :=
      A.Envelope4Pt ageInSeconds 0 0 A.lit01 1 (A.sub sample.m_lengthSeconds A.lit01) 1
        sample.m_lengthSeconds 0
    (note, A.mul (sample.m_samples.getD sampleIndex 0) envelope)

/-- The function `GenerateNoteSample(note, sampleRate)` in the arithmetic `A`. -/
def GenerateNoteSampleFl (A : FloatOps) (E : Env) (note : SNote) (sampleRate : ℚ) : SNote × ℚ :=
  let ageInSeconds : ℚ := A.div (A.ofSize note.m_age) sampleRate
  -- ++note.m_age;
  let note1 : SNote := { note with m_age := size_add note.m_age 1 }
  let r := GenerateEnvelopeFl A note1 ageInSeconds sampleRate
  let note2 : SNote := r.1
  let envelope : ℚ := A.mul r.2 A.lit08
  let phase : ℚ := A.fmodf (A.mul ageInSeconds note2.m_frequency) 1
  match note2.m_waveForm with
  | EWaveForm.e_waveSine => (note2, A.mul (E.SineWave phase) envelope)
  | EWaveForm.e_waveSaw => (note2, A.mul (E.SawWave phase) envelope)
  | EWaveForm.e_waveSquare => (note2, A.mul (E.SquareWave phase) envelope)
  | EWaveForm.e_waveTriangle => (note2, A.mul (E.TriangleWave phase) envelope)
  | EWaveForm.e_sampleCymbals => SampleAudioSampleFl A note2 E.g_sample_cymbal ageInSeconds
  | EWaveForm.e_sampleVoice => SampleAudioSampleFl A note2 E.g_sample_legend1 ageInSeconds

/-- The note after `k` successive `GenerateNoteSample` calls at one sample rate, in the
arithmetic `A`. -/
def renderTimesFl (A : FloatOps) (E : Env) (sampleRate : ℚ) : Nat → SNote → SNote
  | 0, note => note
  | k + 1, note => renderTimesFl A E sampleRate k (GenerateNoteSampleFl A E note sampleRate).1

/-- The note states reachable in the arithmetic `A` from a freshly constructed `SNote` by
`GenerateNoteSample` calls at the sample rate `sampleRate` and `StopNote` calls; the index counts
the `GenerateNoteSample` calls. -/
inductive ReachFl (A : FloatOps) (E : Env) (sampleRate : ℚ) : Nat → SNote → Prop where
  | fresh (frequency : ℚ) (waveForm : EWaveForm) :
    ReachFl A E sampleRate 0 (SNote.new frequency waveForm)
  | sample {k : Nat} {note : SNote} :
    ReachFl A E sampleRate k note →
      ReachFl A E sampleRate (k + 1) (GenerateNoteSampleFl A E note sampleRate).1
  | stop {k : Nat} {note : SNote} (frequency : ℚ) :
    ReachFl A E sampleRate k note → ReachFl A E sampleRate k (stopNoteOne frequency note)

/-- The properties of a `float` arithmetic that the statements on dead notes use.  Rounding is
monotone: the conversion `float(n)`, the division by a positive number and the subtraction do not
decrease when their first argument grows.  A product with 0 is 0.  `Envelope2Pt` holds its second
value from its second time on (it is clamped). -/
structure MonotoneOps (A : FloatOps) : Prop where
  ofSize_mono : ∀ a b : Nat, a ≤ b → A.ofSize a ≤ A.ofSize b
  div_mono : ∀ x y d : ℚ, 0 < d → x ≤ y → A.div x d ≤ A.div y d
  sub_mono : ∀ x y z : ℚ, x ≤ y → A.sub x z ≤ A.sub y z
  mul_zero : ∀ x : ℚ, A.mul x 0 = 0
  zero_mul : ∀ x : ℚ, A.mul 0 x = 0
  clamped : ∀ time : ℚ, A.lit01 ≤ time → A.Envelope2Pt time 0 1 A.lit01 0 = 0

/-- The exact arithmetic: no operation rounds. -/
def exactOps : FloatOps :=
  { ofSize := fun n => (n : ℚ)
    sub := fun x y => x - y
    mul := fun x y => x * y
    div := fun x y => x / y
    lit01 := 1 / 10
    lit08 := 4 / 5
    fmodf := fmodf
    Envelope2Pt := Envelope2Pt
    Envelope4Pt := Envelope4Pt }

/-! ## IEEE-754 binary32 -/

/-- Evaluation order: the continuation receives the number `n` after it was computed. -/
def forceNat {α : Type} (n : Nat) (k : Nat → α) : α :=
  match n with
  | 0 => k 0
  | m + 1 => k (m + 1)

/-- Evaluation order: the continuation receives the integer `z` after it was computed. -/
def forceInt {α : Type} (z : Int) (k : Int → α) : α :=
  match z with
  | Int.ofNat n => forceNat n fun m => k (Int.ofNat m)
  | Int.negSucc n => forceNat n fun m => k (Int.negSucc m)

/-- Evaluation order: the continuation receives the rational `x` after it was computed. -/
def forceRat {α : Type} (x : ℚ) (k : ℚ → α) : α :=
  forceInt x.num fun n => forceNat x.den fun d => k (mkRat n d)

/-- The binary logarithm, rounded down, by halving at most `fuel` times. -/
def log2Fuel : Nat → Nat → Nat
  | 0, _ => 0
  | fuel + 1, n => if 2 ≤ n then log2Fuel fuel (n / 2) + 1 else 0

/-- The binary logarithm of a natural number, rounded down (0 for 0). -/
def ilog2 (n : Nat) : Nat := log2Fuel n n

/-- The fraction `N / D` rounded to the nearest natural number, a half to the even neighbour. -/
def rneDiv (N D : Nat) : Nat :=
  if 2 * (N % D) < D then N / D
  else if D < 2 * (N % D) then N / D + 1
  else if (N / D) % 2 = 0 then N / D
  else N / D + 1

/-- A rational rounded to the nearest integer, a half to the even neighbour: the function that
`rneDiv` computes on fractions (`rneDiv_eq`). -/
def roundHalfEven (x : ℚ) : ℤ :=
  if x - x.floor < 1 / 2 then x.floor
  else if 1 / 2 < x - x.floor then x.floor + 1
  else if x.floor % 2 = 0 then x.floor
  else x.floor + 1

/-- The binary exponent of a positive fraction: the `e` with `2 ^ e ≤ a / q < 2 ^ (e + 1)`. -/
def binadeNat (a q : Nat) : Int :=
  if (if ilog2 q ≤ ilog2 a then 2 ^ (ilog2 a - ilog2 q) * q ≤ a
      else q ≤ a * 2 ^ (ilog2 q - ilog2 a)) then
    (ilog2 a : Int) - ilog2 q
  else (ilog2 a : Int) - ilog2 q - 1

/-- The exponent of the unit in the last place of binary32 at the positive fraction `a / q`: the
significand has 24 bits and the least exponent is `-126`. -/
def ulpExp (a q : Nat) : Int := max (binadeNat a q) (-126) - 23

/-- The positive fraction `a / q` rounded to binary32 (to nearest, ties to even). -/
def round32Pos (a q : Nat) : ℚ :=
  if 0 ≤ ulpExp a q then
    ((rneDiv a (q * 2 ^ (ulpExp a q).toNat) * 2 ^ (ulpExp a q).toNat : Nat) : ℚ)
  else
    mkRat (rneDiv (a * 2 ^ (-ulpExp a q).toNat) q) (2 ^ (-ulpExp a q).toNat)

/-- The fraction `n / d`, `0 < d`, rounded to binary32 (to nearest, ties to even).  Values beyond
the largest finite binary32 are not mapped to infinity: overflow is outside the model. -/
def round32Frac (n : Int) (d : Nat) : ℚ :=
  if 0 < n then round32Pos n.natAbs d
  else if n < 0 then -round32Pos n.natAbs d
  else 0

/-- A rational rounded to binary32. -/
def round32 (x : ℚ) : ℚ :=
  forceInt x.num fun n => forceNat x.den fun d => round32Frac n d

/-- The binary32 difference `x - y`. -/
def sub32 (x y : ℚ) : ℚ :=
  forceInt x.num fun a => forceNat x.den fun b => forceInt y.num fun c => forceNat y.den fun d =>
    round32Frac (a * d - c * b) (b * d)

/-- The binary32 product `x * y`. -/
def mul32 (x y : ℚ) : ℚ :=
  forceInt x.num fun a => forceNat x.den fun b => forceInt y.num fun c => forceNat y.den fun d =>
    round32Frac (a * c) (b * d)

/-- The binary32 quotient `x / y` (0 for `y = 0`, where the source has an infinity or a NaN). -/
def div32 (x y : ℚ) : ℚ :=
  forceInt x.num fun a => forceNat x.den fun b => forceInt y.num fun c => forceNat y.den fun d =>
    if 0 < c then round32Frac (a * d) (b * c.natAbs)
    else if c < 0 then round32Frac (-(a * d)) (b * c.natAbs)
    else 0

/-- The arithmetic of IEEE-754 binary32 with rounding to nearest, ties to even: every operation
is the exact operation followed by one rounding; `std::fmodf` is exact; the interpolators are
the clamped linear interpolations of the specification, rounded once. -/
def binary32Ops : FloatOps :=
  { ofSize := fun n => forceNat n fun m => round32Frac (Int.ofNat m) 1
    sub := sub32
    mul := mul32
    div := div32
    lit01 := round32 (1 / 10)
    lit08 := round32 (4 / 5)
    fmodf := fun x y => forceRat x fun x1 => forceRat y fun y1 => fmodf x1 y1
    Envelope2Pt := fun time time0 volume0 time1 volume1 =>
      forceRat time fun t => round32 (Envelope2Pt t time0 volume0 time1 volume1)
    Envelope4Pt := fun time time0 volume0 time1 volume1 time2 volume2 time3 volume3 =>
      forceRat time fun t => forceRat time2 fun t2 =>
        round32 (Envelope4Pt t time0 volume0 time1 volume1 t2 volume2 time3 volume3) }

/-! ## Lemmas on the envelope generator and the note renderer -/

theorem GenerateEnvelope_fields (note : SNote) (t sr : ℚ) :
    (GenerateEnvelope note t sr).1.m_frequency = note.m_frequency ∧
    (GenerateEnvelope note t sr).1.m_waveForm = note.m_waveForm ∧
    (GenerateEnvelope note t sr).1.m_age = note.m_age ∧
    (GenerateEnvelope note t sr).1.m_wantsKeyRelease = note.m_wantsKeyRelease := by
  unfold GenerateEnvelope
  by_cases h1 : note.m_releaseAge = 0 <;>
    by_cases h2 : (note.m_wantsKeyRelease = true ∧ t > c_envelopeTime) <;>
    simp only [h1, h2, if_true, if_false] <;> split_ifs <;> simp_all

theorem GenerateEnvelope_dead_mono (note : SNote) (t sr : ℚ) (h : note.m_dead = true) :
    (GenerateEnvelope note t sr).1.m_dead = true := by
  unfold GenerateEnvelope
  by_cases h1 : note.m_releaseAge = 0 <;>
    by_cases h2 : (note.m_wantsKeyRelease = true ∧ t > c_envelopeTime) <;>
    simp only [h1, h2, if_true, if_false] <;> split_ifs <;> simp_all

theorem GenerateEnvelope_releaseAge_of_ne (note : SNote) (t sr : ℚ) (h : note.m_releaseAge ≠ 0) :
    (GenerateEnvelope note t sr).1.m_releaseAge = note.m_releaseAge := by
  unfold GenerateEnvelope
  by_cases h1 : note.m_releaseAge = 0 <;>
    by_cases h2 : (note.m_wantsKeyRelease = true ∧ t > c_envelopeTime) <;>
    simp only [h1, h2, if_true, if_false] <;> split_ifs <;> simp_all

theorem GenerateEnvelope_releaseAge_cases (note : SNote) (t sr : ℚ) :
    (GenerateEnvelope note t sr).1.m_releaseAge = note.m_releaseAge ∨
    (note.m_releaseAge = 0 ∧ note.m_wantsKeyRelease = true ∧ t > c_envelopeTime ∧
      (GenerateEnvelope note t sr).1.m_releaseAge = note.m_age) := by
  unfold GenerateEnvelope
  by_cases h1 : note.m_releaseAge = 0 <;>
    by_cases h2 : (note.m_wantsKeyRelease = true ∧ t > c_envelopeTime) <;>
    simp only [h1, h2, if_true, if_false] <;> split_ifs <;> simp_all

theorem SampleAudioSample_fields (note : SNote) (clip : SWavFile) (t : ℚ) :
    (SampleAudioSample note clip t).1.m_frequency = note.m_frequency ∧
    (SampleAudioSample note clip t).1.m_waveForm = note.m_waveForm ∧
    (SampleAudioSample note clip t).1.m_age = note.m_age ∧
    (SampleAudioSample note clip t).1.m_wantsKeyRelease = note.m_wantsKeyRelease ∧
    (SampleAudioSample note clip t).1.m_releaseAge = note.m_releaseAge := by
  simp only [SampleAudioSample]
  split_ifs <;> simp

theorem SampleAudioSample_dead_mono (note : SNote) (clip : SWavFile) (t : ℚ)
    (h : note.m_dead = true) : (SampleAudioSample note clip t).1.m_dead = true := by
  simp only [SampleAudioSample]
  split_ifs <;> simp [h]

theorem GenerateNoteSample_fields (E : Env) (note : SNote) (sr : ℚ) :
    (GenerateNoteSample E note sr).1.m_frequency = note.m_frequency ∧
    (GenerateNoteSample E note sr).1.m_waveForm = note.m_waveForm ∧
    (GenerateNoteSample E note sr).1.m_age = size_add note.m_age 1 ∧
    (GenerateNoteSample E note sr).1.m_wantsKeyRelease = note.m_wantsKeyRelease := by
  have hE := GenerateEnvelope_fields { note with m_age := size_add note.m_age 1 }
    ((note.m_age : ℚ) / sr) sr
  have hS := fun clip => SampleAudioSample_fields
    (GenerateEnvelope { note with m_age := size_add note.m_age 1 } ((note.m_age : ℚ) / sr) sr).1
    clip ((note.m_age : ℚ) / sr)
  simp only [GenerateNoteSample]
  split <;> simp_all

theorem GenerateNoteSample_dead_mono (E : Env) (note : SNote) (sr : ℚ) (h : note.m_dead = true) :
    (GenerateNoteSample E note sr).1.m_dead = true := by
  have hE := GenerateEnvelope_dead_mono { note with m_age := size_add note.m_age 1 }
    ((note.m_age : ℚ) / sr) sr h
  have hS := fun clip => SampleAudioSample_dead_mono
    (GenerateEnvelope { note with m_age := size_add note.m_age 1 } ((note.m_age : ℚ) / sr) sr).1
    clip ((note.m_age : ℚ) / sr) hE
  simp only [GenerateNoteSample]
  split <;> simp_all

theorem GenerateNoteSample_releaseAge (E : Env) (note : SNote) (sr : ℚ) :
    (GenerateNoteSample E note sr).1.m_releaseAge =
      (GenerateEnvelope { note with m_age := size_add note.m_age 1 }
        ((note.m_age : ℚ) / sr) sr).1.m_releaseAge := by
  have hS := fun clip => SampleAudioSample_fields
    (GenerateEnvelope { note with m_age := size_add note.m_age 1 } ((note.m_age : ℚ) / sr) sr).1
    clip ((note.m_age : ℚ) / sr)
  simp only [GenerateNoteSample]
  split <;> simp_all

theorem stopNoteOne_fields (frequency : ℚ) (note : SNote) :
    (stopNoteOne frequency note).m_frequency = note.m_frequency ∧
    (stopNoteOne frequency note).m_waveForm = note.m_waveForm ∧
    (stopNoteOne frequency note).m_age = note.m_age ∧
    (stopNoteOne frequency note).m_dead = note.m_dead ∧
    (stopNoteOne frequency note).m_releaseAge = note.m_releaseAge := by
  unfold stopNoteOne
  split_ifs <;> simp

theorem size_add_one_of_lt (a : Nat) (h : a + 1 < SIZE_MOD) : size_add a 1 = a + 1 := by
  unfold size_add
  exact Nat.mod_eq_of_lt h

theorem sumNotes_length (E : Env) (sr : ℚ) (notes : List SNote) (value : ℚ) :
    (sumNotes E sr notes value).1.length = notes.length := by
  induction notes generalizing value with
  | nil => simp [sumNotes]
  | cons note rest ih => simp [sumNotes, ih]

theorem sumNotes_notes (E : Env) (sr : ℚ) (notes : List SNote) (value : ℚ) :
    (sumNotes E sr notes value).1 = notes.map (fun note => (GenerateNoteSample E note sr).1) := by
  induction notes generalizing value with
  | nil => simp [sumNotes]
  | cons note rest ih => simp [sumNotes, ih]

theorem renderFrame_notes {B : Type} (E : Env) (F : SBiQuadOps B) (g : Globals) (clock : Nat)
    (numChannels : Nat) (sr : ℚ) (sample offset : Nat) (s s1 : Render B)
    (h : renderFrame E F g clock numChannels sr sample offset s = some s1) :
    s1.g_notes = s.g_notes.map (fun note => (GenerateNoteSample E note sr).1) := by
  simp only [renderFrame] at h
  split at h
  · exact absurd h (by simp)
  · simp only [Option.some.injEq] at h
    rw [← h]
    exact sumNotes_notes E sr s.g_notes 0

theorem GenerateRhythm_isSome (E : Env) (g : Globals) (sampleIndex : Nat) (sr : ℚ)
    (h : size_of_float sr / 8 ≠ 0) : (GenerateRhythm E g sampleIndex sr).isSome = true := by
  simp only [GenerateRhythm, h, if_false]
  split <;> rfl

theorem renderFrame_isSome {B : Type} (E : Env) (F : SBiQuadOps B) (g : Globals) (clock : Nat)
    (numChannels : Nat) (sr : ℚ) (sample offset : Nat) (s : Render B)
    (h : g.g_rhythmOn = true → size_of_float sr / 8 ≠ 0) :
    ∃ s1, renderFrame E F g clock numChannels sr sample offset s = some s1 := by
  simp only [renderFrame]
  by_cases hr : g.g_rhythmOn = true
  · obtain ⟨r, hr2⟩ := Option.isSome_iff_exists.mp
      (GenerateRhythm_isSome E g (size_add (size_sub clock s.statics.rhythmStart) sample) sr (h hr))
    simp [hr, hr2]
  · simp [hr]

theorem renderTimes_age (E : Env) (sr : ℚ) (n : Nat) (note : SNote)
    (h : note.m_age + n < SIZE_MOD) : (renderTimes E sr n note).m_age = note.m_age + n := by
  induction n generalizing note with
  | zero => simp [renderTimes]
  | succ k ih =>
    have h1 : (GenerateNoteSample E note sr).1.m_age = note.m_age + 1 := by
      rw [(GenerateNoteSample_fields E note sr).2.2.1]
      exact size_add_one_of_lt note.m_age (by omega)
    simp only [renderTimes]
    rw [ih _ (by omega), h1]
    omega

theorem renderFrames_notes {B : Type} (E : Env) (F : SBiQuadOps B) (g : Globals) (clock : Nat)
    (numChannels : Nat) (sr : ℚ) (h : g.g_rhythmOn = true → size_of_float sr / 8 ≠ 0)
    (n sample offset : Nat) (s : Render B) :
    ∃ s1, renderFrames E F g clock numChannels sr n sample offset s = some s1 ∧
      s1.g_notes = s.g_notes.map (renderTimes E sr n) := by
  induction n generalizing sample offset s with
  | zero => exact ⟨s, rfl, by simp [renderTimes]⟩
  | succ k ih =>
    obtain ⟨s1, hs1⟩ := renderFrame_isSome E F g clock numChannels sr sample offset s h
    obtain ⟨s2, hs2, hn2⟩ := ih (sample + 1) (offset + numChannels) s1
    refine ⟨s2, ?_, ?_⟩
    · simp only [renderFrames, hs1]
      exact hs2
    · rw [hn2, renderFrame_notes E F g clock numChannels sr sample offset s s1 hs1, List.map_map]
      rfl

/-! ## Lemmas on the pruning pass -/

theorem findIdx_take_filter (pred : SNote → Bool) (v : List SNote) :
    (v.take (v.findIdx pred + 1)).filter (fun x => !pred x) = v.take (v.findIdx pred) ∧
    v.findIdx pred ≤ v.length ∧
    (v.findIdx pred = v.length → v.filter (fun x => !pred x) = v) := by
  induction v with
  | nil => simp
  | cons a l ih =>
    rw [List.findIdx_cons]
    by_cases h : pred a = true
    · simp [h]
    · simp only [Bool.not_eq_true] at h
      simp [h, ih.1, ih.2.1]

theorem remove_if_loop_eq (pred : SNote → Bool) (v0 : List SNote) :
    ∀ (fuel i first : Nat) (v : List SNote), i + fuel = v0.length → first ≤ i →
      first = ((v0.take i).filter (fun x => !pred x)).length →
      v = (v0.take i).filter (fun x => !pred x) ++ v0.drop first →
      remove_if_loop pred fuel i first v =
        (v0.filter (fun x => !pred x) ++ v0.drop (v0.filter (fun x => !pred x)).length,
          (v0.filter (fun x => !pred x)).length) := by
  intro fuel
  induction fuel with
  | zero =>
    intro i first v hi hfi hfirst hv
    have hi2 : i = v0.length := by omega
    subst hi2
    simp only [List.take_length] at hfirst hv
    simp only [remove_if_loop, hv, hfirst]
  | succ k ih =>
    intro i first v hi hfi hfirst hv
    have hlt : i < v0.length := by omega
    have hget : v[i]? = some v0[i] := by
      rw [hv, List.getElem?_append_right (by omega)]
      rw [← hfirst, List.getElem?_drop]
      have : first + (i - first) = i := by omega
      rw [this]
      exact List.getElem?_eq_getElem hlt
    have htake : v0.take (i + 1) = v0.take i ++ [v0[i]] := by
      rw [List.take_succ, List.getElem?_eq_getElem hlt]
      rfl
    simp only [remove_if_loop, hget]
    by_cases hp : pred v0[i] = true
    · simp only [hp, if_true]
      apply ih (i + 1) first v (by omega) (by omega)
      · rw [htake, List.filter_append]
        simp [hp, ← hfirst]
      · rw [htake, List.filter_append]
        simp [hp, hv]
    · simp only [hp, if_false]
      have hp2 : pred v0[i] = false := by simpa using hp
      apply ih (i + 1) (first + 1) (v.set first v0[i]) (by omega) (by omega)
      · rw [htake, List.filter_append]
        simp [hp2, ← hfirst]
      · rw [htake, List.filter_append]
        have hflt : first < v0.length := by omega
        rw [hv, List.set_append_right _ _ (by omega), ← hfirst, Nat.sub_self,
          List.drop_eq_getElem_cons hflt]
        simp only [hp2, Bool.not_false, List.filter_cons_of_pos, List.filter_nil,
          List.append_assoc, List.singleton_append, List.set_cons_zero]

theorem remove_if_eq (pred : SNote → Bool) (v : List SNote) :
    remove_if v pred =
      (v.filter (fun x => !pred x) ++ v.drop (v.filter (fun x => !pred x)).length,
        (v.filter (fun x => !pred x)).length) := by
  obtain ⟨h1, h2, h3⟩ := findIdx_take_filter pred v
  unfold remove_if
  by_cases h : v.findIdx pred = v.length
  · simp [h, h3 h]
  · simp only [ne_eq, h, not_false_eq_true, if_true]
    have hlt : v.findIdx pred < v.length := by omega
    apply remove_if_loop_eq pred v _ _ _ _ (by omega) (by omega)
    · rw [h1, List.length_take]; omega
    · rw [h1, List.take_append_drop]

/-- What the pruning pass computes: the notes that are not dead, in order, followed by the notes
that stood more than one place behind the end of that prefix. -/
theorem pruneNotes_eq (notes : List SNote) :
    pruneNotes notes =
      notes.filter (fun x => !x.m_dead) ++
        notes.drop ((notes.filter (fun x => !x.m_dead)).length + 1) := by
  unfold pruneNotes
  rw [remove_if_eq]
  have hle : (notes.filter (fun x => !x.m_dead)).length ≤ notes.length := List.length_filter_le _ _
  by_cases h : (notes.filter (fun x => !x.m_dead)).length = notes.length
  · simp [h]
  · have hlt : (notes.filter (fun x => !x.m_dead)).length < notes.length := by omega
    simp only [List.length_append, List.length_drop, ne_eq]
    rw [if_pos (by omega), List.eraseIdx_append_of_length_le (le_refl _), Nat.sub_self,
      List.drop_eq_getElem_cons hlt]
    simp

/-! ## The claims -/

/-- C1 (evaluation of the code): a registry of two released notes that both die in the first
frame of a render of 2 frames at 44100 Hz.  The pruning pass erases one element only, and
`GenerateAudioSamples` returns with the second note, dead, still in the registry. -/
theorem C1_dead_note_survives_pruning :
    (GenerateAudioSamples demoEnv demoBiQuad 0
      (Globals.mk
        [SNote.mk 440 EWaveForm.e_waveSaw 9411 false true 5000,
          SNote.mk 660 EWaveForm.e_waveSaw 9411 false true 5000]
        EWaveForm.e_waveSaw EEffect.e_none EEffect.e_none false false)
      (Statics.init 0) [0, 0] 2 1 44100).map (fun r => r.g_notes) =
      some [SNote.mk 660 EWaveForm.e_waveSaw 9413 true true 5000] ∧
    (SNote.mk 660 EWaveForm.e_waveSaw 9413 true true 5000).m_dead = true := by
  decide!

/-- C2 (evaluation of the code): a registry of a dying note, a held note, a second dying note and
a second held note, rendered for 2 frames at 44100 Hz.  The frame loop leaves the two held notes
as the notes with `m_dead = false`; after the pruning pass of `GenerateAudioSamples` the notes with
`m_dead = false` are the first held note and two copies of the second. -/
theorem C2_pruning_duplicates_live_note :
    (renderFrames demoEnv demoBiQuad
      (Globals.mk
        [SNote.mk 440 EWaveForm.e_waveSaw 9411 false true 5000,
          SNote.mk 550 EWaveForm.e_waveSaw 20000 false false 0,
          SNote.mk 660 EWaveForm.e_waveSaw 9411 false true 5000,
          SNote.mk 880 EWaveForm.e_waveSaw 30000 false false 0]
        EWaveForm.e_waveSaw EEffect.e_none EEffect.e_none false false) 0 1 44100 2 0 0
      { g_notes :=
          [SNote.mk 440 EWaveForm.e_waveSaw 9411 false true 5000,
            SNote.mk 550 EWaveForm.e_waveSaw 20000 false false 0,
            SNote.mk 660 EWaveForm.e_waveSaw 9411 false true 5000,
            SNote.mk 880 EWaveForm.e_waveSaw 30000 false false 0],
        statics := refreshStatics demoBiQuad
          (Globals.mk
            [SNote.mk 440 EWaveForm.e_waveSaw 9411 false true 5000,
              SNote.mk 550 EWaveForm.e_waveSaw 20000 false false 0,
              SNote.mk 660 EWaveForm.e_waveSaw 9411 false true 5000,
              SNote.mk 880 EWaveForm.e_waveSaw 30000 false false 0]
            EWaveForm.e_waveSaw EEffect.e_none EEffect.e_none false false) 0 44100
          (Statics.init 0),
        outputBuffer := [0, 0] }).map (fun s => s.g_notes.filter (fun x => !x.m_dead)) =
      some [SNote.mk 550 EWaveForm.e_waveSaw 20002 false false 0,
        SNote.mk 880 EWaveForm.e_waveSaw 30002 false false 0] ∧
    (GenerateAudioSamples demoEnv demoBiQuad 0
      (Globals.mk
        [SNote.mk 440 EWaveForm.e_waveSaw 9411 false true 5000,
          SNote.mk 550 EWaveForm.e_waveSaw 20000 false false 0,
          SNote.mk 660 EWaveForm.e_waveSaw 9411 false true 5000,
          SNote.mk 880 EWaveForm.e_waveSaw 30000 false false 0]
        EWaveForm.e_waveSaw EEffect.e_none EEffect.e_none false false)
      (Statics.init 0) [0, 0] 2 1 44100).map (fun r => r.g_notes.filter (fun x => !x.m_dead)) =
      some [SNote.mk 550 EWaveForm.e_waveSaw 20002 false false 0,
        SNote.mk 880 EWaveForm.e_waveSaw 30002 false false 0,
        SNote.mk 880 EWaveForm.e_waveSaw 30002 false false 0] := by
  decide!

/-- C3: one call of `GenerateNoteSample` increases `m_age` by exactly 1 for every note and every
sample rate (absent wrap-around of `size_t`), and the frame loop of a buffer render of `n` frames
returns with the age of every note of the registry increased by exactly `n`; the registry that
`GenerateAudioSamples` leaves is the pruning of these notes and holds no other note. -/
theorem C3_age_advances_by_one {B : Type} (E : Env) (F : SBiQuadOps B) (g : Globals)
    (clock : Nat) (st : Statics B) (outputBuffer : List ℚ) (n numChannels : Nat) (sr : ℚ)
    (note : SNote) (hnote : note.m_age + 1 < SIZE_MOD)
    (hreg : ∀ x ∈ g.g_notes, x.m_age + n < SIZE_MOD)
    (hrhythm : g.g_rhythmOn = true → size_of_float sr / 8 ≠ 0) :
    (GenerateNoteSample E note sr).1.m_age = note.m_age + 1 ∧
    ∃ s r, renderFrames E F g clock numChannels sr n 0 0
        { g_notes := g.g_notes, statics := refreshStatics F g clock sr st,
          outputBuffer := outputBuffer } = some s ∧
      s.g_notes.length = g.g_notes.length ∧
      s.g_notes.map (fun x => x.m_age) = g.g_notes.map (fun x => x.m_age + n) ∧
      GenerateAudioSamples E F clock g st outputBuffer n numChannels sr = some r ∧
      r.g_notes = pruneNotes s.g_notes ∧ (∀ x ∈ r.g_notes, x ∈ s.g_notes) := by
  refine ⟨?_, ?_⟩
  · rw [(GenerateNoteSample_fields E note sr).2.2.1]
    exact size_add_one_of_lt note.m_age hnote
  · obtain ⟨s, hs, hn⟩ := renderFrames_notes E F g clock numChannels sr hrhythm n 0 0
      { g_notes := g.g_notes, statics := refreshStatics F g clock sr st,
        outputBuffer := outputBuffer }
    refine ⟨s, { s with g_notes := pruneNotes s.g_notes }, hs, ?_, ?_, ?_, rfl, ?_⟩
    · rw [hn]; simp
    · rw [hn, List.map_map]
      apply List.map_congr_left
      intro x hx
      exact renderTimes_age E sr n x (hreg x hx)
    · simp only [GenerateAudioSamples, hs]
    · intro x hx
      simp only [pruneNotes_eq, List.mem_append] at hx
      rcases hx with hx | hx
      · exact List.mem_of_mem_filter hx
      · exact List.mem_of_mem_drop hx

/-- Witness of C3: a note of age 41 and a registry of two notes rendered for 3 frames. -/
theorem C3_age_advances_by_one_witness :
    (GenerateNoteSample demoEnv (SNote.mk 440 EWaveForm.e_waveSaw 41 false false 0) 44100).1.m_age
        = 41 + 1 ∧
    ∃ s r, renderFrames demoEnv demoBiQuad
        (Globals.mk [SNote.mk 440 EWaveForm.e_waveSaw 41 false false 0,
          SNote.new 0 EWaveForm.e_sampleVoice] EWaveForm.e_waveSine EEffect.e_none EEffect.e_none
          false false) 7 2 44100 3 0 0
        { g_notes := [SNote.mk 440 EWaveForm.e_waveSaw 41 false false 0,
            SNote.new 0 EWaveForm.e_sampleVoice],
          statics := refreshStatics demoBiQuad
            (Globals.mk [SNote.mk 440 EWaveForm.e_waveSaw 41 false false 0,
              SNote.new 0 EWaveForm.e_sampleVoice] EWaveForm.e_waveSine EEffect.e_none
              EEffect.e_none false false) 7 44100 (Statics.init 0),
          outputBuffer := [0, 0, 0, 0, 0, 0] } = some s ∧
      s.g_notes.length = 2 ∧
      s.g_notes.map (fun x => x.m_age) = [41 + 3, 0 + 3] ∧
      GenerateAudioSamples demoEnv demoBiQuad 7
        (Globals.mk [SNote.mk 440 EWaveForm.e_waveSaw 41 false false 0,
          SNote.new 0 EWaveForm.e_sampleVoice] EWaveForm.e_waveSine EEffect.e_none EEffect.e_none
          false false) (Statics.init 0) [0, 0, 0, 0, 0, 0] 3 2 44100 = some r ∧
      r.g_notes = pruneNotes s.g_notes ∧ (∀ x ∈ r.g_notes, x ∈ s.g_notes) :=
  C3_age_advances_by_one demoEnv demoBiQuad
    (Globals.mk [SNote.mk 440 EWaveForm.e_waveSaw 41 false false 0,
      SNote.new 0 EWaveForm.e_sampleVoice] EWaveForm.e_waveSine EEffect.e_none EEffect.e_none
      false false) 7 (Statics.init 0) [0, 0, 0, 0, 0, 0] 3 2 44100
    (SNote.mk 440 EWaveForm.e_waveSaw 41 false false 0) (by decide) (by decide) (by decide)

theorem GenerateEnvelope_intro (note : SNote) (t sr : ℚ) (hR : note.m_releaseAge = 0)
    (ht : t ≤ 1 / 10) :
    GenerateEnvelope note t sr = (note, Envelope2Pt t 0 0 c_envelopeTime 1) := by
  have h2 : ¬ (note.m_wantsKeyRelease = true ∧ t > c_envelopeTime) := by
    rintro ⟨_, h⟩
    unfold c_envelopeTime at h
    exact absurd h (not_lt.mpr ht)
  unfold GenerateEnvelope
  simp only [hR, h2, if_true, if_false]
  simp [hR]

/-- C4: release never pre-empts the attack.  For a note with `m_releaseAge = 0` and
`m_wantsKeyRelease = true`, a call of `GenerateEnvelope` with `ageInSeconds ≤ 0.1` leaves the note
unchanged (so `m_releaseAge` stays 0 and `m_dead` keeps its value) and returns the intro envelope
`Envelope2Pt(ageInSeconds, 0, 0, 0.1, 1)`; at `t = 0.05 s` the returned gain is `1/2`, and on
`[0, 0.1]` the returned gain is strictly increasing in the age. -/
theorem C4_release_waits_for_intro (note : SNote) (t sr : ℚ) (hR : note.m_releaseAge = 0)
    (hW : note.m_wantsKeyRelease = true) (ht : t ≤ 1 / 10) :
    GenerateEnvelope note t sr = (note, Envelope2Pt t 0 0 c_envelopeTime 1) ∧
    (GenerateEnvelope note t sr).1.m_releaseAge = 0 ∧
    (GenerateEnvelope note t sr).1.m_dead = note.m_dead ∧
    (GenerateEnvelope note t sr).1.m_wantsKeyRelease = true ∧
    GenerateEnvelope note (1 / 20) sr = (note, 1 / 2) ∧
    (∀ t1 t2 : ℚ, 0 ≤ t1 → t1 < t2 → t2 ≤ 1 / 10 →
      (GenerateEnvelope note t1 sr).2 < (GenerateEnvelope note t2 sr).2) := by
  have h := GenerateEnvelope_intro note t sr hR ht
  refine ⟨h, by rw [h]; exact hR, by rw [h], by rw [h]; exact hW, ?_, ?_⟩
  · rw [GenerateEnvelope_intro note (1 / 20) sr hR (by norm_num)]
    norm_num [Envelope2Pt, c_envelopeTime]
  · intro t1 t2 h0 h12 h2
    rw [GenerateEnvelope_intro note t1 sr hR (by linarith),
      GenerateEnvelope_intro note t2 sr hR h2]
    have ht2 : ¬ t2 ≤ 0 := by linarith
    simp only [Envelope2Pt, c_envelopeTime, ht2, if_false]
    by_cases h10 : t1 ≤ 0
    · have ht1 : t1 = 0 := le_antisymm h10 h0
      subst ht1
      simp only [le_refl, if_true]
      split_ifs <;> norm_num
      linarith
    · have h11 : ¬ (1 / 10 : ℚ) ≤ t1 := by linarith
      simp only [h10, h11, if_false]
      split_ifs with h3
      · norm_num; linarith
      · norm_num; linarith

/-- Witness of C4: a released note of age 2205 at 44100 Hz (`t = 0.05 s`). -/
theorem C4_release_waits_for_intro_witness :
    GenerateEnvelope (SNote.mk 440 EWaveForm.e_waveSine 2206 false true 0) (2205 / 44100) 44100
      = (SNote.mk 440 EWaveForm.e_waveSine 2206 false true 0,
          Envelope2Pt (2205 / 44100) 0 0 c_envelopeTime 1) :=
  (C4_release_waits_for_intro (SNote.mk 440 EWaveForm.e_waveSine 2206 false true 0)
    (2205 / 44100) 44100 rfl rfl (by norm_num)).1

theorem applyOp_dead_mono (E : Env) (note : SNote) (op : NoteOp) (h : note.m_dead = true) :
    (applyOp E note op).m_dead = true := by
  cases op with
  | envelope t sr => exact GenerateEnvelope_dead_mono note t sr h
  | sampleAudio clip t => exact SampleAudioSample_dead_mono note clip t h
  | noteSample sr => exact GenerateNoteSample_dead_mono E note sr h
  | stop f => simp only [applyOp, (stopNoteOne_fields f note).2.2.2.1, h]

theorem applyOp_releaseAge (E : Env) (note : SNote) (op : NoteOp) (h : note.m_releaseAge ≠ 0) :
    (applyOp E note op).m_releaseAge = note.m_releaseAge := by
  cases op with
  | envelope t sr => exact GenerateEnvelope_releaseAge_of_ne note t sr h
  | sampleAudio clip t => exact (SampleAudioSample_fields note clip t).2.2.2.2
  | noteSample sr =>
    simp only [applyOp, GenerateNoteSample_releaseAge]
    exact GenerateEnvelope_releaseAge_of_ne _ _ sr h
  | stop f => exact (stopNoteOne_fields f note).2.2.2.2

/-- C6: `m_dead` is monotonic.  None of `GenerateEnvelope`, `SampleAudioSample`,
`GenerateNoteSample` and `StopNote` changes `m_dead` from true to false, and after any sequence of
such calls on a dead note the note is still dead. -/
theorem C6_dead_is_monotonic (E : Env) (note : SNote) (hdead : note.m_dead = true) :
    (∀ t sr : ℚ, (GenerateEnvelope note t sr).1.m_dead = true) ∧
    (∀ (clip : SWavFile) (t : ℚ), (SampleAudioSample note clip t).1.m_dead = true) ∧
    (∀ sr : ℚ, (GenerateNoteSample E note sr).1.m_dead = true) ∧
    (∀ f : ℚ, (stopNoteOne f note).m_dead = true) ∧
    (∀ ops : List NoteOp, (ops.foldl (applyOp E) note).m_dead = true) := by
  refine ⟨fun t sr => GenerateEnvelope_dead_mono note t sr hdead,
    fun clip t => SampleAudioSample_dead_mono note clip t hdead,
    fun sr => GenerateNoteSample_dead_mono E note sr hdead,
    fun f => by rw [(stopNoteOne_fields f note).2.2.2.1]; exact hdead, ?_⟩
  intro ops
  induction ops generalizing note with
  | nil => exact hdead
  | cons op rest ih =>
    simp only [List.foldl_cons]
    exact ih (applyOp E note op) (applyOp_dead_mono E note op hdead)

/-- Witness of C6: a dead released note that is rendered, released again and rendered. -/
theorem C6_dead_is_monotonic_witness :
    ([NoteOp.noteSample 44100, NoteOp.stop 440, NoteOp.noteSample 44100].foldl (applyOp demoEnv)
      (SNote.mk 440 EWaveForm.e_waveSaw 9412 true true 5000)).m_dead = true :=
  (C6_dead_is_monotonic demoEnv (SNote.mk 440 EWaveForm.e_waveSaw 9412 true true 5000)
    rfl).2.2.2.2 [NoteOp.noteSample 44100, NoteOp.stop 440, NoteOp.noteSample 44100]

theorem GenerateNoteSample_procedural (E : Env) (note : SNote) (sr : ℚ)
    (hw : isProcedural note.m_waveForm = true) :
    GenerateNoteSample E note sr =
      ((GenerateEnvelope { note with m_age := size_add note.m_age 1 }
          ((note.m_age : ℚ) / sr) sr).1,
        rawWave E note.m_waveForm (fmodf ((note.m_age : ℚ) / sr * note.m_frequency) 1) *
          ((GenerateEnvelope { note with m_age := size_add note.m_age 1 }
            ((note.m_age : ℚ) / sr) sr).2 * (4 / 5))) := by
  have hE := GenerateEnvelope_fields { note with m_age := size_add note.m_age 1 }
    ((note.m_age : ℚ) / sr) sr
  simp only at hE
  simp only [GenerateNoteSample, hE.1, hE.2.1]
  cases hwf : note.m_waveForm <;> simp_all [isProcedural, rawWave]

theorem GenerateEnvelope_release (note : SNote) (t sr : ℚ) (hR : note.m_releaseAge ≠ 0) :
    (GenerateEnvelope note t sr).2 =
      Envelope2Pt (t - (note.m_releaseAge : ℚ) / sr) 0 1 c_envelopeTime 0 := by
  unfold GenerateEnvelope
  simp only [hR, if_false]
  split_ifs <;> simp_all

/-- C7: the release age is latched once.  Once `m_releaseAge` is non-zero, every
`GenerateNoteSample`, `GenerateEnvelope` and `StopNote` call (and every sequence of calls) leaves
it unchanged, and `GenerateEnvelope` returns the release envelope, never the intro envelope.  The
latch itself, made by `GenerateNoteSample` on a note with `m_releaseAge = 0`, stores `m_age + 1`,
which is non-zero absent wrap-around of `size_t`, and happens exactly when release is wanted and
the age in seconds exceeds 0.1. -/
theorem C7_release_age_latched_once (E : Env) (note : SNote) (hR : note.m_releaseAge ≠ 0) :
    (∀ sr : ℚ, (GenerateNoteSample E note sr).1.m_releaseAge = note.m_releaseAge) ∧
    (∀ t sr : ℚ, (GenerateEnvelope note t sr).1.m_releaseAge = note.m_releaseAge) ∧
    (∀ f : ℚ, (stopNoteOne f note).m_releaseAge = note.m_releaseAge) ∧
    (∀ ops : List NoteOp, (ops.foldl (applyOp E) note).m_releaseAge = note.m_releaseAge) ∧
    (∀ t sr : ℚ, (GenerateEnvelope note t sr).2 =
      Envelope2Pt (t - (note.m_releaseAge : ℚ) / sr) 0 1 c_envelopeTime 0) ∧
    (∀ (held : SNote) (sr : ℚ), held.m_releaseAge = 0 → held.m_age + 1 < SIZE_MOD →
      if held.m_wantsKeyRelease = true ∧ (held.m_age : ℚ) / sr > 1 / 10 then
        (GenerateNoteSample E held sr).1.m_releaseAge = held.m_age + 1 ∧
        (GenerateNoteSample E held sr).1.m_releaseAge ≠ 0
      else (GenerateNoteSample E held sr).1.m_releaseAge = 0) := by
  refine ⟨fun sr => applyOp_releaseAge E note (NoteOp.noteSample sr) hR,
    fun t sr => GenerateEnvelope_releaseAge_of_ne note t sr hR,
    fun f => (stopNoteOne_fields f note).2.2.2.2, ?_,
    fun t sr => GenerateEnvelope_release note t sr hR, ?_⟩
  · intro ops
    induction ops generalizing note with
    | nil => rfl
    | cons op rest ih =>
      simp only [List.foldl_cons]
      have h1 := applyOp_releaseAge E note op hR
      rw [ih (applyOp E note op) (by rw [h1]; exact hR), h1]
  · intro held sr h0 hage
    have hadd := size_add_one_of_lt held.m_age hage
    rw [GenerateNoteSample_releaseAge, hadd]
    unfold GenerateEnvelope
    by_cases hc : held.m_wantsKeyRelease = true ∧ (held.m_age : ℚ) / sr > 1 / 10
    · have hc2 : held.m_wantsKeyRelease = true ∧ (held.m_age : ℚ) / sr > c_envelopeTime := hc
      simp only [h0, hc, hc2, if_true, and_self]
      split_ifs <;> simp_all
    · have hc2 : ¬ (held.m_wantsKeyRelease = true ∧ (held.m_age : ℚ) / sr > c_envelopeTime) :=
        hc
      simp only [h0, hc, hc2, if_true, if_false]
      split_ifs <;> simp_all

/-- Witness of C7: a note released with release age 5000, rendered and released again; and the
latch of a held note of age 4999 at 44100 Hz whose release is wanted. -/
theorem C7_release_age_latched_once_witness :
    ([NoteOp.noteSample 44100, NoteOp.stop 440, NoteOp.noteSample 44100].foldl (applyOp demoEnv)
      (SNote.mk 440 EWaveForm.e_waveSaw 6000 false true 5000)).m_releaseAge = 5000 ∧
    (GenerateNoteSample demoEnv (SNote.mk 440 EWaveForm.e_waveSaw 4999 false true 0)
      44100).1.m_releaseAge = 4999 + 1 :=
  ⟨(C7_release_age_latched_once demoEnv (SNote.mk 440 EWaveForm.e_waveSaw 6000 false true 5000)
    (by decide)).2.2.2.1 [NoteOp.noteSample 44100, NoteOp.stop 440, NoteOp.noteSample 44100],
    ((if_pos (show (SNote.mk 440 EWaveForm.e_waveSaw 4999 false true 0).m_wantsKeyRelease = true ∧
        (((SNote.mk 440 EWaveForm.e_waveSaw 4999 false true 0).m_age : Nat) : ℚ) / 44100 > 1 / 10
        from ⟨rfl, by norm_num⟩)).mp
      ((C7_release_age_latched_once demoEnv
        (SNote.mk 440 EWaveForm.e_waveSaw 6000 false true 5000) (by decide)).2.2.2.2.2
        (SNote.mk 440 EWaveForm.e_waveSaw 4999 false true 0) 44100 rfl (by decide))).1⟩

theorem Envelope2Pt_intro_full (t : ℚ) (ht : 1 / 10 ≤ t) :
    Envelope2Pt t 0 0 c_envelopeTime 1 = 1 := by
  have h0 : ¬ t ≤ 0 := by linarith
  unfold Envelope2Pt c_envelopeTime
  rw [if_neg h0, if_pos ht]

/-- C8: envelope boundary values of a held procedural note.  The first `GenerateNoteSample` call
on a freshly created procedural note returns exactly 0.  For a procedural note whose release is
not latched (`m_releaseAge = 0`) and is not latched by this call (no release requested, or the age
is exactly 0.1 s), at every age of at least 0.1 s the gain returned by `GenerateEnvelope` is
exactly 1, the sample returned is 0.8 times the raw waveform value at the current phase, and the
note stays unlatched and keeps `m_dead`. -/
theorem C8_envelope_boundary (E : Env) (frequency sr : ℚ) (w : EWaveForm)
    (hw : isProcedural w = true) (_hsr : 0 < sr) :
    (GenerateNoteSample E (SNote.new frequency w) sr).2 = 0 ∧
    (∀ note : SNote, note.m_waveForm = w → note.m_releaseAge = 0 →
      (note.m_wantsKeyRelease = false ∨ (note.m_age : ℚ) / sr = 1 / 10) →
      1 / 10 ≤ (note.m_age : ℚ) / sr →
      (GenerateEnvelope { note with m_age := size_add note.m_age 1 }
        ((note.m_age : ℚ) / sr) sr).2 = 1 ∧
      (GenerateNoteSample E note sr).2 =
        4 / 5 * rawWave E w (fmodf ((note.m_age : ℚ) / sr * note.m_frequency) 1) ∧
      (GenerateNoteSample E note sr).1.m_releaseAge = 0 ∧
      (GenerateNoteSample E note sr).1.m_dead = note.m_dead) := by
  constructor
  · rw [GenerateNoteSample_procedural E (SNote.new frequency w) sr hw]
    have h := GenerateEnvelope_intro { SNote.new frequency w with m_age := size_add 0 1 }
      ((0 : Nat) / sr) sr rfl (by norm_num)
    have h2 : (SNote.new frequency w).m_age = 0 := rfl
    simp only [h2, h]
    simp [Envelope2Pt]
  · intro note hwf hR hheld hage
    have hnl : ¬ (note.m_wantsKeyRelease = true ∧ (note.m_age : ℚ) / sr > c_envelopeTime) := by
      rintro ⟨h1, h2⟩
      rcases hheld with h | h
      · rw [h] at h1; exact absurd h1 (by decide)
      · rw [h] at h2; exact absurd h2 (by norm_num [c_envelopeTime])
    have hE : GenerateEnvelope { note with m_age := size_add note.m_age 1 }
        ((note.m_age : ℚ) / sr) sr =
        ({ note with m_age := size_add note.m_age 1 }, 1) := by
      unfold GenerateEnvelope
      simp only [hR, hnl, if_true, if_false]
      simp [Envelope2Pt_intro_full _ hage]
    have hp : isProcedural note.m_waveForm = true := by rw [hwf]; exact hw
    refine ⟨by rw [hE], ?_, ?_, ?_⟩
    · rw [GenerateNoteSample_procedural E note sr hp, hE, hwf]
      ring
    · rw [GenerateNoteSample_procedural E note sr hp, hE]
      exact hR
    · rw [GenerateNoteSample_procedural E note sr hp, hE]

/-- Witness of C8: a fresh 440 Hz saw note at 44100 Hz, and the same note held at age 4410
(`t = 0.1 s`). -/
theorem C8_envelope_boundary_witness :
    (GenerateNoteSample demoEnv (SNote.new 440 EWaveForm.e_waveSaw) 44100).2 = 0 ∧
    (GenerateNoteSample demoEnv (SNote.mk 440 EWaveForm.e_waveSaw 4410 false false 0) 44100).2 =
      4 / 5 * rawWave demoEnv EWaveForm.e_waveSaw (fmodf ((4410 : Nat) / 44100 * 440) 1) :=
  ⟨(C8_envelope_boundary demoEnv 440 44100 EWaveForm.e_waveSaw rfl (by norm_num)).1,
    ((C8_envelope_boundary demoEnv 440 44100 EWaveForm.e_waveSaw rfl (by norm_num)).2
      (SNote.mk 440 EWaveForm.e_waveSaw 4410 false false 0) rfl rfl (Or.inl rfl)
      (by norm_num)).2.1⟩

theorem GenerateNoteSample_sampled (E : Env) (note : SNote) (sr : ℚ)
    (hw : isProcedural note.m_waveForm = false) :
    GenerateNoteSample E note sr =
      SampleAudioSample
        (GenerateEnvelope { note with m_age := size_add note.m_age 1 }
          ((note.m_age : ℚ) / sr) sr).1
        (clipOf E note.m_waveForm) ((note.m_age : ℚ) / sr) := by
  have hE := GenerateEnvelope_fields { note with m_age := size_add note.m_age 1 }
    ((note.m_age : ℚ) / sr) sr
  simp only at hE
  simp only [GenerateNoteSample, hE.1, hE.2.1]
  cases hwf : note.m_waveForm <;> simp_all [isProcedural, clipOf]

theorem SampleAudioSample_dead_iff (note : SNote) (clip : SWavFile) (t : ℚ) :
    (SampleAudioSample note clip t).1.m_dead = true ↔
      note.m_dead = true ∨ clip.m_numSamples ≤ size_mul note.m_age clip.m_numChannels := by
  simp only [SampleAudioSample]
  split_ifs with h
  · simp [h]
  · simp [h]

theorem SampleAudioSample_exhausted (note : SNote) (clip : SWavFile) (t : ℚ)
    (h : clip.m_numSamples ≤ size_mul note.m_age clip.m_numChannels) :
    (SampleAudioSample note clip t).2 = 0 := by
  simp only [SampleAudioSample]
  rw [if_pos h]

theorem stopNoteOne_wants (frequency : ℚ) (note : SNote) (h : note.m_wantsKeyRelease = true) :
    (stopNoteOne frequency note).m_wantsKeyRelease = true := by
  unfold stopNoteOne
  split_ifs <;> simp [h]

theorem clipOf_channels_le (E : Env) (w : EWaveForm) :
    (clipOf E w).m_numChannels ≤ maxChannels E := by
  unfold maxChannels
  cases w <;> simp [clipOf]

theorem SampleAudioSample_value_congr (x y : SNote) (clip : SWavFile) (t : ℚ)
    (h : x.m_age = y.m_age) : (SampleAudioSample x clip t).2 = (SampleAudioSample y clip t).2 := by
  simp only [SampleAudioSample, h]
  split_ifs <;> rfl

theorem GenerateNoteSample_sampled_congr (E : Env) (sr : ℚ) (a b : SNote)
    (hs : isProcedural a.m_waveForm = false) (hf : b.m_frequency = a.m_frequency)
    (hw : b.m_waveForm = a.m_waveForm) (hage : b.m_age = a.m_age) :
    (GenerateNoteSample E a sr).2 = (GenerateNoteSample E b sr).2 ∧
    (GenerateNoteSample E b sr).1.m_frequency = (GenerateNoteSample E a sr).1.m_frequency ∧
    (GenerateNoteSample E b sr).1.m_waveForm = (GenerateNoteSample E a sr).1.m_waveForm ∧
    (GenerateNoteSample E b sr).1.m_age = (GenerateNoteSample E a sr).1.m_age := by
  obtain ⟨ha1, ha2, ha3, _⟩ := GenerateNoteSample_fields E a sr
  obtain ⟨hb1, hb2, hb3, _⟩ := GenerateNoteSample_fields E b sr
  refine ⟨?_, by rw [ha1, hb1, hf], by rw [ha2, hb2, hw], by rw [ha3, hb3, hage]⟩
  have hsb : isProcedural b.m_waveForm = false := by rw [hw]; exact hs
  rw [GenerateNoteSample_sampled E a sr hs, GenerateNoteSample_sampled E b sr hsb, hw, hage]
  apply SampleAudioSample_value_congr
  rw [(GenerateEnvelope_fields _ _ sr).2.2.1, (GenerateEnvelope_fields _ _ sr).2.2.1]

/-- C9 (counterexample): two sample-backed notes of age 2 that differ only in
`m_wantsKeyRelease`, rendered at 10 samples per second.  `GenerateNoteSample` leaves
`m_releaseAge = 0` in the one and latches `m_releaseAge = 3` in the other, and after four calls
the first is alive and the second is dead. -/
theorem C9_release_state_reaches_sample_notes :
    (GenerateNoteSample demoEnv (SNote.mk 0 EWaveForm.e_sampleCymbals 2 false false 0)
      10).1.m_releaseAge = 0 ∧
    (GenerateNoteSample demoEnv (SNote.mk 0 EWaveForm.e_sampleCymbals 2 false true 0)
      10).1.m_releaseAge = 3 ∧
    (renderTimes demoEnv 10 4 (SNote.mk 0 EWaveForm.e_sampleCymbals 2 false false 0)).m_dead
      = false ∧
    (renderTimes demoEnv 10 4 (SNote.mk 0 EWaveForm.e_sampleCymbals 2 false true 0)).m_dead
      = true := by
  decide!

/-- C9 (amended): the sample value of a sample-backed note ignores the key-release state.  For
every two sample-backed notes with the same frequency, waveform and age (whatever their
`m_wantsKeyRelease`, `m_releaseAge` and `m_dead`) and every sample rate, `GenerateNoteSample`
returns the same sample value for both, on this call and on every later call, and leaves the same
frequency, waveform and age in both. -/
theorem C9_sample_value_ignores_release (E : Env) (sr : ℚ) (a b : SNote)
    (hs : isProcedural a.m_waveForm = false) (hf : b.m_frequency = a.m_frequency)
    (hw : b.m_waveForm = a.m_waveForm) (hage : b.m_age = a.m_age) (k : Nat) :
    (GenerateNoteSample E (renderTimes E sr k a) sr).2 =
      (GenerateNoteSample E (renderTimes E sr k b) sr).2 ∧
    (renderTimes E sr k b).m_frequency = (renderTimes E sr k a).m_frequency ∧
    (renderTimes E sr k b).m_waveForm = (renderTimes E sr k a).m_waveForm ∧
    (renderTimes E sr k b).m_age = (renderTimes E sr k a).m_age := by
  induction k generalizing a b with
  | zero =>
    exact ⟨(GenerateNoteSample_sampled_congr E sr a b hs hf hw hage).1, hf, hw, hage⟩
  | succ k ih =>
    obtain ⟨_, h1, h2, h3⟩ := GenerateNoteSample_sampled_congr E sr a b hs hf hw hage
    have hs2 : isProcedural (GenerateNoteSample E a sr).1.m_waveForm = false := by
      rw [(GenerateNoteSample_fields E a sr).2.1]; exact hs
    exact ih (GenerateNoteSample E a sr).1 (GenerateNoteSample E b sr).1 hs2 h1 h2 h3

/-- Witness of C9: a voice clip note of age 2 and the same note with release wanted, on the
fifth call at 10 samples per second. -/
theorem C9_sample_value_ignores_release_witness :
    (GenerateNoteSample demoEnv
      (renderTimes demoEnv 10 4 (SNote.mk 0 EWaveForm.e_sampleVoice 2 false false 0)) 10).2 =
    (GenerateNoteSample demoEnv
      (renderTimes demoEnv 10 4 (SNote.mk 0 EWaveForm.e_sampleVoice 2 false true 0)) 10).2 :=
  (C9_sample_value_ignores_release demoEnv 10
    (SNote.mk 0 EWaveForm.e_sampleVoice 2 false false 0)
    (SNote.mk 0 EWaveForm.e_sampleVoice 2 false true 0) rfl rfl rfl rfl 4).1

/-- C10 (counterexample): two calls of `GenerateRhythm` with the same arguments
`(100, 44100)`, one made while the selected waveform is the saw and one while it is the square,
return different samples. -/
theorem C10_rhythm_reads_current_waveform :
    GenerateRhythm demoEnv
        (Globals.mk [] EWaveForm.e_waveSaw EEffect.e_none EEffect.e_none true false) 100 44100 ≠
      GenerateRhythm demoEnv
        (Globals.mk [] EWaveForm.e_waveSquare EEffect.e_none EEffect.e_none true false) 100
        44100 := by
  decide!

/-- C10 (amended): `GenerateRhythm` is a function of its two arguments and of the global
`g_currentWaveForm` only.  Two calls with identical `(sampleIndex, sampleRate)` made in program
states with the same selected waveform return identical output, whatever the rest of the state
(note registry, filter levels, rhythm flag, master filter flag) is at each call. -/
theorem C10_rhythm_determined_by_arguments_and_waveform (E : Env) (g1 g2 : Globals)
    (sampleIndex : Nat) (sampleRate : ℚ)
    (hwave : g1.g_currentWaveForm = g2.g_currentWaveForm) :
    GenerateRhythm E g1 sampleIndex sampleRate = GenerateRhythm E g2 sampleIndex sampleRate := by
  simp only [GenerateRhythm, hwave]

/-- Witness of C10: two program states with the sine selected that differ in the registry, the
filter levels and the flags. -/
theorem C10_rhythm_determined_by_arguments_and_waveform_witness :
    GenerateRhythm demoEnv
        (Globals.mk [SNote.new 440 EWaveForm.e_waveSaw] EWaveForm.e_waveSine EEffect.e_LFO
          EEffect.e_small true true) 7000 44100 =
      GenerateRhythm demoEnv
        (Globals.mk [] EWaveForm.e_waveSine EEffect.e_none EEffect.e_none false false) 7000
        44100 :=
  C10_rhythm_determined_by_arguments_and_waveform demoEnv
    (Globals.mk [SNote.new 440 EWaveForm.e_waveSaw] EWaveForm.e_waveSine EEffect.e_LFO
      EEffect.e_small true true)
    (Globals.mk [] EWaveForm.e_waveSine EEffect.e_none EEffect.e_none false false) 7000 44100 rfl

/-! ## Lemmas on the frame loop -/

theorem renderFrame_eq {B : Type} (E : Env) (F : SBiQuadOps B) (g : Globals) (clock : Nat)
    (numChannels : Nat) (sr : ℚ) (sample offset : Nat) (s : Render B) :
    renderFrame E F g clock numChannels sr sample offset s =
      (frameCore E F g clock sr sample s.g_notes s.statics).map (fun r =>
        { g_notes := r.1, statics := r.2.1,
          outputBuffer := writeChannels s.outputBuffer offset numChannels r.2.2 }) := by
  simp only [renderFrame, frameCore, frameMix, rhythmIndex, lfoLowPass, lfoHighPass, frameFilter]
  by_cases hr : g.g_rhythmOn = true
  · simp only [hr, if_true]
    cases GenerateRhythm E g (size_add (size_sub clock s.statics.rhythmStart) sample) sr <;> rfl
  · simp only [hr, if_false]
    rfl

theorem renderFrames_eq {B : Type} (E : Env) (F : SBiQuadOps B) (g : Globals) (clock : Nat)
    (numChannels : Nat) (sr : ℚ) (n sample offset : Nat) (s : Render B) :
    renderFrames E F g clock numChannels sr n sample offset s =
      (frameValues E F g clock sr n sample s.g_notes s.statics).map (fun r =>
        { g_notes := r.2.1, statics := r.2.2,
          outputBuffer := writeFrames s.outputBuffer offset numChannels r.1 }) := by
  induction n generalizing sample offset s with
  | zero => simp [renderFrames, frameValues, writeFrames]
  | succ k ih =>
    simp only [renderFrames, frameValues, renderFrame_eq]
    cases hc : frameCore E F g clock sr sample s.g_notes s.statics with
    | none => simp
    | some r =>
      simp only [Option.map_some', ih]
      cases hv : frameValues E F g clock sr k (sample + 1) r.1 r.2.1 with
      | none => simp
      | some t => simp [writeFrames]

theorem frameCore_isSome {B : Type} (E : Env) (F : SBiQuadOps B) (g : Globals) (clock : Nat)
    (sr : ℚ) (sample : Nat) (notes : List SNote) (st : Statics B)
    (h : g.g_rhythmOn = true → size_of_float sr / 8 ≠ 0) :
    ∃ r, frameCore E F g clock sr sample notes st = some r := by
  simp only [frameCore, frameMix]
  by_cases hr : g.g_rhythmOn = true
  · obtain ⟨r, hr2⟩ := Option.isSome_iff_exists.mp
      (GenerateRhythm_isSome E g (rhythmIndex clock st.rhythmStart sample) sr (h hr))
    simp [hr, hr2]
  · simp [hr]

theorem frameValues_isSome {B : Type} (E : Env) (F : SBiQuadOps B) (g : Globals) (clock : Nat)
    (sr : ℚ) (h : g.g_rhythmOn = true → size_of_float sr / 8 ≠ 0) (n sample : Nat)
    (notes : List SNote) (st : Statics B) :
    ∃ r, frameValues E F g clock sr n sample notes st = some r ∧ r.1.length = n := by
  induction n generalizing sample notes st with
  | zero => exact ⟨([], notes, st), rfl, rfl⟩
  | succ k ih =>
    obtain ⟨r, hr⟩ := frameCore_isSome E F g clock sr sample notes st h
    obtain ⟨t, ht, hl⟩ := ih (sample + 1) r.1 r.2.1
    refine ⟨(r.2.2 :: t.1, t.2), ?_, ?_⟩
    · simp only [frameValues, hr, ht]
    · simp [hl]


theorem addSampleAll_value {B : Type} (F : SBiQuadOps B) (stages : List B) (value : ℚ) :
    (addSampleAll F stages value).2 = passThrough F stages value := by
  induction stages generalizing value with
  | nil => rfl
  | cons b rest ih => simp only [addSampleAll, passThrough, List.foldl_cons]; exact ih _

theorem sumNotes_value (E : Env) (sr : ℚ) (notes : List SNote) (value : ℚ) :
    (sumNotes E sr notes value).2 =
      value + (notes.map (fun note => (GenerateNoteSample E note sr).2)).sum := by
  induction notes generalizing value with
  | nil => simp [sumNotes]
  | cons note rest ih => simp only [sumNotes, ih, List.map_cons, List.sum_cons]; ring

theorem frameFilter_value {B : Type} (F : SBiQuadOps B) (g : Globals) (lowPass highPass : List B)
    (master : B) (value0 : ℚ) :
    (frameFilter F g lowPass highPass master value0).2 =
      filteredValue F g lowPass highPass master value0 := by
  simp only [frameFilter, filteredValue]
  by_cases h1 : g.g_lpf = EEffect.e_none <;> by_cases h2 : g.g_hpf = EEffect.e_none <;>
    by_cases h3 : g.g_masterOutLPFOn = true <;>
    simp [h1, h2, h3, addSampleAll_value]

/-- C11: filter application order of a frame.  Whenever the rhythm generator does not divide by
zero, the loop body returns, and the value it copies to the channels is `M(H(L(mix)))`: `mix` is
the sum of `GenerateNoteSample` over all notes, plus the rhythm sample when `g_rhythmOn`; `L`
passes the value through the low-pass stages in index order unless the low-pass level is
`e_none`, `H` then does the same with the high-pass stages, and `M` is the master low-pass when
`g_masterOutLPFOn` (`filteredValue`, over the stages as re-parameterized by the LFO blocks of this
frame).  The stages of a channel whose level is `e_none` are left unchanged for every filter
implementation, and with both levels `e_none` and the master off the value written is the
unfiltered mix.  Four stages are applied in the order 0, 1, 2, 3. -/
theorem C11_filter_order {B : Type} (E : Env) (F : SBiQuadOps B) (g : Globals) (clock : Nat)
    (numChannels : Nat) (sr : ℚ) (sample offset : Nat) (s : Render B)
    (hrhythm : g.g_rhythmOn = true → size_of_float sr / 8 ≠ 0) :
    ∃ (s1 : Render B) (mix : ℚ),
      renderFrame E F g clock numChannels sr sample offset s = some s1 ∧
      (g.g_rhythmOn = false →
        mix = (s.g_notes.map (fun note => (GenerateNoteSample E note sr).2)).sum) ∧
      (g.g_rhythmOn = true → ∃ r,
        GenerateRhythm E g (rhythmIndex clock s.statics.rhythmStart sample) sr = some r ∧
        mix = (s.g_notes.map (fun note => (GenerateNoteSample E note sr).2)).sum + r) ∧
      s1.outputBuffer = writeChannels s.outputBuffer offset numChannels
        (filteredValue F g (lfoLowPass E F g clock sr s.statics.lowPassFilter)
          (lfoHighPass E F g clock sr s.statics.highPassFilter) s.statics.masterOutLPF mix) ∧
      (g.g_lpf = EEffect.e_none → s1.statics.lowPassFilter = s.statics.lowPassFilter) ∧
      (g.g_hpf = EEffect.e_none → s1.statics.highPassFilter = s.statics.highPassFilter) ∧
      (g.g_masterOutLPFOn = false → s1.statics.masterOutLPF = s.statics.masterOutLPF) ∧
      (g.g_lpf = EEffect.e_none → g.g_hpf = EEffect.e_none → g.g_masterOutLPFOn = false →
        s1.outputBuffer = writeChannels s.outputBuffer offset numChannels mix) ∧
      (∀ (b0 b1 b2 b3 : B) (v : ℚ), passThrough F [b0, b1, b2, b3] v =
        (F.AddSample b3 (F.AddSample b2 (F.AddSample b1 (F.AddSample b0 v).2).2).2).2) := by
  obtain ⟨r, hr⟩ := frameCore_isSome E F g clock sr sample s.g_notes s.statics hrhythm
  have hr0 := hr
  simp only [frameCore] at hr
  cases hmix : frameMix E g clock sr sample s.statics.rhythmStart s.g_notes with
  | none => rw [hmix] at hr; exact absurd hr (by simp)
  | some mix =>
    rw [hmix] at hr
    simp only [Option.some.injEq] at hr
    refine ⟨_, mix, by rw [renderFrame_eq, hr0]; rfl, ?_, ?_, ?_, ?_, ?_, ?_, ?_, ?_⟩
    · intro h
      simp only [frameMix, h, Bool.false_eq_true, if_false, Option.some.injEq] at hmix
      rw [← hmix, sumNotes_value, zero_add]
    · intro h
      simp only [frameMix, h, if_true] at hmix
      cases hg : GenerateRhythm E g (rhythmIndex clock s.statics.rhythmStart sample) sr with
      | none => rw [hg] at hmix; exact absurd hmix (by simp)
      | some x =>
        rw [hg] at hmix
        simp only [Option.map_some', Option.some.injEq] at hmix
        exact ⟨x, rfl, by rw [← hmix, sumNotes_value, zero_add]⟩
    · rw [← hr]
      simp only [frameFilter_value]
    · intro h
      rw [← hr]
      simp [frameFilter, lfoLowPass, h]
    · intro h
      rw [← hr]
      simp [frameFilter, lfoHighPass, h]
    · intro h
      rw [← hr]
      simp [frameFilter, h]
    · intro h1 h2 h3
      rw [← hr]
      simp [frameFilter, h1, h2, h3]
    · intro b0 b1 b2 b3 v
      rfl

/-- Witness of C11: a frame of one held saw note with the rhythm on at 44100 Hz. -/
theorem C11_filter_order_witness :
    ∃ (s1 : Render ℚ),
      renderFrame demoEnv demoBiQuad
        (Globals.mk [SNote.mk 440 EWaveForm.e_waveSaw 5000 false false 0] EWaveForm.e_waveSaw
          EEffect.e_small EEffect.e_none true true) 0 2 44100 0 0
        { g_notes := [SNote.mk 440 EWaveForm.e_waveSaw 5000 false false 0],
          statics := Statics.init 0, outputBuffer := [0, 0] } = some s1 ∧
      s1.statics.highPassFilter = [0, 0, 0, 0] :=
  let ⟨s1, _, h1, _, _, _, _, h2, _⟩ := C11_filter_order demoEnv demoBiQuad
    (Globals.mk [SNote.mk 440 EWaveForm.e_waveSaw 5000 false false 0] EWaveForm.e_waveSaw
      EEffect.e_small EEffect.e_none true true) 0 2 44100 0 0
    { g_notes := [SNote.mk 440 EWaveForm.e_waveSaw 5000 false false 0],
      statics := Statics.init 0, outputBuffer := [0, 0] } (by decide)
  ⟨s1, h1, h2 rfl⟩


/-! ## Lemmas on the statics and on the counting filter -/

theorem frameCore_statics {B : Type} (E : Env) (F : SBiQuadOps B) (g : Globals) (clock : Nat)
    (sr : ℚ) (sample : Nat) (notes : List SNote) (st : Statics B)
    (r : List SNote × Statics B × ℚ) (h : frameCore E F g clock sr sample notes st = some r) :
    r.2.1.masterOutLPFInited = st.masterOutLPFInited ∧ r.2.1.lastLPF = st.lastLPF ∧
    r.2.1.lastHPF = st.lastHPF ∧ r.2.1.rhythmWasOn = st.rhythmWasOn ∧
    r.2.1.rhythmStart = st.rhythmStart ∧
    r.1 = notes.map (fun note => (GenerateNoteSample E note sr).1) := by
  simp only [frameCore] at h
  split at h
  · exact absurd h (by simp)
  · simp only [Option.some.injEq] at h
    rw [← h]
    exact ⟨rfl, rfl, rfl, rfl, rfl, sumNotes_notes E sr notes 0⟩

theorem frameValues_statics {B : Type} (E : Env) (F : SBiQuadOps B) (g : Globals) (clock : Nat)
    (sr : ℚ) (n sample : Nat) (notes : List SNote) (st : Statics B)
    (r : List ℚ × List SNote × Statics B)
    (h : frameValues E F g clock sr n sample notes st = some r) :
    r.2.2.masterOutLPFInited = st.masterOutLPFInited ∧ r.2.2.lastLPF = st.lastLPF ∧
    r.2.2.lastHPF = st.lastHPF ∧ r.2.2.rhythmWasOn = st.rhythmWasOn ∧
    r.2.2.rhythmStart = st.rhythmStart := by
  induction n generalizing sample notes st r with
  | zero =>
    simp only [frameValues, Option.some.injEq] at h
    rw [← h]
    exact ⟨rfl, rfl, rfl, rfl, rfl⟩
  | succ k ih =>
    simp only [frameValues] at h
    cases hc : frameCore E F g clock sr sample notes st with
    | none => rw [hc] at h; exact absurd h (by simp)
    | some c =>
      rw [hc] at h
      simp only at h
      cases hv : frameValues E F g clock sr k (sample + 1) c.1 c.2.1 with
      | none => rw [hv] at h; exact absurd h (by simp)
      | some t =>
        rw [hv] at h
        simp only [Option.some.injEq] at h
        obtain ⟨a1, a2, a3, a4, a5, _⟩ := frameCore_statics E F g clock sr sample notes st c hc
        obtain ⟨b1, b2, b3, b4, b5⟩ := ih (sample + 1) c.1 c.2.1 t hv
        rw [← h]
        exact ⟨b1.trans a1, b2.trans a2, b3.trans a3, b4.trans a4, b5.trans a5⟩

theorem setAllParams_count {B : Type} (F : SBiQuadOps B) (stages : List (B × Nat))
    (type : EType) (frequency sr q gain : ℚ) :
    (setAllParams (countingOps F) stages type frequency sr q gain).map Prod.snd =
      (stages.map Prod.snd).map (fun c => c + 1) := by
  simp [setAllParams, countingOps, List.map_map, Function.comp_def]

theorem addSampleAll_count {B : Type} (F : SBiQuadOps B) (stages : List (B × Nat))
    (value : ℚ) :
    (addSampleAll (countingOps F) stages value).1.map Prod.snd = stages.map Prod.snd := by
  induction stages generalizing value with
  | nil => rfl
  | cons b rest ih =>
    simp only [addSampleAll, List.map_cons, ih]
    rfl

theorem frameCore_counts {B : Type} (E : Env) (F : SBiQuadOps B) (g : Globals) (clock : Nat)
    (sr : ℚ) (sample : Nat) (notes : List SNote) (st : Statics (B × Nat))
    (r : List SNote × Statics (B × Nat) × ℚ)
    (h : frameCore E (countingOps F) g clock sr sample notes st = some r) :
    r.2.1.lowPassFilter.map Prod.snd =
      (st.lowPassFilter.map Prod.snd).map
        (fun c => c + (if g.g_lpf = EEffect.e_LFO then 1 else 0)) ∧
    r.2.1.highPassFilter.map Prod.snd =
      (st.highPassFilter.map Prod.snd).map
        (fun c => c + (if g.g_hpf = EEffect.e_LFO then 1 else 0)) ∧
    r.2.1.masterOutLPF.2 = st.masterOutLPF.2 := by
  simp only [frameCore] at h
  split at h
  · exact absurd h (by simp)
  · simp only [Option.some.injEq] at h
    rw [← h]
    simp only [frameFilter, lfoLowPass, lfoHighPass]
    refine ⟨?_, ?_, ?_⟩
    · by_cases h1 : g.g_lpf = EEffect.e_LFO
      · simp [h1, addSampleAll_count, setAllParams_count]
      · by_cases h2 : g.g_lpf = EEffect.e_none <;> simp [h1, h2, addSampleAll_count]
    · by_cases h1 : g.g_hpf = EEffect.e_LFO
      · simp [h1, addSampleAll_count, setAllParams_count]
      · by_cases h2 : g.g_hpf = EEffect.e_none <;> simp [h1, h2, addSampleAll_count]
    · by_cases h3 : g.g_masterOutLPFOn = true <;> simp [h3, countingOps]

theorem frameValues_counts {B : Type} (E : Env) (F : SBiQuadOps B) (g : Globals) (clock : Nat)
    (sr : ℚ) (n sample : Nat) (notes : List SNote) (st : Statics (B × Nat))
    (r : List ℚ × List SNote × Statics (B × Nat))
    (h : frameValues E (countingOps F) g clock sr n sample notes st = some r) :
    r.2.2.lowPassFilter.map Prod.snd =
      (st.lowPassFilter.map Prod.snd).map
        (fun c => c + n * (if g.g_lpf = EEffect.e_LFO then 1 else 0)) ∧
    r.2.2.highPassFilter.map Prod.snd =
      (st.highPassFilter.map Prod.snd).map
        (fun c => c + n * (if g.g_hpf = EEffect.e_LFO then 1 else 0)) ∧
    r.2.2.masterOutLPF.2 = st.masterOutLPF.2 := by
  induction n generalizing sample notes st r with
  | zero =>
    simp only [frameValues, Option.some.injEq] at h
    rw [← h]
    simp
  | succ k ih =>
    simp only [frameValues] at h
    cases hc : frameCore E (countingOps F) g clock sr sample notes st with
    | none => rw [hc] at h; exact absurd h (by simp)
    | some c =>
      rw [hc] at h
      simp only at h
      cases hv : frameValues E (countingOps F) g clock sr k (sample + 1) c.1 c.2.1 with
      | none => rw [hv] at h; exact absurd h (by simp)
      | some t =>
        rw [hv] at h
        simp only [Option.some.injEq] at h
        obtain ⟨a1, a2, a3⟩ := frameCore_counts E F g clock sr sample notes st c hc
        obtain ⟨b1, b2, b3⟩ := ih (sample + 1) c.1 c.2.1 t hv
        rw [← h]
        refine ⟨?_, ?_, b3.trans a3⟩
        · rw [b1, a1, List.map_map]
          apply List.map_congr_left
          intro x _
          simp only [Function.comp]
          ring
        · rw [b2, a2, List.map_map]
          apply List.map_congr_left
          intro x _
          simp only [Function.comp]
          ring


theorem refreshStatics_eq {B : Type} (F : SBiQuadOps B) (g : Globals) (clock : Nat)
    (sr : ℚ) (st : Statics B) :
    refreshStatics F g clock sr st =
      refreshRhythm g clock (refreshHighPass F g sr (refreshLowPass F g sr
        (refreshMaster F sr st))) := rfl

theorem refreshMaster_fields {B : Type} (F : SBiQuadOps B) (sr : ℚ) (st : Statics B) :
    (refreshMaster F sr st).masterOutLPFInited = true ∧
    (refreshMaster F sr st).lowPassFilter = st.lowPassFilter ∧
    (refreshMaster F sr st).lastLPF = st.lastLPF ∧
    (refreshMaster F sr st).highPassFilter = st.highPassFilter ∧
    (refreshMaster F sr st).lastHPF = st.lastHPF ∧
    (refreshMaster F sr st).rhythmWasOn = st.rhythmWasOn ∧
    (refreshMaster F sr st).rhythmStart = st.rhythmStart := by
  unfold refreshMaster
  split_ifs with h
  · simp
  · simp at h; simp [h]

theorem refreshLowPass_fields {B : Type} (F : SBiQuadOps B) (g : Globals) (sr : ℚ)
    (st : Statics B) :
    (refreshLowPass F g sr st).masterOutLPFInited = st.masterOutLPFInited ∧
    (refreshLowPass F g sr st).masterOutLPF = st.masterOutLPF ∧
    (refreshLowPass F g sr st).lastLPF = g.g_lpf ∧
    (refreshLowPass F g sr st).highPassFilter = st.highPassFilter ∧
    (refreshLowPass F g sr st).lastHPF = st.lastHPF ∧
    (refreshLowPass F g sr st).rhythmWasOn = st.rhythmWasOn ∧
    (refreshLowPass F g sr st).rhythmStart = st.rhythmStart := by
  unfold refreshLowPass
  split_ifs with h
  · simp
  · simp at h; simp [h]

theorem refreshHighPass_fields {B : Type} (F : SBiQuadOps B) (g : Globals) (sr : ℚ)
    (st : Statics B) :
    (refreshHighPass F g sr st).masterOutLPFInited = st.masterOutLPFInited ∧
    (refreshHighPass F g sr st).masterOutLPF = st.masterOutLPF ∧
    (refreshHighPass F g sr st).lastLPF = st.lastLPF ∧
    (refreshHighPass F g sr st).lowPassFilter = st.lowPassFilter ∧
    (refreshHighPass F g sr st).lastHPF = g.g_hpf ∧
    (refreshHighPass F g sr st).rhythmWasOn = st.rhythmWasOn ∧
    (refreshHighPass F g sr st).rhythmStart = st.rhythmStart := by
  unfold refreshHighPass
  split_ifs with h
  · simp
  · simp at h; simp [h]

theorem refreshRhythm_fields {B : Type} (g : Globals) (clock : Nat) (st : Statics B) :
    (refreshRhythm g clock st).masterOutLPFInited = st.masterOutLPFInited ∧
    (refreshRhythm g clock st).masterOutLPF = st.masterOutLPF ∧
    (refreshRhythm g clock st).lastLPF = st.lastLPF ∧
    (refreshRhythm g clock st).lowPassFilter = st.lowPassFilter ∧
    (refreshRhythm g clock st).lastHPF = st.lastHPF ∧
    (refreshRhythm g clock st).highPassFilter = st.highPassFilter ∧
    (refreshRhythm g clock st).rhythmWasOn = g.g_rhythmOn ∧
    (refreshRhythm g clock st).rhythmStart =
      (if st.rhythmWasOn ≠ g.g_rhythmOn then clock else st.rhythmStart) := by
  unfold refreshRhythm
  split_ifs with h
  · simp
  · simp at h; simp [h]

theorem refreshStatics_fields {B : Type} (F : SBiQuadOps B) (g : Globals) (clock : Nat)
    (sr : ℚ) (st : Statics B) :
    (refreshStatics F g clock sr st).masterOutLPFInited = true ∧
    (refreshStatics F g clock sr st).lastLPF = g.g_lpf ∧
    (refreshStatics F g clock sr st).lastHPF = g.g_hpf ∧
    (refreshStatics F g clock sr st).rhythmWasOn = g.g_rhythmOn ∧
    (refreshStatics F g clock sr st).rhythmStart =
      (if st.rhythmWasOn ≠ g.g_rhythmOn then clock else st.rhythmStart) := by
  obtain ⟨m1, _, m3, _, m5, m6, m7⟩ := refreshMaster_fields F sr st
  obtain ⟨l1, _, l3, _, l5, l6, l7⟩ := refreshLowPass_fields F g sr (refreshMaster F sr st)
  obtain ⟨h1, _, h3, _, h5, h6, h7⟩ :=
    refreshHighPass_fields F g sr (refreshLowPass F g sr (refreshMaster F sr st))
  obtain ⟨r1, _, r3, _, r5, _, r7, r8⟩ := refreshRhythm_fields g clock
    (refreshHighPass F g sr (refreshLowPass F g sr (refreshMaster F sr st)))
  rw [refreshStatics_eq]
  refine ⟨by rw [r1, h1, l1, m1], by rw [r3, h3, l3], by rw [r5, h5], r7, ?_⟩
  rw [r8, h6, l6, m6, h7, l7, m7]

theorem refreshLowPass_count {B : Type} (F : SBiQuadOps B) (g : Globals) (sr : ℚ)
    (st : Statics (B × Nat)) :
    (refreshLowPass (countingOps F) g sr st).lowPassFilter.map Prod.snd =
      (st.lowPassFilter.map Prod.snd).map (fun c => c + refreshCalls st.lastLPF g.g_lpf) := by
  unfold refreshLowPass refreshCalls
  by_cases h1 : g.g_lpf = st.lastLPF
  · simp [h1]
  · cases hl : g.g_lpf <;> simp_all [setAllParams_count]

theorem refreshHighPass_count {B : Type} (F : SBiQuadOps B) (g : Globals) (sr : ℚ)
    (st : Statics (B × Nat)) :
    (refreshHighPass (countingOps F) g sr st).highPassFilter.map Prod.snd =
      (st.highPassFilter.map Prod.snd).map (fun c => c + refreshCalls st.lastHPF g.g_hpf) := by
  unfold refreshHighPass refreshCalls
  by_cases h1 : g.g_hpf = st.lastHPF
  · simp [h1]
  · cases hl : g.g_hpf <;> simp_all [setAllParams_count]

theorem refreshMaster_count {B : Type} (F : SBiQuadOps B) (sr : ℚ) (st : Statics (B × Nat)) :
    (refreshMaster (countingOps F) sr st).masterOutLPF.2 =
      st.masterOutLPF.2 + (if st.masterOutLPFInited = false then 1 else 0) := by
  unfold refreshMaster
  split_ifs with h <;> simp [countingOps]

theorem refreshStatics_counts {B : Type} (F : SBiQuadOps B) (g : Globals) (clock : Nat)
    (sr : ℚ) (st : Statics (B × Nat)) :
    (refreshStatics (countingOps F) g clock sr st).lowPassFilter.map Prod.snd =
      (st.lowPassFilter.map Prod.snd).map (fun c => c + refreshCalls st.lastLPF g.g_lpf) ∧
    (refreshStatics (countingOps F) g clock sr st).highPassFilter.map Prod.snd =
      (st.highPassFilter.map Prod.snd).map (fun c => c + refreshCalls st.lastHPF g.g_hpf) ∧
    (refreshStatics (countingOps F) g clock sr st).masterOutLPF.2 =
      st.masterOutLPF.2 + (if st.masterOutLPFInited = false then 1 else 0) := by
  obtain ⟨_, m2, m3, m4, m5, _, _⟩ := refreshMaster_fields (countingOps F) sr st
  obtain ⟨_, l2, _, l4, l5, _, _⟩ :=
    refreshLowPass_fields (countingOps F) g sr (refreshMaster (countingOps F) sr st)
  obtain ⟨_, h2, _, h4, _, _, _⟩ := refreshHighPass_fields (countingOps F) g sr
    (refreshLowPass (countingOps F) g sr (refreshMaster (countingOps F) sr st))
  obtain ⟨_, r2, _, r4, _, r6, _, _⟩ := refreshRhythm_fields g clock
    (refreshHighPass (countingOps F) g sr
      (refreshLowPass (countingOps F) g sr (refreshMaster (countingOps F) sr st)))
  rw [refreshStatics_eq]
  refine ⟨?_, ?_, ?_⟩
  · rw [r4, h4, refreshLowPass_count, m2, m3]
  · rw [r6, refreshHighPass_count, l4, l5, m4, m5]
  · rw [r2, h2, l2, refreshMaster_count]


theorem GenerateAudioSamples_eq {B : Type} (E : Env) (F : SBiQuadOps B) (clock : Nat)
    (g : Globals) (st : Statics B) (buffer : List ℚ) (n numChannels : Nat) (sr : ℚ) :
    GenerateAudioSamples E F clock g st buffer n numChannels sr =
      (frameValues E F g clock sr n 0 g.g_notes (refreshStatics F g clock sr st)).map (fun r =>
        { g_notes := pruneNotes r.2.1, statics := r.2.2,
          outputBuffer := writeFrames buffer 0 numChannels r.1 }) := by
  simp only [GenerateAudioSamples, renderFrames_eq]
  cases frameValues E F g clock sr n 0 g.g_notes (refreshStatics F g clock sr st) <;> rfl

theorem GenerateAudioSamples_counts {B : Type} (E : Env) (F : SBiQuadOps B) (clock : Nat)
    (g : Globals) (st : Statics (B × Nat)) (buffer : List ℚ) (n numChannels : Nat) (sr : ℚ)
    (hrhythm : g.g_rhythmOn = true → size_of_float sr / 8 ≠ 0) :
    ∃ r, GenerateAudioSamples E (countingOps F) clock g st buffer n numChannels sr = some r ∧
      r.statics.lowPassFilter.map Prod.snd =
        (st.lowPassFilter.map Prod.snd).map (fun c =>
          c + (refreshCalls st.lastLPF g.g_lpf +
            n * (if g.g_lpf = EEffect.e_LFO then 1 else 0))) ∧
      r.statics.highPassFilter.map Prod.snd =
        (st.highPassFilter.map Prod.snd).map (fun c =>
          c + (refreshCalls st.lastHPF g.g_hpf +
            n * (if g.g_hpf = EEffect.e_LFO then 1 else 0))) ∧
      r.statics.masterOutLPF.2 =
        st.masterOutLPF.2 + (if st.masterOutLPFInited = false then 1 else 0) ∧
      r.statics.masterOutLPFInited = true ∧ r.statics.lastLPF = g.g_lpf ∧
      r.statics.lastHPF = g.g_hpf := by
  obtain ⟨v, hv, _⟩ := frameValues_isSome E (countingOps F) g clock sr hrhythm n 0 g.g_notes
    (refreshStatics (countingOps F) g clock sr st)
  obtain ⟨c1, c2, c3⟩ := frameValues_counts E F g clock sr n 0 g.g_notes _ v hv
  obtain ⟨s1, s2, s3, _, _⟩ := frameValues_statics E (countingOps F) g clock sr n 0 g.g_notes _ v hv
  obtain ⟨f1, f2, f3, _, _⟩ := refreshStatics_fields (countingOps F) g clock sr st
  obtain ⟨k1, k2, k3⟩ := refreshStatics_counts F g clock sr st
  refine ⟨_, by rw [GenerateAudioSamples_eq, hv]; rfl, ?_, ?_, ?_, ?_, ?_, ?_⟩
  · simp only [c1, k1, List.map_map]
    apply List.map_congr_left
    intro x _
    simp only [Function.comp]
    ring
  · simp only [c2, k2, List.map_map]
    apply List.map_congr_left
    intro x _
    simp only [Function.comp]
    ring
  · simp only [c3, k3]
  · simp only [s1, f1]
  · simp only [s2, f2]
  · simp only [s3, f3]

/-- C12: re-parameterization follows the selected level.  Run with a filter that counts the
`SetEffectParams` calls on each stage, a buffer render (that returns: the rhythm generator does
not divide by zero) leaves the counts of a channel unchanged when its selected level equals the
level recorded by the previous render and is not `e_LFO`; when the level is `e_LFO` the count of
every stage of the channel grows by exactly one in each frame, `framesPerBuffer` over the render;
and the master low-pass is parameterized once when `masterOutLPFInited` is false, which no render
leaves false, and never otherwise. -/
theorem C12_reparameterization_by_level {B : Type} (E : Env) (F : SBiQuadOps B) (clock : Nat)
    (g : Globals) (st : Statics (B × Nat)) (buffer : List ℚ) (n numChannels : Nat) (sr : ℚ)
    (hrhythm : g.g_rhythmOn = true → size_of_float sr / 8 ≠ 0) :
    ∃ r, GenerateAudioSamples E (countingOps F) clock g st buffer n numChannels sr = some r ∧
      (g.g_lpf = st.lastLPF → g.g_lpf ≠ EEffect.e_LFO →
        r.statics.lowPassFilter.map Prod.snd = st.lowPassFilter.map Prod.snd) ∧
      (g.g_hpf = st.lastHPF → g.g_hpf ≠ EEffect.e_LFO →
        r.statics.highPassFilter.map Prod.snd = st.highPassFilter.map Prod.snd) ∧
      (g.g_lpf = EEffect.e_LFO →
        r.statics.lowPassFilter.map Prod.snd =
          (st.lowPassFilter.map Prod.snd).map (fun c => c + n)) ∧
      (g.g_hpf = EEffect.e_LFO →
        r.statics.highPassFilter.map Prod.snd =
          (st.highPassFilter.map Prod.snd).map (fun c => c + n)) ∧
      (∀ (sample offset : Nat) (s s1 : Render (B × Nat)),
        renderFrame E (countingOps F) g clock numChannels sr sample offset s = some s1 →
        (g.g_lpf = EEffect.e_LFO →
          s1.statics.lowPassFilter.map Prod.snd =
            (s.statics.lowPassFilter.map Prod.snd).map (fun c => c + 1)) ∧
        (g.g_hpf = EEffect.e_LFO →
          s1.statics.highPassFilter.map Prod.snd =
            (s.statics.highPassFilter.map Prod.snd).map (fun c => c + 1))) ∧
      r.statics.lowPassFilter.length = st.lowPassFilter.length ∧
      r.statics.highPassFilter.length = st.highPassFilter.length ∧
      r.statics.masterOutLPF.2 =
        st.masterOutLPF.2 + (if st.masterOutLPFInited = false then 1 else 0) ∧
      r.statics.masterOutLPFInited = true := by
  obtain ⟨r, hr, hl, hh, hm, hi, _, _⟩ :=
    GenerateAudioSamples_counts E F clock g st buffer n numChannels sr hrhythm
  have hlen1 := congrArg List.length hl
  have hlen2 := congrArg List.length hh
  simp only [List.length_map] at hlen1 hlen2
  refine ⟨r, hr, ?_, ?_, ?_, ?_, ?_, hlen1, hlen2, hm, hi⟩
  · intro h1 h2
    rw [hl]
    simp [refreshCalls, h1.symm, h2]
  · intro h1 h2
    rw [hh]
    simp [refreshCalls, h1.symm, h2]
  · intro h1
    rw [hl]
    simp [refreshCalls, h1]
  · intro h1
    rw [hh]
    simp [refreshCalls, h1]
  · intro sample offset s s1 h
    rw [renderFrame_eq] at h
    cases hc : frameCore E (countingOps F) g clock sr sample s.g_notes s.statics with
    | none => rw [hc] at h; exact absurd h (by simp)
    | some c =>
      rw [hc] at h
      simp only [Option.map_some', Option.some.injEq] at h
      obtain ⟨a1, a2, _⟩ := frameCore_counts E F g clock sr sample s.g_notes s.statics c hc
      rw [← h]
      exact ⟨fun h1 => by simp only [a1, h1, if_true], fun h1 => by simp only [a2, h1, if_true]⟩

/-- Witness of C12: a first render of 3 frames with the low-pass level `e_LFO`, the high-pass
level `e_none` and the rhythm on at 44100 Hz, from the initial statics with all counts 0. -/
theorem C12_reparameterization_by_level_witness :
    ∃ r, GenerateAudioSamples demoEnv (countingOps demoBiQuad) 0
        (Globals.mk [] EWaveForm.e_waveSaw EEffect.e_LFO EEffect.e_none true false)
        (Statics.init (0, 0)) [0, 0, 0] 3 1 44100 = some r ∧
      r.statics.lowPassFilter.map Prod.snd = [3, 3, 3, 3] ∧
      r.statics.highPassFilter.map Prod.snd = [0, 0, 0, 0] ∧
      r.statics.masterOutLPF.2 = 1 :=
  let ⟨r, h0, _, h2, h3, _, _, _, _, h8, _⟩ := C12_reparameterization_by_level demoEnv demoBiQuad 0
    (Globals.mk [] EWaveForm.e_waveSaw EEffect.e_LFO EEffect.e_none true false)
    (Statics.init (0, 0)) [0, 0, 0] 3 1 44100 (by decide)
  ⟨r, h0, h3 rfl, h2 rfl (by decide), h8⟩


/-! ## Lemmas on the rhythm index and on the frames of a render -/

theorem writeChannels_succ (buffer : List ℚ) (offset c : Nat) (value : ℚ) :
    writeChannels buffer offset (c + 1) value =
      (writeChannels buffer offset c value).set (offset + c) value := by
  simp only [writeChannels, List.range_succ, List.foldl_append, List.foldl_cons, List.foldl_nil]

theorem writeChannels_length (buffer : List ℚ) (offset c : Nat) (value : ℚ) :
    (writeChannels buffer offset c value).length = buffer.length := by
  induction c with
  | zero => simp [writeChannels]
  | succ c ih => rw [writeChannels_succ, List.length_set, ih]

theorem writeChannels_getElem? (buffer : List ℚ) (offset c : Nat) (value : ℚ) (i : Nat) :
    (writeChannels buffer offset c value)[i]? =
      if offset ≤ i ∧ i < offset + c ∧ i < buffer.length then some value else buffer[i]? := by
  induction c with
  | zero =>
    have h : ¬ (offset ≤ i ∧ i < offset + 0 ∧ i < buffer.length) := by omega
    rw [if_neg h]
    simp [writeChannels]
  | succ c ih =>
    rw [writeChannels_succ, List.getElem?_set, writeChannels_length, ih]
    by_cases h1 : offset + c = i
    · subst h1
      by_cases h2 : offset + c < buffer.length
      · have h5 : offset ≤ offset + c ∧ offset + c < offset + (c + 1) ∧
            offset + c < buffer.length := by omega
        rw [if_pos rfl, if_pos h2, if_pos h5]
      · have h4 : ¬ (offset ≤ offset + c ∧ offset + c < offset + (c + 1) ∧
            offset + c < buffer.length) := by omega
        rw [if_pos rfl, if_neg h2, if_neg h4]
        exact (List.getElem?_eq_none (Nat.le_of_not_lt h2)).symm
    · simp only [h1, if_false]
      by_cases h2 : offset ≤ i ∧ i < offset + c ∧ i < buffer.length
      · have h3 : offset ≤ i ∧ i < offset + (c + 1) ∧ i < buffer.length := by omega
        simp only [h2, h3, and_self, if_true]
      · have h3 : ¬ (offset ≤ i ∧ i < offset + (c + 1) ∧ i < buffer.length) := by omega
        simp only [h2, h3, if_false]

theorem writeFrames_spec (c : Nat) (values : List ℚ) :
    ∀ (buffer : List ℚ) (offset : Nat),
      (writeFrames buffer offset c values).length = buffer.length ∧
      (∀ f ch : Nat, f < values.length → ch < c → offset + f * c + ch < buffer.length →
        (writeFrames buffer offset c values)[offset + f * c + ch]? = values[f]?) ∧
      (∀ i : Nat, (i < offset ∨ offset + values.length * c ≤ i) →
        (writeFrames buffer offset c values)[i]? = buffer[i]?) := by
  induction values with
  | nil =>
    intro buffer offset
    refine ⟨rfl, ?_, fun i _ => rfl⟩
    intro f ch hf
    exact absurd hf (by simp)
  | cons v rest ih =>
    intro buffer offset
    obtain ⟨h1, h2, h3⟩ := ih (writeChannels buffer offset c v) (offset + c)
    rw [writeChannels_length] at h1 h2
    simp only [writeFrames]
    refine ⟨h1, ?_, ?_⟩
    · intro f ch hf hch hlt
      cases f with
      | zero =>
        rw [h3 _ (Or.inl (by omega)), writeChannels_getElem?]
        have : offset ≤ offset + 0 * c + ch ∧ offset + 0 * c + ch < offset + c ∧
            offset + 0 * c + ch < buffer.length := by
          refine ⟨by omega, by omega, hlt⟩
        rw [if_pos this]
        simp
      | succ f =>
        have e : offset + (f + 1) * c + ch = offset + c + f * c + ch := by
          rw [Nat.add_mul, Nat.one_mul]; omega
        rw [e] at hlt ⊢
        rw [h2 f ch (by simpa using hf) hch hlt]
        simp
    · intro i hi
      have hlen : (v :: rest).length * c = c + rest.length * c := by
        rw [List.length_cons, Nat.add_mul, Nat.one_mul]; omega
      rw [hlen] at hi
      rw [h3 i (by omega), writeChannels_getElem?]
      have : ¬ (offset ≤ i ∧ i < offset + c ∧ i < buffer.length) := by omega
      rw [if_neg this]


/-- C14: the mono mix is replicated into exactly the requested buffer.  For every
`framesPerBuffer = n` and `numChannels = c` (and no division by zero in the rhythm generator)
there is one value per frame, the same whatever the buffer held before, such that for every
buffer of at least `n * c` samples `GenerateAudioSamples` returns with the buffer at the same
length, all `c` slots `f * c + ch` of every frame `f < n` holding the value of frame `f`, and
every index from `n * c` on holding what it held before. -/
theorem C14_mono_mix_replicated {B : Type} (E : Env) (F : SBiQuadOps B) (clock : Nat)
    (g : Globals) (st : Statics B) (n c : Nat) (sr : ℚ)
    (hrhythm : g.g_rhythmOn = true → size_of_float sr / 8 ≠ 0) :
    ∃ values : List ℚ, values.length = n ∧
      ∀ buffer : List ℚ, n * c ≤ buffer.length →
        ∃ r, GenerateAudioSamples E F clock g st buffer n c sr = some r ∧
          r.outputBuffer.length = buffer.length ∧
          (∀ f ch : Nat, f < n → ch < c → r.outputBuffer[f * c + ch]? = values[f]?) ∧
          (∀ i : Nat, n * c ≤ i → r.outputBuffer[i]? = buffer[i]?) := by
  obtain ⟨v, hv, hlen⟩ := frameValues_isSome E F g clock sr hrhythm n 0 g.g_notes
    (refreshStatics F g clock sr st)
  refine ⟨v.1, hlen, ?_⟩
  intro buffer hbuf
  obtain ⟨w1, w2, w3⟩ := writeFrames_spec c v.1 buffer 0
  refine ⟨_, by rw [GenerateAudioSamples_eq, hv]; rfl, w1, ?_, ?_⟩
  · intro f ch hf hch
    have hle : (f + 1) * c ≤ n * c := Nat.mul_le_mul_right c hf
    have hlt : 0 + f * c + ch < buffer.length := by
      rw [Nat.add_mul, Nat.one_mul] at hle
      omega
    have := w2 f ch (by rw [hlen]; exact hf) hch hlt
    rw [Nat.zero_add] at this
    exact this
  · intro i hi
    exact w3 i (Or.inr (by rw [hlen, Nat.zero_add]; exact hi))

/-- Witness of C14: two frames of two channels with one held note and the rhythm on at
44100 Hz. -/
theorem C14_mono_mix_replicated_witness :
    ∃ values : List ℚ, values.length = 2 ∧
      ∀ buffer : List ℚ, 2 * 2 ≤ buffer.length →
        ∃ r, GenerateAudioSamples demoEnv demoBiQuad 0
            (Globals.mk [SNote.mk 440 EWaveForm.e_waveSaw 5000 false false 0]
              EWaveForm.e_waveSaw EEffect.e_small EEffect.e_none true false)
            (Statics.init 0) buffer 2 2 44100 = some r ∧
          r.outputBuffer.length = buffer.length ∧
          (∀ f ch : Nat, f < 2 → ch < 2 → r.outputBuffer[f * 2 + ch]? = values[f]?) ∧
          (∀ i : Nat, 2 * 2 ≤ i → r.outputBuffer[i]? = buffer[i]?) :=
  C14_mono_mix_replicated demoEnv demoBiQuad 0
    (Globals.mk [SNote.mk 440 EWaveForm.e_waveSaw 5000 false false 0]
      EWaveForm.e_waveSaw EEffect.e_small EEffect.e_none true false)
    (Statics.init 0) 2 2 44100 (by decide)


/-! ## Lemmas on the rhythm generator -/

theorem GenerateRhythm_eq (E : Env) (g : Globals) (i : Nat) (sr : ℚ) :
    GenerateRhythm E g i sr =
      if beatSizeOf sr = 0 then none
      else some (rhythmTone E g (rhythmFrequency E ((i / beatSizeOf sr) % 32))
        (((i % beatSizeOf sr : Nat) : ℚ) / sr) ((beatSizeOf sr : ℚ) / sr)) := by
  unfold GenerateRhythm beatSizeOf
  by_cases h : size_of_float sr / 8 = 0
  · simp only [h, if_true]
  · simp only [h, if_false]
    cases hw : g.g_currentWaveForm <;> simp only [rhythmTone, rhythmFrequency, hw]

theorem rhythmFrequency_phrase (E : Env) (b : Nat) :
    rhythmFrequency E b =
      if b < 16 then (phraseA E).getD (b % 4) 0 else (phraseB E).getD (b % 4) 0 := by
  have hm : b % 4 < 4 := Nat.mod_lt b (by norm_num)
  simp only [rhythmFrequency, phraseA, phraseB]
  generalize b % 4 = m at hm ⊢
  interval_cases m <;> simp

/-- C15: beat structure of the rhythm.  With `beatSize = size_t(sampleRate) / 8 ≥ 1`,
`GenerateRhythm(i, sampleRate)` is the tone whose frequency is selected by
`b = (i / beatSize) mod 32` alone, phrase A at `b mod 4` for `b < 16` and phrase B at `b mod 4`
for `16 ≤ b < 32`, at the in-beat time `(i mod beatSize) / sampleRate`; two indices with the same
`b` and the same `i mod beatSize` give the same sample, and so do `i` and `i + 32 * beatSize`. -/
theorem C15_rhythm_beat_structure (E : Env) (g : Globals) (i : Nat) (sr : ℚ)
    (hbs : 1 ≤ beatSizeOf sr) :
    GenerateRhythm E g i sr =
      some (rhythmTone E g (rhythmFrequency E ((i / beatSizeOf sr) % 32))
        (((i % beatSizeOf sr : Nat) : ℚ) / sr) ((beatSizeOf sr : ℚ) / sr)) ∧
    (i / beatSizeOf sr) % 32 < 32 ∧
    (∀ b : Nat, b < 16 → rhythmFrequency E b = (phraseA E).getD (b % 4) 0) ∧
    (∀ b : Nat, 16 ≤ b → b < 32 → rhythmFrequency E b = (phraseB E).getD (b % 4) 0) ∧
    phraseA E = [E.NoteToFrequency 2 0, E.NoteToFrequency 1 0, E.NoteToFrequency 2 3,
      E.NoteToFrequency 1 3] ∧
    phraseB E = [E.NoteToFrequency 2 2, E.NoteToFrequency 1 2, E.NoteToFrequency 2 5,
      E.NoteToFrequency 1 5] ∧
    (∀ j : Nat, (j / beatSizeOf sr) % 32 = (i / beatSizeOf sr) % 32 →
      j % beatSizeOf sr = i % beatSizeOf sr → GenerateRhythm E g j sr = GenerateRhythm E g i sr) ∧
    GenerateRhythm E g (i + 32 * beatSizeOf sr) sr = GenerateRhythm E g i sr := by
  have hne : beatSizeOf sr ≠ 0 := by omega
  refine ⟨by rw [GenerateRhythm_eq, if_neg hne], Nat.mod_lt _ (by norm_num), ?_, ?_, rfl, rfl,
    ?_, ?_⟩
  · intro b hb
    rw [rhythmFrequency_phrase, if_pos hb]
  · intro b hb _
    rw [rhythmFrequency_phrase, if_neg (by omega)]
  · intro j h1 h2
    rw [GenerateRhythm_eq, GenerateRhythm_eq, h1, h2]
  · rw [GenerateRhythm_eq, GenerateRhythm_eq]
    have h1 : (i + 32 * beatSizeOf sr) / beatSizeOf sr = i / beatSizeOf sr + 32 :=
      Nat.add_mul_div_right i 32 (by omega)
    have h2 : (i + 32 * beatSizeOf sr) % beatSizeOf sr = i % beatSizeOf sr :=
      Nat.add_mul_mod_self_right i 32 (beatSizeOf sr)
    rw [h1, h2, Nat.add_mod_right]

/-- Witness of C15: sample 100000 at 44100 Hz, where the beat size is 5512. -/
theorem C15_rhythm_beat_structure_witness :
    beatSizeOf 44100 = 5512 ∧
    GenerateRhythm demoEnv
        (Globals.mk [] EWaveForm.e_waveSquare EEffect.e_none EEffect.e_none true false)
        (100000 + 32 * beatSizeOf 44100) 44100 =
      GenerateRhythm demoEnv
        (Globals.mk [] EWaveForm.e_waveSquare EEffect.e_none EEffect.e_none true false)
        100000 44100 :=
  ⟨by decide, (C15_rhythm_beat_structure demoEnv
    (Globals.mk [] EWaveForm.e_waveSquare EEffect.e_none EEffect.e_none true false)
    100000 44100 (by decide)).2.2.2.2.2.2.2⟩


/-! ## StopNote, sample playback and envelope bounds -/

theorem applyOp_wants (E : Env) (note : SNote) (op : NoteOp)
    (h : note.m_wantsKeyRelease = true) : (applyOp E note op).m_wantsKeyRelease = true := by
  cases op with
  | envelope t sr => simp only [applyOp, (GenerateEnvelope_fields note t sr).2.2.2, h]
  | sampleAudio clip t => simp only [applyOp, (SampleAudioSample_fields note clip t).2.2.2.1, h]
  | noteSample sr => simp only [applyOp, (GenerateNoteSample_fields E note sr).2.2.2, h]
  | stop f => exact stopNoteOne_wants f note h

/-- C16: `StopNote(F)` only flags.  After `StopNote(F)` the registry has the same length, the note
at every position is the old note of that position with `m_wantsKeyRelease` set if its frequency
equals `F` and the old note itself otherwise, so that no other field of any note changes, and
no other global changes; and once `m_wantsKeyRelease` is true it stays true under `StopNote` and
under every sequence of render operations and `StopNote` calls. -/
theorem C16_stop_note_only_flags (E : Env) (g : Globals) (F : ℚ) :
    (StopNote g F).g_notes.length = g.g_notes.length ∧
    (∀ (i : Nat) (note : SNote), g.g_notes[i]? = some note →
      (StopNote g F).g_notes[i]? =
        some (if note.m_frequency = F then { note with m_wantsKeyRelease := true } else note)) ∧
    (∀ note : SNote, note.m_frequency = F → (stopNoteOne F note).m_wantsKeyRelease = true) ∧
    (∀ note : SNote, note.m_frequency ≠ F → stopNoteOne F note = note) ∧
    (∀ note : SNote, (stopNoteOne F note).m_frequency = note.m_frequency ∧
      (stopNoteOne F note).m_waveForm = note.m_waveForm ∧
      (stopNoteOne F note).m_age = note.m_age ∧
      (stopNoteOne F note).m_dead = note.m_dead ∧
      (stopNoteOne F note).m_releaseAge = note.m_releaseAge) ∧
    ((StopNote g F).g_currentWaveForm = g.g_currentWaveForm ∧ (StopNote g F).g_lpf = g.g_lpf ∧
      (StopNote g F).g_hpf = g.g_hpf ∧ (StopNote g F).g_rhythmOn = g.g_rhythmOn ∧
      (StopNote g F).g_masterOutLPFOn = g.g_masterOutLPFOn) ∧
    (∀ (note : SNote) (ops : List NoteOp), note.m_wantsKeyRelease = true →
      (ops.foldl (applyOp E) note).m_wantsKeyRelease = true) := by
  refine ⟨by simp [StopNote], ?_, ?_, ?_, fun note => stopNoteOne_fields F note,
    ⟨rfl, rfl, rfl, rfl, rfl⟩, ?_⟩
  · intro i note h
    simp only [StopNote, List.getElem?_map, h, Option.map_some', stopNoteOne]
  · intro note h
    simp [stopNoteOne, h]
  · intro note h
    simp [stopNoteOne, h]
  · intro note ops
    induction ops generalizing note with
    | nil => exact id
    | cons op rest ih =>
      intro h
      simp only [List.foldl_cons]
      exact ih (applyOp E note op) (applyOp_wants E note op h)

/-- Witness of C16: `StopNote(440)` on a registry of a 440 Hz note and a 550 Hz note. -/
theorem C16_stop_note_only_flags_witness :
    (StopNote
      (Globals.mk [SNote.mk 440 EWaveForm.e_waveSaw 7 false false 0,
        SNote.mk 550 EWaveForm.e_waveSaw 9 false false 0] EWaveForm.e_waveSaw EEffect.e_none
        EEffect.e_none false false) 440).g_notes[0]? =
      some (if (SNote.mk 440 EWaveForm.e_waveSaw 7 false false 0).m_frequency = 440 then
        { SNote.mk 440 EWaveForm.e_waveSaw 7 false false 0 with m_wantsKeyRelease := true }
        else SNote.mk 440 EWaveForm.e_waveSaw 7 false false 0) :=
  (C16_stop_note_only_flags demoEnv
    (Globals.mk [SNote.mk 440 EWaveForm.e_waveSaw 7 false false 0,
      SNote.mk 550 EWaveForm.e_waveSaw 9 false false 0] EWaveForm.e_waveSaw EEffect.e_none
      EEffect.e_none false false) 440).2.1 0 _ rfl

/-- C17: sample exhaustion is note death.  With `sampleIndex = m_age * m_numChannels` (in
`size_t` arithmetic): when `sampleIndex ≥ m_numSamples`, `SampleAudioSample` sets `m_dead` and
returns 0 whatever the clip data is; when `sampleIndex < m_numSamples` it leaves the note
unchanged and returns the sample at `sampleIndex` times the 4-point envelope, an index inside the
data of a clip that holds `m_numSamples` samples.  The result depends on the clip data only
through the sample at `sampleIndex`, and only when `sampleIndex < m_numSamples`. -/
theorem C17_sample_exhaustion_is_death (note : SNote) (clip : SWavFile) (t : ℚ) :
    (clip.m_numSamples ≤ size_mul note.m_age clip.m_numChannels →
      SampleAudioSample note clip t = ({ note with m_dead := true }, 0)) ∧
    (size_mul note.m_age clip.m_numChannels < clip.m_numSamples →
      SampleAudioSample note clip t =
        (note, clip.m_samples.getD (size_mul note.m_age clip.m_numChannels) 0 *
          Envelope4Pt t 0 0 (1 / 10) 1 (clip.m_lengthSeconds - 1 / 10) 1 clip.m_lengthSeconds 0) ∧
      (clip.m_numSamples ≤ clip.m_samples.length →
        clip.m_samples[size_mul note.m_age clip.m_numChannels]? =
          some (clip.m_samples.getD (size_mul note.m_age clip.m_numChannels) 0))) ∧
    (∀ data : List ℚ,
      (size_mul note.m_age clip.m_numChannels < clip.m_numSamples →
        data.getD (size_mul note.m_age clip.m_numChannels) 0 =
          clip.m_samples.getD (size_mul note.m_age clip.m_numChannels) 0) →
      SampleAudioSample note { clip with m_samples := data } t =
        SampleAudioSample note clip t) ∧
    (note.m_age * clip.m_numChannels < SIZE_MOD →
      size_mul note.m_age clip.m_numChannels = note.m_age * clip.m_numChannels) := by
  refine ⟨?_, ?_, ?_, ?_⟩
  · intro h
    simp only [SampleAudioSample]
    rw [if_pos h]
  · intro h
    refine ⟨?_, ?_⟩
    · simp only [SampleAudioSample]
      rw [if_neg (not_le.mpr h)]
    · intro hlen
      have hlt : size_mul note.m_age clip.m_numChannels < clip.m_samples.length :=
        lt_of_lt_of_le h hlen
      rw [List.getD_eq_getElem?_getD, List.getElem?_eq_getElem hlt]
      rfl
  · intro data hdata
    simp only [SampleAudioSample]
    by_cases h : clip.m_numSamples ≤ size_mul note.m_age clip.m_numChannels
    · rw [if_pos h, if_pos h]
    · rw [if_neg h, if_neg h, hdata (not_le.mp h)]
  · intro h
    exact Nat.mod_eq_of_lt h

/-- Witness of C17: a note of age 100 on the 100-sample mono clip is exhausted. -/
theorem C17_sample_exhaustion_is_death_witness :
    SampleAudioSample (SNote.mk 0 EWaveForm.e_sampleCymbals 100 false false 0) demoClip 10 =
      ({ SNote.mk 0 EWaveForm.e_sampleCymbals 100 false false 0 with m_dead := true }, 0) :=
  (C17_sample_exhaustion_is_death (SNote.mk 0 EWaveForm.e_sampleCymbals 100 false false 0)
    demoClip 10).1 (by decide)

theorem Envelope2Pt_intro_bounds (t : ℚ) :
    0 ≤ Envelope2Pt t 0 0 c_envelopeTime 1 ∧ Envelope2Pt t 0 0 c_envelopeTime 1 ≤ 1 := by
  unfold Envelope2Pt c_envelopeTime
  split_ifs with h1 h2
  · exact ⟨le_refl _, zero_le_one⟩
  · exact ⟨zero_le_one, le_refl _⟩
  · constructor <;> norm_num <;> linarith

theorem Envelope2Pt_release_bounds (x : ℚ) :
    0 ≤ Envelope2Pt x 0 1 c_envelopeTime 0 ∧ Envelope2Pt x 0 1 c_envelopeTime 0 ≤ 1 := by
  unfold Envelope2Pt c_envelopeTime
  split_ifs with h1 h2
  · exact ⟨zero_le_one, le_refl _⟩
  · exact ⟨le_refl _, zero_le_one⟩
  · constructor <;> norm_num <;> linarith

/-! ## Key events -/

theorem keyFrequency_not_control (E : Env) (g : Globals) (key : Int) (frequency : ℚ)
    (h : keyFrequency E key = some frequency) : controlKey g key = none := by
  have h48 : key ≠ 48 := by
    rintro rfl
    have hn : keyTable.lookup 48 = none := by decide
    simp [keyFrequency, hn] at h
  have h49 : key ≠ 49 := by
    rintro rfl
    have hn : keyTable.lookup 49 = none := by decide
    simp [keyFrequency, hn] at h
  have h50 : key ≠ 50 := by
    rintro rfl
    have hn : keyTable.lookup 50 = none := by decide
    simp [keyFrequency, hn] at h
  have h51 : key ≠ 51 := by
    rintro rfl
    have hn : keyTable.lookup 51 = none := by decide
    simp [keyFrequency, hn] at h
  have h52 : key ≠ 52 := by
    rintro rfl
    have hn : keyTable.lookup 52 = none := by decide
    simp [keyFrequency, hn] at h
  have h53 : key ≠ 53 := by
    rintro rfl
    have hn : keyTable.lookup 53 = none := by decide
    simp [keyFrequency, hn] at h
  have h54 : key ≠ 54 := by
    rintro rfl
    have hn : keyTable.lookup 54 = none := by decide
    simp [keyFrequency, hn] at h
  have h55 : key ≠ 55 := by
    rintro rfl
    have hn : keyTable.lookup 55 = none := by decide
    simp [keyFrequency, hn] at h
  have h56 : key ≠ 56 := by
    rintro rfl
    have hn : keyTable.lookup 56 = none := by decide
    simp [keyFrequency, hn] at h
  have h57 : key ≠ 57 := by
    rintro rfl
    have hn : keyTable.lookup 57 = none := by decide
    simp [keyFrequency, hn] at h
  simp only [controlKey, h48, h49, h50, h51, h52, h53, h54, h55, h56, h57, if_false]

/-- C19: a note-key press appends exactly one fresh note.  For every key of the note table, with
frequency `F`, `OnKey(key, true)` changes the globals only by appending to `g_notes` the note
`(F, g_currentWaveForm, m_age 0, m_dead false, m_wantsKeyRelease false, m_releaseAge 0)`;
pressing `'5'` or `'6'` appends in the same way a note of frequency 0 and waveform
`e_sampleCymbals` or `e_sampleVoice`; and `OnKey(key, false)` for a key of the note table is
`StopNote(F)`, which changes nothing but `m_wantsKeyRelease` of the notes of frequency `F`. -/
theorem C19_key_press_appends_one_note (E : Env) (g : Globals) (key : Int) (F : ℚ)
    (hkey : keyFrequency E key = some F) :
    OnKey E g key true =
      { g with g_notes := g.g_notes ++ [SNote.mk F g.g_currentWaveForm 0 false false 0] } ∧
    OnKey E g 53 true =
      { g with g_notes := g.g_notes ++ [SNote.mk 0 EWaveForm.e_sampleCymbals 0 false false 0] } ∧
    OnKey E g 54 true =
      { g with g_notes := g.g_notes ++ [SNote.mk 0 EWaveForm.e_sampleVoice 0 false false 0] } ∧
    OnKey E g key false =
      { g with g_notes := g.g_notes.map (fun note =>
          if note.m_frequency = F then { note with m_wantsKeyRelease := true } else note) } ∧
    (∃ octave note : Nat, (key, octave, note) ∈ keyTable ∧ F = E.NoteToFrequency octave note) := by
  have hc := keyFrequency_not_control E g key F hkey
  refine ⟨?_, ?_, ?_, ?_, ?_⟩
  · simp only [OnKey, if_true, hc, hkey, Bool.true_eq_false, if_false, SNote.new]
  · simp [OnKey, controlKey, SNote.new]
  · simp [OnKey, controlKey, SNote.new]
  · have hs : StopNote g F = { g with g_notes := g.g_notes.map (fun note =>
        if note.m_frequency = F then { note with m_wantsKeyRelease := true } else note) } := rfl
    simp only [OnKey, Bool.false_eq_true, if_false, hkey, if_true, hs]
  · simp only [keyFrequency, Option.map_eq_some'] at hkey
    obtain ⟨p, hp, hF⟩ := hkey
    obtain ⟨l1, l2, hl, _⟩ := List.lookup_eq_some_iff.mp hp
    exact ⟨p.1, p.2, by rw [hl]; simp, hF.symm⟩

/-- Witness of C19: the key `'Q'` (code 81) pressed with the saw selected. -/
theorem C19_key_press_appends_one_note_witness :
    OnKey demoEnv
      (Globals.mk [SNote.mk 550 EWaveForm.e_waveSine 9 false false 0] EWaveForm.e_waveSaw
        EEffect.e_small EEffect.e_none true false) 81 true =
      Globals.mk [SNote.mk 550 EWaveForm.e_waveSine 9 false false 0,
        SNote.mk 440 EWaveForm.e_waveSaw 0 false false 0] EWaveForm.e_waveSaw
        EEffect.e_small EEffect.e_none true false :=
  (C19_key_press_appends_one_note demoEnv
    (Globals.mk [SNote.mk 550 EWaveForm.e_waveSine 9 false false 0] EWaveForm.e_waveSaw
      EEffect.e_small EEffect.e_none true false) 81 440 (by decide!)).1


/-! ## The release latch -/

theorem GenerateEnvelope_latch (note : SNote) (t sr : ℚ) (hR : note.m_releaseAge = 0)
    (hW : note.m_wantsKeyRelease = true) (ht : t > 1 / 10) (hage : note.m_age ≠ 0)
    (hrel : t - (note.m_age : ℚ) / sr ≤ 0) :
    GenerateEnvelope note t sr = ({ note with m_releaseAge := note.m_age }, 1) := by
  have hc : note.m_wantsKeyRelease = true ∧ t > c_envelopeTime := ⟨hW, ht⟩
  have hnd : ¬ (t - (note.m_age : ℚ) / sr > c_envelopeTime) := by
    unfold c_envelopeTime
    linarith
  unfold GenerateEnvelope
  simp only [hR, hc, and_self, if_true, ne_eq, hage, not_false_eq_true, hnd, if_false]
  simp only [Envelope2Pt, hrel, if_true]

/-- C20 (counterexample): a held 440 Hz note of age 4999 whose release is wanted, rendered at
44100 Hz.  The call computes `ageInSeconds` from the age 4999 and latches `m_releaseAge = 5000`,
so the time in release at the latching sample is `-1/44100`, not 0. -/
theorem C20_latch_is_one_sample_ahead :
    (GenerateNoteSample demoEnv (SNote.mk 440 EWaveForm.e_waveSaw 4999 false true 0)
      44100).1.m_releaseAge = 5000 ∧
    (GenerateNoteSample demoEnv (SNote.mk 440 EWaveForm.e_waveSaw 4999 false true 0)
      44100).1.m_releaseAge ≠ 4999 ∧
    ((4999 : Nat) : ℚ) / 44100 -
      (((GenerateNoteSample demoEnv (SNote.mk 440 EWaveForm.e_waveSaw 4999 false true 0)
        44100).1.m_releaseAge : Nat) : ℚ) / 44100 = -(1 / 44100) ∧
    ((4999 : Nat) : ℚ) / 44100 -
      (((GenerateNoteSample demoEnv (SNote.mk 440 EWaveForm.e_waveSaw 4999 false true 0)
        44100).1.m_releaseAge : Nat) : ℚ) / 44100 ≠ 0 := by
  decide!

/-- C20 (amended): the release latch value.  When `GenerateNoteSample` renders a note with
`m_releaseAge = 0`, `m_wantsKeyRelease = true` and `ageInSeconds > 0.1` (absent wrap-around of
`size_t`), it sets `m_releaseAge` to the `m_age` that the call has already incremented, one more
than the age in samples from which `ageInSeconds` was computed.  The time in release at the
latching sample is `-1 / sampleRate`, negative, where `GenerateEnvelope` returns the clamped gain
1 and leaves `m_dead` as it was; the time in release is 0 at the age that the note has after the
call, so the release ramp is measured from the sample after the latching one. -/
theorem C20_release_latches_incremented_age (E : Env) (note : SNote) (sr : ℚ)
    (hR : note.m_releaseAge = 0) (hW : note.m_wantsKeyRelease = true)
    (ht : (note.m_age : ℚ) / sr > 1 / 10) (hwrap : note.m_age + 1 < SIZE_MOD) :
    (GenerateNoteSample E note sr).1.m_releaseAge = note.m_age + 1 ∧
    (GenerateNoteSample E note sr).1.m_releaseAge = (GenerateNoteSample E note sr).1.m_age ∧
    (note.m_age : ℚ) / sr - ((GenerateNoteSample E note sr).1.m_releaseAge : ℚ) / sr
      = -(1 / sr) ∧
    (note.m_age : ℚ) / sr - ((GenerateNoteSample E note sr).1.m_releaseAge : ℚ) / sr < 0 ∧
    GenerateEnvelope { note with m_age := size_add note.m_age 1 } ((note.m_age : ℚ) / sr) sr =
      ({ note with m_age := note.m_age + 1, m_releaseAge := note.m_age + 1 }, 1) ∧
    ((GenerateNoteSample E note sr).1.m_age : ℚ) / sr -
      ((GenerateNoteSample E note sr).1.m_releaseAge : ℚ) / sr = 0 := by
  have hadd := size_add_one_of_lt note.m_age hwrap
  have hsr : 0 < sr := by
    by_contra hneg
    have : (note.m_age : ℚ) / sr ≤ 0 :=
      div_nonpos_of_nonneg_of_nonpos (Nat.cast_nonneg _) (not_lt.mp hneg)
    linarith
  have hdiff : (note.m_age : ℚ) / sr - ((note.m_age + 1 : Nat) : ℚ) / sr = -(1 / sr) := by
    push_cast
    field_simp
  have hpos : 0 < 1 / sr := by positivity
  have hE : GenerateEnvelope { note with m_age := size_add note.m_age 1 }
      ((note.m_age : ℚ) / sr) sr =
      ({ note with m_age := note.m_age + 1, m_releaseAge := note.m_age + 1 }, 1) := by
    rw [hadd]
    rw [GenerateEnvelope_latch { note with m_age := note.m_age + 1 } _ sr hR hW ht
      (Nat.succ_ne_zero _) (by rw [hdiff]; linarith)]
  have hrel : (GenerateNoteSample E note sr).1.m_releaseAge = note.m_age + 1 := by
    rw [GenerateNoteSample_releaseAge, hE]
  have hage : (GenerateNoteSample E note sr).1.m_age = note.m_age + 1 := by
    rw [(GenerateNoteSample_fields E note sr).2.2.1, hadd]
  refine ⟨hrel, by rw [hrel, hage], by rw [hrel, hdiff], by rw [hrel, hdiff]; linarith,
    hE, by rw [hrel, hage, sub_self]⟩

/-- Witness of C20: the latching call of a held note of age 4999 at 44100 Hz. -/
theorem C20_release_latches_incremented_age_witness :
    (GenerateNoteSample demoEnv (SNote.mk 440 EWaveForm.e_waveSaw 4999 false true 0)
      44100).1.m_releaseAge = 4999 + 1 :=
  (C20_release_latches_incremented_age demoEnv (SNote.mk 440 EWaveForm.e_waveSaw 4999 false true 0)
    44100 rfl rfl (by norm_num) (by decide)).1


/-! ## The counting filter does not change the run -/

theorem setAllParams_erase {B : Type} (F : SBiQuadOps B) (stages : List (B × Nat))
    (type : EType) (frequency sr q gain : ℚ) :
    (setAllParams (countingOps F) stages type frequency sr q gain).map Prod.fst =
      setAllParams F (stages.map Prod.fst) type frequency sr q gain := by
  simp [setAllParams, countingOps, List.map_map, Function.comp_def]

theorem addSampleAll_erase {B : Type} (F : SBiQuadOps B) (stages : List (B × Nat))
    (value : ℚ) :
    (addSampleAll (countingOps F) stages value).1.map Prod.fst =
      (addSampleAll F (stages.map Prod.fst) value).1 ∧
    (addSampleAll (countingOps F) stages value).2 =
      (addSampleAll F (stages.map Prod.fst) value).2 := by
  induction stages generalizing value with
  | nil => exact ⟨rfl, rfl⟩
  | cons b rest ih =>
    simp only [addSampleAll, List.map_cons]
    have h1 : ((countingOps F).AddSample b value).2 = (F.AddSample b.1 value).2 := rfl
    have h2 : ((countingOps F).AddSample b value).1.1 = (F.AddSample b.1 value).1 := rfl
    rw [h1, h2]
    exact ⟨by rw [(ih _).1], (ih _).2⟩

theorem frameFilter_erase {B : Type} (F : SBiQuadOps B) (g : Globals)
    (lowPass highPass : List (B × Nat)) (master : B × Nat) (value0 : ℚ) :
    (frameFilter (countingOps F) g lowPass highPass master value0).1.1.map Prod.fst =
      (frameFilter F g (lowPass.map Prod.fst) (highPass.map Prod.fst) master.1 value0).1.1 ∧
    (frameFilter (countingOps F) g lowPass highPass master value0).1.2.1.map Prod.fst =
      (frameFilter F g (lowPass.map Prod.fst) (highPass.map Prod.fst) master.1 value0).1.2.1 ∧
    (frameFilter (countingOps F) g lowPass highPass master value0).1.2.2.1 =
      (frameFilter F g (lowPass.map Prod.fst) (highPass.map Prod.fst) master.1 value0).1.2.2 ∧
    (frameFilter (countingOps F) g lowPass highPass master value0).2 =
      (frameFilter F g (lowPass.map Prod.fst) (highPass.map Prod.fst) master.1 value0).2 := by
  simp only [frameFilter]
  have hm : ∀ v : ℚ, ((countingOps F).AddSample master v).2 = (F.AddSample master.1 v).2 :=
    fun _ => rfl
  have hm1 : ∀ v : ℚ, ((countingOps F).AddSample master v).1.1 = (F.AddSample master.1 v).1 :=
    fun _ => rfl
  by_cases h1 : g.g_lpf = EEffect.e_none <;> by_cases h2 : g.g_hpf = EEffect.e_none <;>
    by_cases h3 : g.g_masterOutLPFOn = true <;>
    simp [h1, h2, h3, addSampleAll_erase, hm, hm1]

theorem frameCore_erase {B : Type} (E : Env) (F : SBiQuadOps B) (g : Globals) (clock : Nat)
    (sr : ℚ) (sample : Nat) (notes : List SNote) (st : Statics (B × Nat)) :
    (frameCore E (countingOps F) g clock sr sample notes st).map
        (fun r => (r.1, eraseCounts r.2.1, r.2.2)) =
      frameCore E F g clock sr sample notes (eraseCounts st) := by
  have hl : (lfoLowPass E (countingOps F) g clock sr st.lowPassFilter).map Prod.fst =
      lfoLowPass E F g clock sr (st.lowPassFilter.map Prod.fst) := by
    simp only [lfoLowPass]
    split_ifs
    · exact setAllParams_erase F _ _ _ _ _ _
    · rfl
  have hh : (lfoHighPass E (countingOps F) g clock sr st.highPassFilter).map Prod.fst =
      lfoHighPass E F g clock sr (st.highPassFilter.map Prod.fst) := by
    simp only [lfoHighPass]
    split_ifs
    · exact setAllParams_erase F _ _ _ _ _ _
    · rfl
  simp only [frameCore]
  have hr : (eraseCounts st).rhythmStart = st.rhythmStart := rfl
  rw [hr]
  cases frameMix E g clock sr sample st.rhythmStart notes with
  | none => rfl
  | some v =>
    obtain ⟨f1, f2, f3, f4⟩ := frameFilter_erase F g
      (lfoLowPass E (countingOps F) g clock sr st.lowPassFilter)
      (lfoHighPass E (countingOps F) g clock sr st.highPassFilter) st.masterOutLPF v
    rw [hl, hh] at f1 f2 f3 f4
    simp only [Option.map_some', eraseCounts, f1, f2, f3, f4]

theorem frameValues_erase {B : Type} (E : Env) (F : SBiQuadOps B) (g : Globals) (clock : Nat)
    (sr : ℚ) (n sample : Nat) (notes : List SNote) (st : Statics (B × Nat)) :
    (frameValues E (countingOps F) g clock sr n sample notes st).map
        (fun r => (r.1, r.2.1, eraseCounts r.2.2)) =
      frameValues E F g clock sr n sample notes (eraseCounts st) := by
  induction n generalizing sample notes st with
  | zero => rfl
  | succ k ih =>
    simp only [frameValues]
    rw [← frameCore_erase]
    cases frameCore E (countingOps F) g clock sr sample notes st with
    | none => rfl
    | some c =>
      simp only [Option.map_some']
      rw [← ih]
      cases frameValues E (countingOps F) g clock sr k (sample + 1) c.1 c.2.1 <;> rfl

theorem refreshStatics_erase {B : Type} (F : SBiQuadOps B) (g : Globals) (clock : Nat)
    (sr : ℚ) (st : Statics (B × Nat)) :
    eraseCounts (refreshStatics (countingOps F) g clock sr st) =
      refreshStatics F g clock sr (eraseCounts st) := by
  have hm : eraseCounts (refreshMaster (countingOps F) sr st) =
      refreshMaster F sr (eraseCounts st) := by
    unfold refreshMaster
    by_cases h : st.masterOutLPFInited = false
    · have h2 : (eraseCounts st).masterOutLPFInited = false := h
      rw [if_pos h, if_pos h2]
      rfl
    · have h2 : ¬ (eraseCounts st).masterOutLPFInited = false := h
      rw [if_neg h, if_neg h2]
  have hl : ∀ s : Statics (B × Nat), eraseCounts (refreshLowPass (countingOps F) g sr s) =
      refreshLowPass F g sr (eraseCounts s) := by
    intro s
    unfold refreshLowPass
    by_cases h : g.g_lpf = s.lastLPF
    · have h2 : ¬ g.g_lpf ≠ (eraseCounts s).lastLPF := not_not.mpr h
      rw [if_neg (not_not.mpr h), if_neg h2]
    · have h2 : g.g_lpf ≠ (eraseCounts s).lastLPF := h
      rw [if_pos h, if_pos h2]
      cases g.g_lpf <;> simp [eraseCounts, setAllParams_erase]
  have hh : ∀ s : Statics (B × Nat), eraseCounts (refreshHighPass (countingOps F) g sr s) =
      refreshHighPass F g sr (eraseCounts s) := by
    intro s
    unfold refreshHighPass
    by_cases h : g.g_hpf = s.lastHPF
    · have h2 : ¬ g.g_hpf ≠ (eraseCounts s).lastHPF := not_not.mpr h
      rw [if_neg (not_not.mpr h), if_neg h2]
    · have h2 : g.g_hpf ≠ (eraseCounts s).lastHPF := h
      rw [if_pos h, if_pos h2]
      cases g.g_hpf <;> simp [eraseCounts, setAllParams_erase]
  have hr : ∀ s : Statics (B × Nat), eraseCounts (refreshRhythm g clock s) =
      refreshRhythm g clock (eraseCounts s) := by
    intro s
    unfold refreshRhythm
    by_cases h : s.rhythmWasOn = g.g_rhythmOn
    · have h2 : ¬ (eraseCounts s).rhythmWasOn ≠ g.g_rhythmOn := not_not.mpr h
      rw [if_neg (not_not.mpr h), if_neg h2]
    · have h2 : (eraseCounts s).rhythmWasOn ≠ g.g_rhythmOn := h
      rw [if_pos h, if_pos h2]
      rfl
  rw [refreshStatics_eq, refreshStatics_eq, hr, hh, hl, hm]

/-- Running `GenerateAudioSamples` with the counting filter changes nothing but the counts: the
notes, the buffer and the filter states are those of the run with the filter itself. -/
theorem GenerateAudioSamples_erase {B : Type} (E : Env) (F : SBiQuadOps B) (clock : Nat)
    (g : Globals) (st : Statics (B × Nat)) (buffer : List ℚ) (n numChannels : Nat) (sr : ℚ) :
    (GenerateAudioSamples E (countingOps F) clock g st buffer n numChannels sr).map
        (fun r => (r.g_notes, eraseCounts r.statics, r.outputBuffer)) =
      (GenerateAudioSamples E F clock g (eraseCounts st) buffer n numChannels sr).map
        (fun r => (r.g_notes, r.statics, r.outputBuffer)) := by
  rw [GenerateAudioSamples_eq, GenerateAudioSamples_eq, ← refreshStatics_erase,
    ← frameValues_erase]
  cases frameValues E (countingOps F) g clock sr n 0 g.g_notes
    (refreshStatics (countingOps F) g clock sr st) <;> rfl


/-! ## The recompute count -/

theorem refreshCalls_eq (last current : EEffect) :
    refreshCalls last current =
      if current ≠ last ∧ current ≠ EEffect.e_none ∧ current ≠ EEffect.e_LFO then 1 else 0 := by
  unfold refreshCalls
  cases current <;> cases last <;> decide

/-- C21 (counterexample): the counts of `SetEffectParams` calls on the four low-pass stages in
two renders of 3 frames at 44100 Hz.  After a change of the level from `e_none` to `e_LFO` every
stage was parameterized 3 times, where "1 per level change plus frameCount" gives 4; after a
change from `e_small` to `e_none` no stage was parameterized, where it gives 1. -/
theorem C21_level_change_without_recompute :
    (GenerateAudioSamples demoEnv (countingOps demoBiQuad) 0
      (Globals.mk [] EWaveForm.e_waveSaw EEffect.e_LFO EEffect.e_none false false)
      (Statics.init (0, 0)) [0, 0, 0] 3 1 44100).map
        (fun r => r.statics.lowPassFilter.map Prod.snd) = some [3, 3, 3, 3] ∧
    claimedRecomputes EEffect.e_none EEffect.e_LFO 3 = 4 ∧
    (GenerateAudioSamples demoEnv (countingOps demoBiQuad) 0
      (Globals.mk [] EWaveForm.e_waveSaw EEffect.e_none EEffect.e_none false false)
      { Statics.init (0, 0) with lastLPF := EEffect.e_small } [0, 0, 0] 3 1 44100).map
        (fun r => r.statics.lowPassFilter.map Prod.snd) = some [0, 0, 0, 0] ∧
    claimedRecomputes EEffect.e_small EEffect.e_none 3 = 1 := by
  decide!

/-- C21 (amended): the recompute count.  Run with the filter that counts the `SetEffectParams`
calls, a buffer render of `n` frames (that returns: the rhythm generator does not divide by zero)
raises the count of every stage of a channel by the same number: 1 if the selected level differs
from the last applied level and is `e_small`, `e_medium` or `e_large`, and 0 otherwise, plus `n`
if the selected level is `e_LFO` and 0 otherwise.  A change to `e_none` or to `e_LFO` adds nothing
by itself; for every other pair of levels this is "1 per level change plus frameCount × isLFO". -/
theorem C21_recompute_count {B : Type} (E : Env) (F : SBiQuadOps B) (clock : Nat)
    (g : Globals) (st : Statics (B × Nat)) (buffer : List ℚ) (n numChannels : Nat) (sr : ℚ)
    (hrhythm : g.g_rhythmOn = true → size_of_float sr / 8 ≠ 0) :
    ∃ r, GenerateAudioSamples E (countingOps F) clock g st buffer n numChannels sr = some r ∧
      r.statics.lowPassFilter.map Prod.snd =
        (st.lowPassFilter.map Prod.snd).map (fun c =>
          c + ((if g.g_lpf ≠ st.lastLPF ∧ g.g_lpf ≠ EEffect.e_none ∧ g.g_lpf ≠ EEffect.e_LFO
              then 1 else 0) +
            (if g.g_lpf = EEffect.e_LFO then n else 0))) ∧
      r.statics.highPassFilter.map Prod.snd =
        (st.highPassFilter.map Prod.snd).map (fun c =>
          c + ((if g.g_hpf ≠ st.lastHPF ∧ g.g_hpf ≠ EEffect.e_none ∧ g.g_hpf ≠ EEffect.e_LFO
              then 1 else 0) +
            (if g.g_hpf = EEffect.e_LFO then n else 0))) ∧
      r.statics.lowPassFilter.length = st.lowPassFilter.length ∧
      r.statics.highPassFilter.length = st.highPassFilter.length ∧
      r.statics.lastLPF = g.g_lpf ∧ r.statics.lastHPF = g.g_hpf ∧
      (∀ last current : EEffect,
        (current = last ∨ (current ≠ EEffect.e_none ∧ current ≠ EEffect.e_LFO)) →
        (if current ≠ last ∧ current ≠ EEffect.e_none ∧ current ≠ EEffect.e_LFO then 1 else 0) +
            (if current = EEffect.e_LFO then n else 0) =
          claimedRecomputes last current n) := by
  obtain ⟨r, hr, hl, hh, _, _, hll, hlh⟩ :=
    GenerateAudioSamples_counts E F clock g st buffer n numChannels sr hrhythm
  have hlen1 := congrArg List.length hl
  have hlen2 := congrArg List.length hh
  simp only [List.length_map] at hlen1 hlen2
  refine ⟨r, hr, ?_, ?_, hlen1, hlen2, hll, hlh, ?_⟩
  · rw [hl, refreshCalls_eq]
    apply List.map_congr_left
    intro c _
    by_cases h : g.g_lpf = EEffect.e_LFO <;> simp [h]
  · rw [hh, refreshCalls_eq]
    apply List.map_congr_left
    intro c _
    by_cases h : g.g_hpf = EEffect.e_LFO <;> simp [h]
  · intro last current h
    unfold claimedRecomputes
    rcases h with h | ⟨h1, h2⟩
    · subst h
      simp
    · simp [h1, h2]

/-- Witness of C21: a render of 3 frames in which the low-pass level changes from `e_none` to
`e_medium` and the high-pass level from `e_none` to `e_LFO`, with the rhythm on at 44100 Hz. -/
theorem C21_recompute_count_witness :
    ∃ r, GenerateAudioSamples demoEnv (countingOps demoBiQuad) 0
        (Globals.mk [] EWaveForm.e_waveSaw EEffect.e_medium EEffect.e_LFO true false)
        (Statics.init (0, 0)) [0, 0, 0] 3 1 44100 = some r ∧
      r.statics.lowPassFilter.map Prod.snd = [1, 1, 1, 1] ∧
      r.statics.highPassFilter.map Prod.snd = [3, 3, 3, 3] :=
  let ⟨r, h0, h1, h2, _⟩ := C21_recompute_count demoEnv demoBiQuad 0
    (Globals.mk [] EWaveForm.e_waveSaw EEffect.e_medium EEffect.e_LFO true false)
    (Statics.init (0, 0)) [0, 0, 0] 3 1 44100 (by decide)
  ⟨r, h0, h1, h2⟩


/-! ## The beat size -/

theorem size_of_float_of_range (sr : ℚ) (hmin : 0 ≤ sr) (hmax : sr < (SIZE_MOD : ℚ)) :
    size_of_float sr = sr.floor.toNat ∧ ((8 : ℤ) ≤ sr.floor ↔ 8 ≤ sr) := by
  have hfl : sr.floor = ⌊sr⌋ := rfl
  have hiff : (8 : ℤ) ≤ sr.floor ↔ 8 ≤ sr := by
    rw [hfl, Int.le_floor]
    norm_num
  refine ⟨?_, hiff⟩
  unfold size_of_float
  rw [if_pos hmin, hfl]
  have h0 : 0 ≤ ⌊sr⌋ := Int.floor_nonneg.mpr hmin
  have h1 : ⌊sr⌋ < (SIZE_MOD : ℤ) := by
    rw [Int.floor_lt]
    exact_mod_cast hmax
  rw [Int.emod_eq_of_lt h0 h1]

theorem beatSizeOf_pos_iff (sr : ℚ) (hmin : 0 ≤ sr) (hmax : sr < (SIZE_MOD : ℚ)) :
    1 ≤ beatSizeOf sr ↔ 8 ≤ sr := by
  obtain ⟨h1, h2⟩ := size_of_float_of_range sr hmin hmax
  unfold beatSizeOf
  rw [h1, ← h2]
  omega

theorem rhythmFrequency_mem (E : Env) (b : Nat) :
    rhythmFrequency E b ∈ phraseA E ++ phraseB E := by
  have hm : b % 4 < 4 := Nat.mod_lt b (by norm_num)
  rw [rhythmFrequency_phrase]
  simp only [phraseA, phraseB]
  generalize b % 4 = m at hm ⊢
  interval_cases m <;> split_ifs <;> simp

/-- C22: the division and the modulo by `beatSize = floor(sampleRate) / 8` in `GenerateRhythm`
are well defined exactly when `sampleRate ≥ 8`.  For every sample rate in the range in which the
conversion `size_t(sampleRate)` is defined (`0 ≤ sampleRate < 2^64`), `beatSize` is
`floor(sampleRate) / 8`; for `sampleRate ≥ 8`, `beatSize ≥ 1`, the beat offset of every sample
index is below `beatSize`, the reduced beat index is below 32, the frequency is one of the eight
notes of the two phrases, and `GenerateRhythm` returns; for `0 ≤ sampleRate < 8`, `beatSize = 0`
and `GenerateRhythm` divides by zero; so `GenerateRhythm` returns exactly when
`sampleRate ≥ 8`. -/
theorem C22_beat_size_well_defined (E : Env) (g : Globals) (i : Nat) (sr : ℚ)
    (hmin : 0 ≤ sr) (hmax : sr < (SIZE_MOD : ℚ)) :
    beatSizeOf sr = sr.floor.toNat / 8 ∧
    (8 ≤ sr →
      1 ≤ beatSizeOf sr ∧ i % beatSizeOf sr < beatSizeOf sr ∧
      (i / beatSizeOf sr) % 32 < 32 ∧
      rhythmFrequency E ((i / beatSizeOf sr) % 32) ∈ phraseA E ++ phraseB E ∧
      (GenerateRhythm E g i sr).isSome = true) ∧
    (sr < 8 → beatSizeOf sr = 0 ∧ GenerateRhythm E g i sr = none) ∧
    ((GenerateRhythm E g i sr).isSome = true ↔ 8 ≤ sr) := by
  have hpos := beatSizeOf_pos_iff sr hmin hmax
  have hfloor : beatSizeOf sr = sr.floor.toNat / 8 := by
    unfold beatSizeOf
    rw [(size_of_float_of_range sr hmin hmax).1]
  refine ⟨hfloor, ?_, ?_, ?_⟩
  · intro h8
    have hb : 1 ≤ beatSizeOf sr := hpos.mpr h8
    refine ⟨hb, Nat.mod_lt _ hb, Nat.mod_lt _ (by norm_num), rhythmFrequency_mem E _, ?_⟩
    rw [GenerateRhythm_eq, if_neg (by omega)]
    rfl
  · intro h8
    have hb : beatSizeOf sr = 0 := by
      by_contra hne
      have : 1 ≤ beatSizeOf sr := Nat.one_le_iff_ne_zero.mpr hne
      exact absurd (hpos.mp this) (not_le.mpr h8)
    exact ⟨hb, by rw [GenerateRhythm_eq, if_pos hb]⟩
  · rw [GenerateRhythm_eq]
    by_cases hb : beatSizeOf sr = 0
    · rw [if_pos hb]
      constructor
      · intro h; exact absurd h (by simp)
      · intro h8
        have := hpos.mpr h8
        omega
    · rw [if_neg hb]
      constructor
      · intro _
        exact hpos.mp (Nat.one_le_iff_ne_zero.mpr hb)
      · intro _; rfl

/-- Witness of C22: sample index 100000 at 44100 Hz, where the beat size is 5512 and the rhythm
generator returns, and at 7.5 Hz, where the beat size is 0 and it divides by zero. -/
theorem C22_beat_size_well_defined_witness :
    (beatSizeOf 44100 = 5512 ∧ 100000 % beatSizeOf 44100 < beatSizeOf 44100 ∧
      (GenerateRhythm demoEnv
        (Globals.mk [] EWaveForm.e_waveSaw EEffect.e_none EEffect.e_none true false) 100000
        44100).isSome = true) ∧
    (beatSizeOf (15 / 2) = 0 ∧
      GenerateRhythm demoEnv
        (Globals.mk [] EWaveForm.e_waveSaw EEffect.e_none EEffect.e_none true false) 100000
        (15 / 2) = none) :=
  have hA := (C22_beat_size_well_defined demoEnv
    (Globals.mk [] EWaveForm.e_waveSaw EEffect.e_none EEffect.e_none true false) 100000 44100
    (by norm_num) (by norm_num [SIZE_MOD])).2.1 (by norm_num)
  have hB := (C22_beat_size_well_defined demoEnv
    (Globals.mk [] EWaveForm.e_waveSaw EEffect.e_none EEffect.e_none true false) 100000 (15 / 2)
    (by norm_num) (by norm_num [SIZE_MOD])).2.2.1 (by norm_num)
  ⟨⟨by decide!, hA.2.1, hA.2.2.2.2⟩, hB⟩


/-! ## Rounding to binary32 -/

theorem forceNat_eq {α : Type} (n : Nat) (k : Nat → α) : forceNat n k = k n := by
  cases n <;> rfl

theorem forceInt_eq {α : Type} (z : Int) (k : Int → α) : forceInt z k = k z := by
  cases z <;> simp [forceInt, forceNat_eq]

theorem forceRat_eq {α : Type} (x : ℚ) (k : ℚ → α) : forceRat x k = k x := by
  simp [forceRat, forceInt_eq, forceNat_eq, Rat.mkRat_self]

theorem log2Fuel_spec (fuel : Nat) : ∀ n : Nat, 0 < n → n ≤ fuel →
    2 ^ log2Fuel fuel n ≤ n ∧ n < 2 ^ (log2Fuel fuel n + 1) := by
  induction fuel with
  | zero => intro n h0 h; omega
  | succ fuel ih =>
    intro n h0 h
    unfold log2Fuel
    split_ifs with h2
    · have hn : 0 < n / 2 := Nat.div_pos h2 (by norm_num)
      have hle : n / 2 ≤ fuel := by omega
      obtain ⟨h3, h4⟩ := ih (n / 2) hn hle
      constructor
      · rw [pow_succ]
        omega
      · rw [pow_succ]
        omega
    · constructor
      · simpa using h0
      · simp; omega

theorem ilog2_spec (n : Nat) (h : 0 < n) : 2 ^ ilog2 n ≤ n ∧ n < 2 ^ (ilog2 n + 1) :=
  log2Fuel_spec n n h le_rfl

theorem binadeNat_spec (a q : Nat) (ha : 0 < a) (hq : 0 < q) :
    (2 : ℚ) ^ (binadeNat a q) * q ≤ a ∧ (a : ℚ) < (2 : ℚ) ^ (binadeNat a q + 1) * q := by
  obtain ⟨ha1, ha2⟩ := ilog2_spec a ha
  obtain ⟨hq1, hq2⟩ := ilog2_spec q hq
  have hqpos : (0 : ℚ) < q := by exact_mod_cast hq
  have two_pos : (0 : ℚ) < 2 := by norm_num
  have two_ne : (2 : ℚ) ≠ 0 := by norm_num
  have ha1' : (2 : ℚ) ^ (ilog2 a : ℤ) ≤ a := by
    rw [zpow_natCast]; exact_mod_cast ha1
  have ha2' : (a : ℚ) < (2 : ℚ) ^ ((ilog2 a : ℤ) + 1) := by
    rw [zpow_add_one₀ two_ne, zpow_natCast, ← pow_succ]; exact_mod_cast ha2
  have hq1' : (2 : ℚ) ^ (ilog2 q : ℤ) ≤ q := by
    rw [zpow_natCast]; exact_mod_cast hq1
  have hq2' : (q : ℚ) < (2 : ℚ) ^ ((ilog2 q : ℤ) + 1) := by
    rw [zpow_add_one₀ two_ne, zpow_natCast, ← pow_succ]; exact_mod_cast hq2
  have hcond : (if ilog2 q ≤ ilog2 a then 2 ^ (ilog2 a - ilog2 q) * q ≤ a
      else q ≤ a * 2 ^ (ilog2 q - ilog2 a)) ↔
      (2 : ℚ) ^ ((ilog2 a : ℤ) - ilog2 q) * q ≤ a := by
    split_ifs with h
    · have he : ((ilog2 a : ℤ) - ilog2 q) = ((ilog2 a - ilog2 q : ℕ) : ℤ) := by omega
      rw [he, zpow_natCast]
      exact_mod_cast Iff.rfl
    · have he : ((ilog2 a : ℤ) - ilog2 q) = -((ilog2 q - ilog2 a : ℕ) : ℤ) := by omega
      rw [he, zpow_neg, zpow_natCast]
      have hp : (0 : ℚ) < 2 ^ (ilog2 q - ilog2 a) := by positivity
      rw [inv_mul_le_iff₀ hp]
      constructor
      · intro h1
        have : ((q : ℕ) : ℚ) ≤ ((a * 2 ^ (ilog2 q - ilog2 a) : ℕ) : ℚ) := by exact_mod_cast h1
        push_cast at this
        linarith
      · intro h1
        have : ((q : ℕ) : ℚ) ≤ ((a * 2 ^ (ilog2 q - ilog2 a) : ℕ) : ℚ) := by
          push_cast
          linarith
        exact_mod_cast this
  unfold binadeNat
  by_cases hc : (if ilog2 q ≤ ilog2 a then 2 ^ (ilog2 a - ilog2 q) * q ≤ a
      else q ≤ a * 2 ^ (ilog2 q - ilog2 a))
  · rw [if_pos hc]
    refine ⟨hcond.mp hc, ?_⟩
    have h1 : (2 : ℚ) ^ ((ilog2 a : ℤ) - ilog2 q + 1) * 2 ^ (ilog2 q : ℤ) =
        2 ^ ((ilog2 a : ℤ) + 1) := by
      rw [← zpow_add₀ two_ne]; congr 1; ring
    have h2 : (2 : ℚ) ^ ((ilog2 a : ℤ) - ilog2 q + 1) * 2 ^ (ilog2 q : ℤ) ≤
        2 ^ ((ilog2 a : ℤ) - ilog2 q + 1) * q :=
      mul_le_mul_of_nonneg_left hq1' (by positivity)
    linarith
  · rw [if_neg hc]
    have hc' : ¬ (2 : ℚ) ^ ((ilog2 a : ℤ) - ilog2 q) * q ≤ a := fun h => hc (hcond.mpr h)
    constructor
    · have h1 : (2 : ℚ) ^ ((ilog2 a : ℤ) - ilog2 q - 1) * 2 ^ ((ilog2 q : ℤ) + 1) =
          2 ^ (ilog2 a : ℤ) := by
        rw [← zpow_add₀ two_ne]; congr 1; ring
      have h2 : (2 : ℚ) ^ ((ilog2 a : ℤ) - ilog2 q - 1) * q ≤
          2 ^ ((ilog2 a : ℤ) - ilog2 q - 1) * 2 ^ ((ilog2 q : ℤ) + 1) :=
        mul_le_mul_of_nonneg_left hq2'.le (by positivity)
      linarith
    · have he : (ilog2 a : ℤ) - ilog2 q - 1 + 1 = (ilog2 a : ℤ) - ilog2 q := by ring
      rw [he]
      exact not_le.mp hc'

/-- Uniqueness of the binary exponent. -/
theorem zpow_binade_le (v : ℚ) (e f : ℤ) (h1 : (2 : ℚ) ^ e ≤ v) (h2 : v < (2 : ℚ) ^ (f + 1)) :
    e ≤ f := by
  by_contra h
  have hfe : f + 1 ≤ e := by omega
  have : (2 : ℚ) ^ (f + 1) ≤ 2 ^ e := zpow_le_zpow_right₀ (by norm_num) hfe
  linarith

theorem roundHalfEven_bounds (x : ℚ) : ⌊x⌋ ≤ roundHalfEven x ∧ roundHalfEven x ≤ ⌊x⌋ + 1 := by
  have hfl : x.floor = ⌊x⌋ := rfl
  unfold roundHalfEven
  rw [hfl]
  split_ifs <;> constructor <;> omega

theorem roundHalfEven_intCast (n : ℤ) : roundHalfEven (n : ℚ) = n := by
  have hfl : (n : ℚ).floor = ⌊(n : ℚ)⌋ := rfl
  unfold roundHalfEven
  rw [hfl, Int.floor_intCast]
  simp

theorem roundHalfEven_mono (x y : ℚ) (h : x ≤ y) : roundHalfEven x ≤ roundHalfEven y := by
  have hx := roundHalfEven_bounds x
  have hy := roundHalfEven_bounds y
  have hfloor : ⌊x⌋ ≤ ⌊y⌋ := Int.floor_le_floor h
  rcases lt_or_eq_of_le hfloor with hlt | heq
  · omega
  · have hflx : x.floor = ⌊x⌋ := rfl
    have hfly : y.floor = ⌊y⌋ := rfl
    have hfrac : x - ⌊x⌋ ≤ y - ⌊y⌋ := by rw [heq]; linarith
    unfold roundHalfEven
    rw [hflx, hfly, ← heq]
    rw [← heq] at hfrac
    by_cases h1 : x - ⌊x⌋ < 1 / 2
    · rw [if_pos h1]
      split_ifs <;> omega
    · rw [if_neg h1]
      have h1y : ¬ y - ⌊x⌋ < 1 / 2 := by
        intro hh
        exact h1 (lt_of_le_of_lt hfrac hh)
      rw [if_neg h1y]
      by_cases h2 : 1 / 2 < x - ⌊x⌋
      · have h2y : 1 / 2 < y - ⌊x⌋ := lt_of_lt_of_le h2 hfrac
        rw [if_pos h2, if_pos h2y]
      · rw [if_neg h2]
        split_ifs <;> omega

theorem rneDiv_eq (N D : Nat) (hD : 0 < D) :
    ((rneDiv N D : Nat) : ℤ) = roundHalfEven ((N : ℚ) / D) := by
  have hDq : (0 : ℚ) < D := by exact_mod_cast hD
  have hfl : ((N : ℚ) / D).floor = ((N / D : Nat) : ℤ) := by
    have h := Rat.floor_intCast_div_natCast (N : ℤ) D
    have hfl0 : ((N : ℚ) / D).floor = ⌊(N : ℚ) / D⌋ := rfl
    rw [hfl0]
    simpa using h
  have hdm : (N : ℚ) = (D : ℚ) * ((N / D : Nat) : ℚ) + ((N % D : Nat) : ℚ) := by
    have := Nat.div_add_mod N D
    exact_mod_cast this.symm
  have hfrac : (N : ℚ) / D - (((N / D : Nat) : ℤ) : ℚ) = ((N % D : Nat) : ℚ) / D := by
    rw [Int.cast_natCast, div_sub' _ _ _ hDq.ne', div_left_inj' hDq.ne']
    linarith
  have hlt : (((N % D : Nat) : ℚ) / D < 1 / 2) ↔ 2 * (N % D) < D := by
    rw [div_lt_iff₀ hDq]
    constructor
    · intro h
      have : (2 : ℚ) * ((N % D : Nat) : ℚ) < D := by linarith
      exact_mod_cast this
    · intro h
      have : (2 : ℚ) * ((N % D : Nat) : ℚ) < D := by exact_mod_cast h
      linarith
  have hgt : ((1 : ℚ) / 2 < ((N % D : Nat) : ℚ) / D) ↔ D < 2 * (N % D) := by
    rw [lt_div_iff₀ hDq]
    constructor
    · intro h
      have : (D : ℚ) < (2 : ℚ) * ((N % D : Nat) : ℚ) := by linarith
      exact_mod_cast this
    · intro h
      have : (D : ℚ) < (2 : ℚ) * ((N % D : Nat) : ℚ) := by exact_mod_cast h
      linarith
  unfold roundHalfEven rneDiv
  rw [hfl, hfrac]
  by_cases h1 : 2 * (N % D) < D
  · rw [if_pos h1, if_pos (hlt.mpr h1)]
  · rw [if_neg h1, if_neg (fun h => h1 (hlt.mp h))]
    by_cases h2 : D < 2 * (N % D)
    · rw [if_pos h2, if_pos (hgt.mpr h2)]
      push_cast; ring
    · rw [if_neg h2, if_neg (fun h => h2 (hgt.mp h))]
      by_cases h3 : (N / D) % 2 = 0
      · have h3' : ((N / D : Nat) : ℤ) % 2 = 0 := by omega
        rw [if_pos h3, if_pos h3']
      · have h3' : ¬ ((N / D : Nat) : ℤ) % 2 = 0 := by omega
        rw [if_neg h3, if_neg h3']
        push_cast; ring

theorem round32Pos_eq (a q : Nat) (hq : 0 < q) :
    round32Pos a q =
      (roundHalfEven (((a : ℚ) / q) / (2 : ℚ) ^ (ulpExp a q)) : ℚ) * (2 : ℚ) ^ (ulpExp a q) := by
  have hqq : (0 : ℚ) < q := by exact_mod_cast hq
  have two_ne : (2 : ℚ) ≠ 0 := by norm_num
  unfold round32Pos
  by_cases hk : 0 ≤ ulpExp a q
  · rw [if_pos hk]
    have hkn : (((ulpExp a q).toNat : ℕ) : ℤ) = ulpExp a q := Int.toNat_of_nonneg hk
    have hD : 0 < q * 2 ^ (ulpExp a q).toNat := Nat.mul_pos hq (by positivity)
    have hr := rneDiv_eq a (q * 2 ^ (ulpExp a q).toNat) hD
    have hpow : (2 : ℚ) ^ (ulpExp a q) = (2 : ℚ) ^ (ulpExp a q).toNat := by
      rw [← zpow_natCast, hkn]
    have harg : (a : ℚ) / ((q * 2 ^ (ulpExp a q).toNat : ℕ) : ℚ) =
        (a : ℚ) / q / (2 : ℚ) ^ (ulpExp a q) := by
      rw [hpow]; push_cast; rw [div_div]
    rw [harg] at hr
    rw [← hr, hpow]
    push_cast
    ring
  · rw [if_neg hk]
    have hk' : (0 : ℤ) ≤ -ulpExp a q := by omega
    have hkn : (((-ulpExp a q).toNat : ℕ) : ℤ) = -ulpExp a q := Int.toNat_of_nonneg hk'
    have hr := rneDiv_eq (a * 2 ^ (-ulpExp a q).toNat) q hq
    have hpow : (2 : ℚ) ^ (ulpExp a q) = ((2 : ℚ) ^ (-ulpExp a q).toNat)⁻¹ := by
      rw [← zpow_natCast, hkn, zpow_neg, inv_inv]
    have harg : ((a * 2 ^ (-ulpExp a q).toNat : ℕ) : ℚ) / q =
        (a : ℚ) / q / (2 : ℚ) ^ (ulpExp a q) := by
      rw [hpow]; push_cast; field_simp
    rw [harg] at hr
    rw [Rat.mkRat_eq_div, ← hr, hpow]
    push_cast
    rw [div_eq_mul_inv]

theorem round32Pos_nonneg (a q : Nat) (hq : 0 < q) : 0 ≤ round32Pos a q := by
  rw [round32Pos_eq a q hq]
  have hnn : (0 : ℚ) ≤ (a : ℚ) / q / (2 : ℚ) ^ (ulpExp a q) := by positivity
  have h1 : (0 : ℤ) ≤ roundHalfEven ((a : ℚ) / q / (2 : ℚ) ^ (ulpExp a q)) :=
    le_trans (Int.floor_nonneg.mpr hnn) (roundHalfEven_bounds _).1
  have h2 : (0 : ℚ) ≤ (roundHalfEven ((a : ℚ) / q / (2 : ℚ) ^ (ulpExp a q)) : ℚ) := by
    exact_mod_cast h1
  positivity

theorem round32Pos_mono (a1 q1 a2 q2 : Nat) (ha1 : 0 < a1) (hq1 : 0 < q1) (ha2 : 0 < a2)
    (hq2 : 0 < q2) (h : (a1 : ℚ) / q1 ≤ (a2 : ℚ) / q2) :
    round32Pos a1 q1 ≤ round32Pos a2 q2 := by
  have two_ne : (2 : ℚ) ≠ 0 := by norm_num
  have hq1q : (0 : ℚ) < q1 := by exact_mod_cast hq1
  have hq2q : (0 : ℚ) < q2 := by exact_mod_cast hq2
  obtain ⟨hs1, hs2⟩ := binadeNat_spec a1 q1 ha1 hq1
  obtain ⟨ht1, ht2⟩ := binadeNat_spec a2 q2 ha2 hq2
  have hv1 : (2 : ℚ) ^ (binadeNat a1 q1) ≤ (a1 : ℚ) / q1 := by
    rw [le_div_iff₀ hq1q]; exact hs1
  have hv2 : (a1 : ℚ) / q1 < (2 : ℚ) ^ (binadeNat a1 q1 + 1) := by
    rw [div_lt_iff₀ hq1q]; exact hs2
  have hw1 : (2 : ℚ) ^ (binadeNat a2 q2) ≤ (a2 : ℚ) / q2 := by
    rw [le_div_iff₀ hq2q]; exact ht1
  have hw2 : (a2 : ℚ) / q2 < (2 : ℚ) ^ (binadeNat a2 q2 + 1) := by
    rw [div_lt_iff₀ hq2q]; exact ht2
  have he : binadeNat a1 q1 ≤ binadeNat a2 q2 :=
    zpow_binade_le _ _ _ hv1 (lt_of_le_of_lt h hw2)
  rw [round32Pos_eq a1 q1 hq1, round32Pos_eq a2 q2 hq2]
  generalize hv : (a1 : ℚ) / q1 = v at *
  generalize hw : (a2 : ℚ) / q2 = w at *
  unfold ulpExp
  generalize he1 : binadeNat a1 q1 = e1 at *
  generalize he2 : binadeNat a2 q2 = e2 at *
  rcases lt_or_eq_of_le (max_le_max_right (-126) he) with hlt | heq
  · -- different binades
    have hE2 : max e2 (-126) = e2 := by
      rcases le_total e2 (-126) with h2 | h2
      · rw [max_eq_right h2] at hlt
        have := le_max_right e1 (-126)
        omega
      · exact max_eq_left h2
    have hup : ((roundHalfEven (v / (2 : ℚ) ^ (max e1 (-126) - 23)) : ℤ) : ℚ) *
        (2 : ℚ) ^ (max e1 (-126) - 23) ≤ (2 : ℚ) ^ (max e1 (-126) + 1) := by
      have hvlt : v < (2 : ℚ) ^ (max e1 (-126) + 1) :=
        lt_of_lt_of_le hv2 (zpow_le_zpow_right₀ (by norm_num) (by
          have := le_max_left e1 (-126); omega))
      have hpos : (0 : ℚ) < (2 : ℚ) ^ (max e1 (-126) - 23) := by positivity
      have hdiv : v / (2 : ℚ) ^ (max e1 (-126) - 23) ≤ ((2 ^ 24 : ℤ) : ℚ) := by
        rw [div_le_iff₀ hpos]
        have : ((2 ^ 24 : ℤ) : ℚ) * (2 : ℚ) ^ (max e1 (-126) - 23) =
            (2 : ℚ) ^ (max e1 (-126) + 1) := by
          have h24 : ((2 ^ 24 : ℤ) : ℚ) = (2 : ℚ) ^ (24 : ℤ) := by norm_num
          rw [h24, ← zpow_add₀ two_ne]; congr 1; ring
        rw [this]; exact hvlt.le
      have hr := roundHalfEven_mono _ _ hdiv
      rw [roundHalfEven_intCast] at hr
      have hrq : ((roundHalfEven (v / (2 : ℚ) ^ (max e1 (-126) - 23)) : ℤ) : ℚ) ≤
          ((2 ^ 24 : ℤ) : ℚ) := by exact_mod_cast hr
      have h24 : ((2 ^ 24 : ℤ) : ℚ) = (2 : ℚ) ^ (24 : ℤ) := by norm_num
      calc ((roundHalfEven (v / (2 : ℚ) ^ (max e1 (-126) - 23)) : ℤ) : ℚ) *
            (2 : ℚ) ^ (max e1 (-126) - 23)
          ≤ ((2 ^ 24 : ℤ) : ℚ) * (2 : ℚ) ^ (max e1 (-126) - 23) :=
            mul_le_mul_of_nonneg_right hrq hpos.le
        _ = (2 : ℚ) ^ (max e1 (-126) + 1) := by
            rw [h24, ← zpow_add₀ two_ne]; congr 1; ring
    have hlow : (2 : ℚ) ^ (max e2 (-126)) ≤
        ((roundHalfEven (w / (2 : ℚ) ^ (max e2 (-126) - 23)) : ℤ) : ℚ) *
          (2 : ℚ) ^ (max e2 (-126) - 23) := by
      rw [hE2]
      have hpos : (0 : ℚ) < (2 : ℚ) ^ (e2 - 23) := by positivity
      have hdiv : ((2 ^ 23 : ℤ) : ℚ) ≤ w / (2 : ℚ) ^ (e2 - 23) := by
        rw [le_div_iff₀ hpos]
        have : ((2 ^ 23 : ℤ) : ℚ) * (2 : ℚ) ^ (e2 - 23) = (2 : ℚ) ^ e2 := by
          have h23 : ((2 ^ 23 : ℤ) : ℚ) = (2 : ℚ) ^ (23 : ℤ) := by norm_num
          rw [h23, ← zpow_add₀ two_ne]; congr 1; ring
        rw [this]; exact hw1
      have hr := roundHalfEven_mono _ _ hdiv
      rw [roundHalfEven_intCast] at hr
      have hrq : ((2 ^ 23 : ℤ) : ℚ) ≤
          ((roundHalfEven (w / (2 : ℚ) ^ (e2 - 23)) : ℤ) : ℚ) := by exact_mod_cast hr
      have h23 : ((2 ^ 23 : ℤ) : ℚ) = (2 : ℚ) ^ (23 : ℤ) := by norm_num
      calc (2 : ℚ) ^ e2 = ((2 ^ 23 : ℤ) : ℚ) * (2 : ℚ) ^ (e2 - 23) := by
            rw [h23, ← zpow_add₀ two_ne]; congr 1; ring
        _ ≤ _ := mul_le_mul_of_nonneg_right hrq hpos.le
    have hmid : (2 : ℚ) ^ (max e1 (-126) + 1) ≤ (2 : ℚ) ^ (max e2 (-126)) :=
      zpow_le_zpow_right₀ (by norm_num) (by omega)
    exact le_trans hup (le_trans hmid hlow)
  · -- the same binade
    rw [heq]
    have hpos : (0 : ℚ) < (2 : ℚ) ^ (max e2 (-126) - 23) := by positivity
    have hdiv : v / (2 : ℚ) ^ (max e2 (-126) - 23) ≤ w / (2 : ℚ) ^ (max e2 (-126) - 23) :=
      div_le_div_of_nonneg_right h hpos.le
    have hr := roundHalfEven_mono _ _ hdiv
    have hrq : ((roundHalfEven (v / (2 : ℚ) ^ (max e2 (-126) - 23)) : ℤ) : ℚ) ≤
        ((roundHalfEven (w / (2 : ℚ) ^ (max e2 (-126) - 23)) : ℤ) : ℚ) := by exact_mod_cast hr
    exact mul_le_mul_of_nonneg_right hrq hpos.le

theorem round32Frac_mono (n1 n2 : ℤ) (d1 d2 : Nat) (hd1 : 0 < d1) (hd2 : 0 < d2)
    (h : (n1 : ℚ) / d1 ≤ (n2 : ℚ) / d2) : round32Frac n1 d1 ≤ round32Frac n2 d2 := by
  have hd1q : (0 : ℚ) < d1 := by exact_mod_cast hd1
  have hd2q : (0 : ℚ) < d2 := by exact_mod_cast hd2
  have habs : ∀ n : ℤ, 0 < n → ((n.natAbs : ℕ) : ℚ) = (n : ℚ) := by
    intro n hn
    have : ((n.natAbs : ℕ) : ℤ) = n := Int.natAbs_of_nonneg hn.le
    rw [← Int.cast_natCast, this]
  have habsneg : ∀ n : ℤ, n < 0 → ((n.natAbs : ℕ) : ℚ) = -(n : ℚ) := by
    intro n hn
    have : ((n.natAbs : ℕ) : ℤ) = -n := Int.ofNat_natAbs_of_nonpos hn.le
    rw [← Int.cast_natCast, this, Int.cast_neg]
  have hsign1 : ∀ n : ℤ, ∀ d : ℚ, 0 < d → (0 < (n : ℚ) / d ↔ 0 < n) := by
    intro n d hd
    rw [div_pos_iff_of_pos_right hd]
    exact_mod_cast Iff.rfl
  unfold round32Frac
  by_cases hp1 : 0 < n1
  · have hp2 : 0 < n2 := by
      have : 0 < (n2 : ℚ) / d2 := lt_of_lt_of_le ((hsign1 n1 d1 hd1q).mpr hp1) h
      exact (hsign1 n2 d2 hd2q).mp this
    rw [if_pos hp1, if_pos hp2]
    apply round32Pos_mono _ _ _ _ (Int.natAbs_pos.mpr hp1.ne') hd1
      (Int.natAbs_pos.mpr hp2.ne') hd2
    rw [habs n1 hp1, habs n2 hp2]
    exact h
  · rw [if_neg hp1]
    by_cases hn1 : n1 < 0
    · rw [if_pos hn1]
      have hle0 : -round32Pos n1.natAbs d1 ≤ 0 := by
        have := round32Pos_nonneg n1.natAbs d1 hd1
        linarith
      by_cases hp2 : 0 < n2
      · rw [if_pos hp2]
        exact le_trans hle0 (round32Pos_nonneg _ _ hd2)
      · rw [if_neg hp2]
        by_cases hn2 : n2 < 0
        · rw [if_pos hn2]
          apply neg_le_neg
          apply round32Pos_mono _ _ _ _ (Int.natAbs_pos.mpr hn2.ne) hd2
            (Int.natAbs_pos.mpr hn1.ne) hd1
          rw [habsneg n1 hn1, habsneg n2 hn2, neg_div, neg_div]
          linarith
        · rw [if_neg hn2]
          exact hle0
    · rw [if_neg hn1]
      have hz1 : n1 = 0 := by omega
      by_cases hp2 : 0 < n2
      · rw [if_pos hp2]
        exact round32Pos_nonneg _ _ hd2
      · rw [if_neg hp2]
        have hnn : ¬ n2 < 0 := by
          intro hn2
          have h2neg : (n2 : ℚ) / d2 < 0 := by
            apply div_neg_of_neg_of_pos _ hd2q
            exact_mod_cast hn2
          rw [hz1] at h
          simp at h
          linarith
        rw [if_neg hnn]

theorem round32_eq (x : ℚ) : round32 x = round32Frac x.num x.den := by
  simp [round32, forceInt_eq, forceNat_eq]

theorem round32Frac_eq (n : ℤ) (d : Nat) (hd : 0 < d) :
    round32Frac n d = round32 ((n : ℚ) / d) := by
  rw [round32_eq]
  have hden : 0 < ((n : ℚ) / d).den := Rat.den_pos _
  have hval : ((((n : ℚ) / d).num : ℤ) : ℚ) / ((((n : ℚ) / d).den : ℕ) : ℚ) = (n : ℚ) / d :=
    Rat.num_div_den _
  apply le_antisymm
  · exact round32Frac_mono _ _ _ _ hd hden (le_of_eq hval.symm)
  · exact round32Frac_mono _ _ _ _ hden hd (le_of_eq hval)

theorem round32_mono (x y : ℚ) (h : x ≤ y) : round32 x ≤ round32 y := by
  rw [round32_eq, round32_eq]
  apply round32Frac_mono _ _ _ _ (Rat.den_pos x) (Rat.den_pos y)
  rw [Rat.num_div_den, Rat.num_div_den]
  exact h

theorem round32_zero : round32 0 = 0 := by
  rw [round32_eq]
  rfl

theorem sub32_eq (x y : ℚ) : sub32 x y = round32 (x - y) := by
  have hd : 0 < x.den * y.den := Nat.mul_pos (Rat.den_pos x) (Rat.den_pos y)
  simp only [sub32, forceInt_eq, forceNat_eq]
  rw [round32Frac_eq _ _ hd]
  congr 1
  have hx : (x.den : ℚ) ≠ 0 := by exact_mod_cast (Rat.den_pos x).ne'
  have hy : (y.den : ℚ) ≠ 0 := by exact_mod_cast (Rat.den_pos y).ne'
  conv_rhs => rw [← Rat.num_div_den x, ← Rat.num_div_den y]
  push_cast
  field_simp
  ring

theorem mul32_eq (x y : ℚ) : mul32 x y = round32 (x * y) := by
  have hd : 0 < x.den * y.den := Nat.mul_pos (Rat.den_pos x) (Rat.den_pos y)
  simp only [mul32, forceInt_eq, forceNat_eq]
  rw [round32Frac_eq _ _ hd]
  congr 1
  have hx : (x.den : ℚ) ≠ 0 := by exact_mod_cast (Rat.den_pos x).ne'
  have hy : (y.den : ℚ) ≠ 0 := by exact_mod_cast (Rat.den_pos y).ne'
  conv_rhs => rw [← Rat.num_div_den x, ← Rat.num_div_den y]
  push_cast
  field_simp

theorem div32_eq (x y : ℚ) : div32 x y = round32 (x / y) := by
  have hx : (x.den : ℚ) ≠ 0 := by exact_mod_cast (Rat.den_pos x).ne'
  have hy : (y.den : ℚ) ≠ 0 := by exact_mod_cast (Rat.den_pos y).ne'
  simp only [div32, forceInt_eq, forceNat_eq]
  by_cases hp : 0 < y.num
  · rw [if_pos hp]
    have hd : 0 < x.den * y.num.natAbs :=
      Nat.mul_pos (Rat.den_pos x) (Int.natAbs_pos.mpr hp.ne')
    rw [round32Frac_eq _ _ hd]
    congr 1
    have habs : ((y.num.natAbs : ℕ) : ℚ) = (y.num : ℚ) := by
      have : ((y.num.natAbs : ℕ) : ℤ) = y.num := Int.natAbs_of_nonneg hp.le
      rw [← Int.cast_natCast, this]
    have hyn : (y.num : ℚ) ≠ 0 := by exact_mod_cast hp.ne'
    conv_rhs => rw [← Rat.num_div_den x, ← Rat.num_div_den y]
    push_cast
    rw [habs]
    field_simp
  · rw [if_neg hp]
    by_cases hn : y.num < 0
    · rw [if_pos hn]
      have hd : 0 < x.den * y.num.natAbs :=
        Nat.mul_pos (Rat.den_pos x) (Int.natAbs_pos.mpr hn.ne)
      rw [round32Frac_eq _ _ hd]
      congr 1
      have habs : ((y.num.natAbs : ℕ) : ℚ) = -(y.num : ℚ) := by
        have : ((y.num.natAbs : ℕ) : ℤ) = -y.num := Int.ofNat_natAbs_of_nonpos hn.le
        rw [← Int.cast_natCast, this, Int.cast_neg]
      have hyn : (y.num : ℚ) ≠ 0 := by exact_mod_cast hn.ne
      conv_rhs => rw [← Rat.num_div_den x, ← Rat.num_div_den y]
      push_cast
      rw [habs]
      field_simp
    · rw [if_neg hn]
      have hz : y.num = 0 := by omega
      have hy0 : y = 0 := Rat.num_eq_zero.mp hz
      rw [hy0, div_zero, round32_zero]

/-! ## The note renderer in a rounding arithmetic -/

theorem exactOps_eq (E : Env) (note : SNote) (clip : SWavFile) (t sr : ℚ) :
    GenerateEnvelopeFl exactOps note t sr = GenerateEnvelope note t sr ∧
    SampleAudioSampleFl exactOps note clip t = SampleAudioSample note clip t ∧
    GenerateNoteSampleFl exactOps E note sr = GenerateNoteSample E note sr :=
  ⟨rfl, rfl, rfl⟩

theorem GenerateEnvelopeFl_fields (A : FloatOps) (note : SNote) (t sr : ℚ) :
    (GenerateEnvelopeFl A note t sr).1.m_frequency = note.m_frequency ∧
    (GenerateEnvelopeFl A note t sr).1.m_waveForm = note.m_waveForm ∧
    (GenerateEnvelopeFl A note t sr).1.m_age = note.m_age ∧
    (GenerateEnvelopeFl A note t sr).1.m_wantsKeyRelease = note.m_wantsKeyRelease := by
  unfold GenerateEnvelopeFl
  by_cases h1 : note.m_releaseAge = 0 <;>
    by_cases h2 : (note.m_wantsKeyRelease = true ∧ t > A.lit01) <;>
    simp only [h1, h2, if_true, if_false] <;> split_ifs <;> simp_all

theorem GenerateEnvelopeFl_releaseAge_cases (A : FloatOps) (note : SNote) (t sr : ℚ) :
    (GenerateEnvelopeFl A note t sr).1.m_releaseAge = note.m_releaseAge ∨
    (note.m_releaseAge = 0 ∧ note.m_wantsKeyRelease = true ∧ t > A.lit01 ∧
      (GenerateEnvelopeFl A note t sr).1.m_releaseAge = note.m_age) := by
  unfold GenerateEnvelopeFl
  by_cases h1 : note.m_releaseAge = 0 <;>
    by_cases h2 : (note.m_wantsKeyRelease = true ∧ t > A.lit01) <;>
    simp only [h1, h2, if_true, if_false] <;> split_ifs <;> simp_all

theorem GenerateEnvelopeFl_dead_iff (A : FloatOps) (note : SNote) (t sr : ℚ) :
    (GenerateEnvelopeFl A note t sr).1.m_dead = true ↔
      note.m_dead = true ∨
        ((GenerateEnvelopeFl A note t sr).1.m_releaseAge ≠ 0 ∧
          A.sub t (A.div (A.ofSize (GenerateEnvelopeFl A note t sr).1.m_releaseAge) sr) >
            A.lit01) := by
  unfold GenerateEnvelopeFl
  by_cases h1 : note.m_releaseAge = 0 <;>
    by_cases h2 : (note.m_wantsKeyRelease = true ∧ t > A.lit01) <;>
    simp only [h1, h2, if_true, if_false] <;> split_ifs <;> simp_all

theorem GenerateEnvelopeFl_release (A : FloatOps) (note : SNote) (t sr : ℚ)
    (hR : note.m_releaseAge ≠ 0) :
    (GenerateEnvelopeFl A note t sr).2 =
      A.Envelope2Pt (A.sub t (A.div (A.ofSize note.m_releaseAge) sr)) 0 1 A.lit01 0 := by
  unfold GenerateEnvelopeFl
  simp only [hR, if_false]
  split_ifs <;> simp_all

theorem GenerateEnvelopeFl_value_cases (A : FloatOps) (note : SNote) (t sr : ℚ) :
    (GenerateEnvelopeFl A note t sr).2 = 0 ∨
    (GenerateEnvelopeFl A note t sr).2 = A.Envelope2Pt t 0 0 A.lit01 1 ∨
    ∃ x : ℚ, (GenerateEnvelopeFl A note t sr).2 = A.Envelope2Pt x 0 1 A.lit01 0 := by
  unfold GenerateEnvelopeFl
  by_cases h1 : note.m_releaseAge = 0 <;>
    by_cases h2 : (note.m_wantsKeyRelease = true ∧ t > A.lit01) <;>
    simp only [h1, h2, if_true, if_false] <;> split_ifs <;>
    first
    | exact Or.inr (Or.inr ⟨_, rfl⟩)
    | exact Or.inr (Or.inl rfl)
    | exact Or.inl rfl

theorem GenerateEnvelopeFl_latch (A : FloatOps) (note : SNote) (t sr : ℚ)
    (hR : note.m_releaseAge = 0) (hw : note.m_wantsKeyRelease = true) (ht : t > A.lit01)
    (hage : note.m_age ≠ 0) :
    (GenerateEnvelopeFl A note t sr).1.m_releaseAge = note.m_age ∧
    (GenerateEnvelopeFl A note t sr).2 =
      A.Envelope2Pt (A.sub t (A.div (A.ofSize note.m_age) sr)) 0 1 A.lit01 0 := by
  unfold GenerateEnvelopeFl
  have h2 : note.m_wantsKeyRelease = true ∧ t > A.lit01 := ⟨hw, ht⟩
  simp only [hR, h2, if_true]
  split_ifs <;> simp_all

theorem SampleAudioSampleFl_fields (A : FloatOps) (note : SNote) (clip : SWavFile) (t : ℚ) :
    (SampleAudioSampleFl A note clip t).1.m_frequency = note.m_frequency ∧
    (SampleAudioSampleFl A note clip t).1.m_waveForm = note.m_waveForm ∧
    (SampleAudioSampleFl A note clip t).1.m_age = note.m_age ∧
    (SampleAudioSampleFl A note clip t).1.m_wantsKeyRelease = note.m_wantsKeyRelease ∧
    (SampleAudioSampleFl A note clip t).1.m_releaseAge = note.m_releaseAge := by
  simp only [SampleAudioSampleFl]
  split_ifs <;> simp

theorem SampleAudioSampleFl_dead_iff (A : FloatOps) (note : SNote) (clip : SWavFile) (t : ℚ) :
    (SampleAudioSampleFl A note clip t).1.m_dead = true ↔
      note.m_dead = true ∨ clip.m_numSamples ≤ size_mul note.m_age clip.m_numChannels := by
  simp only [SampleAudioSampleFl]
  split_ifs with h
  · simp [h]
  · simp [h]

theorem SampleAudioSampleFl_exhausted (A : FloatOps) (note : SNote) (clip : SWavFile) (t : ℚ)
    (h : clip.m_numSamples ≤ size_mul note.m_age clip.m_numChannels) :
    (SampleAudioSampleFl A note clip t).2 = 0 := by
  simp only [SampleAudioSampleFl]
  rw [if_pos h]

theorem GenerateNoteSampleFl_fields (A : FloatOps) (E : Env) (note : SNote) (sr : ℚ) :
    (GenerateNoteSampleFl A E note sr).1.m_frequency = note.m_frequency ∧
    (GenerateNoteSampleFl A E note sr).1.m_waveForm = note.m_waveForm ∧
    (GenerateNoteSampleFl A E note sr).1.m_age = size_add note.m_age 1 ∧
    (GenerateNoteSampleFl A E note sr).1.m_wantsKeyRelease = note.m_wantsKeyRelease := by
  have hE := GenerateEnvelopeFl_fields A { note with m_age := size_add note.m_age 1 }
    (A.div (A.ofSize note.m_age) sr) sr
  have hS := fun clip => SampleAudioSampleFl_fields A
    (GenerateEnvelopeFl A { note with m_age := size_add note.m_age 1 }
      (A.div (A.ofSize note.m_age) sr) sr).1
    clip (A.div (A.ofSize note.m_age) sr)
  simp only [GenerateNoteSampleFl]
  split <;> simp_all

theorem GenerateNoteSampleFl_releaseAge (A : FloatOps) (E : Env) (note : SNote) (sr : ℚ) :
    (GenerateNoteSampleFl A E note sr).1.m_releaseAge =
      (GenerateEnvelopeFl A { note with m_age := size_add note.m_age 1 }
        (A.div (A.ofSize note.m_age) sr) sr).1.m_releaseAge := by
  have hS := fun clip => SampleAudioSampleFl_fields A
    (GenerateEnvelopeFl A { note with m_age := size_add note.m_age 1 }
      (A.div (A.ofSize note.m_age) sr) sr).1
    clip (A.div (A.ofSize note.m_age) sr)
  simp only [GenerateNoteSampleFl]
  split <;> simp_all

theorem GenerateNoteSampleFl_procedural (A : FloatOps) (E : Env) (note : SNote) (sr : ℚ)
    (hw : isProcedural note.m_waveForm = true) :
    GenerateNoteSampleFl A E note sr =
      ((GenerateEnvelopeFl A { note with m_age := size_add note.m_age 1 }
          (A.div (A.ofSize note.m_age) sr) sr).1,
        A.mul
          (rawWave E note.m_waveForm
            (A.fmodf (A.mul (A.div (A.ofSize note.m_age) sr) note.m_frequency) 1))
          (A.mul (GenerateEnvelopeFl A { note with m_age := size_add note.m_age 1 }
            (A.div (A.ofSize note.m_age) sr) sr).2 A.lit08)) := by
  have hE := GenerateEnvelopeFl_fields A { note with m_age := size_add note.m_age 1 }
    (A.div (A.ofSize note.m_age) sr) sr
  simp only at hE
  simp only [GenerateNoteSampleFl, hE.1, hE.2.1]
  cases hwf : note.m_waveForm <;> simp_all [isProcedural, rawWave]

theorem GenerateNoteSampleFl_sampled (A : FloatOps) (E : Env) (note : SNote) (sr : ℚ)
    (hw : isProcedural note.m_waveForm = false) :
    GenerateNoteSampleFl A E note sr =
      SampleAudioSampleFl A
        (GenerateEnvelopeFl A { note with m_age := size_add note.m_age 1 }
          (A.div (A.ofSize note.m_age) sr) sr).1
        (clipOf E note.m_waveForm) (A.div (A.ofSize note.m_age) sr) := by
  have hE := GenerateEnvelopeFl_fields A { note with m_age := size_add note.m_age 1 }
    (A.div (A.ofSize note.m_age) sr) sr
  simp only at hE
  simp only [GenerateNoteSampleFl, hE.1, hE.2.1]
  cases hwf : note.m_waveForm <;> simp_all [isProcedural, clipOf]

theorem GenerateNoteSampleFl_dead_iff (A : FloatOps) (E : Env) (note : SNote) (sr : ℚ) :
    (GenerateNoteSampleFl A E note sr).1.m_dead = true ↔
      note.m_dead = true ∨
      ((GenerateNoteSampleFl A E note sr).1.m_releaseAge ≠ 0 ∧
        A.sub (A.div (A.ofSize note.m_age) sr)
          (A.div (A.ofSize (GenerateNoteSampleFl A E note sr).1.m_releaseAge) sr) > A.lit01) ∨
      (isProcedural note.m_waveForm = false ∧
        (clipOf E note.m_waveForm).m_numSamples ≤
          size_mul (size_add note.m_age 1) (clipOf E note.m_waveForm).m_numChannels) := by
  have hdead := GenerateEnvelopeFl_dead_iff A { note with m_age := size_add note.m_age 1 }
    (A.div (A.ofSize note.m_age) sr) sr
  have hEf := GenerateEnvelopeFl_fields A { note with m_age := size_add note.m_age 1 }
    (A.div (A.ofSize note.m_age) sr) sr
  rw [GenerateNoteSampleFl_releaseAge]
  by_cases hp : isProcedural note.m_waveForm = true
  · rw [GenerateNoteSampleFl_procedural A E note sr hp]
    simp only [hdead, hp]
    simp
  · have hp2 : isProcedural note.m_waveForm = false := by simpa using hp
    rw [GenerateNoteSampleFl_sampled A E note sr hp2, SampleAudioSampleFl_dead_iff, hdead,
      hEf.2.2.1]
    simp only [hp2, true_and]
    tauto

theorem MonotoneOps.time_mono {A : FloatOps} (hA : MonotoneOps A) (sr : ℚ) (hsr : 0 < sr)
    (a b : Nat) (hab : a ≤ b) (z : ℚ) :
    A.sub (A.div (A.ofSize a) sr) z ≤ A.sub (A.div (A.ofSize b) sr) z :=
  hA.sub_mono _ _ z (hA.div_mono _ _ sr hsr (hA.ofSize_mono a b hab))

theorem ReachFl_invariant (A : FloatOps) (hA : MonotoneOps A) (E : Env) (sr : ℚ) (hsr : 0 < sr)
    {k : Nat} {n : SNote} (h : ReachFl A E sr k n) (hk : k * maxChannels E < SIZE_MOD) :
    n.m_age = k ∧
    (n.m_releaseAge ≠ 0 → n.m_wantsKeyRelease = true) ∧
    (n.m_dead = true → isProcedural n.m_waveForm = true →
      n.m_releaseAge ≠ 0 ∧
        ∀ a : Nat, k ≤ a + 1 →
          A.sub (A.div (A.ofSize a) sr) (A.div (A.ofSize n.m_releaseAge) sr) > A.lit01) ∧
    (n.m_dead = true → isProcedural n.m_waveForm = false → n.m_releaseAge = 0 →
      (clipOf E n.m_waveForm).m_numSamples ≤
        n.m_age * (clipOf E n.m_waveForm).m_numChannels) := by
  induction h with
  | fresh f w => simp [SNote.new]
  | @sample k note hreach ih =>
    have hM : 1 ≤ maxChannels E := le_max_left _ _
    have hk1 : k + 1 < SIZE_MOD :=
      lt_of_le_of_lt (Nat.le_mul_of_pos_right (k + 1) hM) hk
    have hk0 : k * maxChannels E < SIZE_MOD :=
      lt_of_le_of_lt (Nat.mul_le_mul_right _ (Nat.le_succ k)) hk
    obtain ⟨hage, hRw, hproc, hsamp⟩ := ih hk0
    have hadd : size_add note.m_age 1 = k + 1 := by
      rw [hage]; exact size_add_one_of_lt k hk1
    obtain ⟨hf1, hf2, hf3, hf4⟩ := GenerateNoteSampleFl_fields A E note sr
    have hcases := GenerateEnvelopeFl_releaseAge_cases A
      { note with m_age := size_add note.m_age 1 } (A.div (A.ofSize note.m_age) sr) sr
    have hdead := GenerateNoteSampleFl_dead_iff A E note sr
    rw [← GenerateNoteSampleFl_releaseAge A E note sr] at hcases
    simp only [hadd] at hcases hdead
    rw [hf3, hadd, hf2, hf4, hdead]
    have hmul : size_mul (k + 1) (clipOf E note.m_waveForm).m_numChannels =
        (k + 1) * (clipOf E note.m_waveForm).m_numChannels := by
      unfold size_mul
      apply Nat.mod_eq_of_lt
      have := clipOf_channels_le E note.m_waveForm
      calc (k + 1) * (clipOf E note.m_waveForm).m_numChannels
          ≤ (k + 1) * maxChannels E := Nat.mul_le_mul_left _ this
        _ < SIZE_MOD := hk
    rw [hmul]
    rw [hage] at hcases hsamp
    generalize (GenerateNoteSampleFl A E note sr).1.m_releaseAge = R1 at hcases ⊢
    refine ⟨rfl, ?_, ?_, ?_⟩
    · intro hR1
      rcases hcases with h1 | ⟨_, h1, _, _⟩
      · exact hRw (by rw [← h1]; exact hR1)
      · exact h1
    · intro hd hp
      rcases hd with hd | ⟨hd1, hd2⟩ | ⟨hd1, _⟩
      · obtain ⟨hR, hprog⟩ := hproc hd hp
        rcases hcases with h1 | ⟨h1, _⟩
        · rw [h1]
          exact ⟨hR, fun a ha => hprog a (by omega)⟩
        · exact absurd h1 hR
      · refine ⟨hd1, fun a ha => ?_⟩
        rw [hage] at hd2
        exact lt_of_lt_of_le hd2 (hA.time_mono sr hsr k a (by omega) _)
      · rw [hp] at hd1
        exact absurd hd1 (by decide)
    · intro hd hp hR1
      rcases hd with hd | ⟨hd1, _⟩ | ⟨_, hd2⟩
      · have hR : note.m_releaseAge = 0 := by
          rcases hcases with h1 | ⟨h1, _⟩
          · rw [← h1]; exact hR1
          · exact h1
        have := hsamp hd hp hR
        calc (clipOf E note.m_waveForm).m_numSamples
            ≤ k * (clipOf E note.m_waveForm).m_numChannels := this
          _ ≤ (k + 1) * (clipOf E note.m_waveForm).m_numChannels :=
            Nat.mul_le_mul_right _ (Nat.le_succ k)
      · exact absurd hR1 hd1
      · exact hd2
  | @stop k note f hreach ih =>
    obtain ⟨hage, hRw, hproc, hsamp⟩ := ih hk
    obtain ⟨hf1, hf2, hf3, hf4, hf5⟩ := stopNoteOne_fields f note
    rw [hf2, hf3, hf4, hf5]
    exact ⟨hage, fun hR => stopNoteOne_wants f note (hRw hR), hproc, hsamp⟩

theorem ReachFl_renderTimes (A : FloatOps) (E : Env) (sr : ℚ) (j : Nat) :
    ∀ (k : Nat) (n : SNote), ReachFl A E sr k n →
      ReachFl A E sr (k + j) (renderTimesFl A E sr j n) := by
  induction j with
  | zero => intro k n h; exact h
  | succ j ih =>
    intro k n h
    have h2 := ih (k + 1) _ (ReachFl.sample h)
    have he : k + 1 + j = k + (j + 1) := by omega
    rw [he] at h2
    exact h2

theorem exactOps_monotone : MonotoneOps exactOps where
  ofSize_mono := fun a b h => by
    show ((a : Nat) : ℚ) ≤ ((b : Nat) : ℚ)
    exact_mod_cast h
  div_mono := fun x y d hd h => by
    show x / d ≤ y / d
    exact div_le_div_of_nonneg_right h hd.le
  sub_mono := fun x y z h => by
    show x - z ≤ y - z
    linarith
  mul_zero := fun x => by
    show x * 0 = 0
    ring
  zero_mul := fun x => by
    show 0 * x = 0
    ring
  clamped := fun time h => by
    show Envelope2Pt time 0 1 (1 / 10) 0 = 0
    have h' : (1 : ℚ) / 10 ≤ time := h
    have h0 : ¬ time ≤ 0 := by linarith
    unfold Envelope2Pt
    rw [if_neg h0, if_pos h']

theorem exactOps_Envelope2Pt_bounds (time : ℚ) :
    (0 ≤ exactOps.Envelope2Pt time 0 0 exactOps.lit01 1 ∧
      exactOps.Envelope2Pt time 0 0 exactOps.lit01 1 ≤ 1) ∧
    (0 ≤ exactOps.Envelope2Pt time 0 1 exactOps.lit01 0 ∧
      exactOps.Envelope2Pt time 0 1 exactOps.lit01 0 ≤ 1) :=
  ⟨Envelope2Pt_intro_bounds time, Envelope2Pt_release_bounds time⟩

/-! ## The binary32 arithmetic is monotone -/

theorem binary32Ops_lit01 : binary32Ops.lit01 = 13421773 / 134217728 := by decide!

theorem round32_one : round32 1 = 1 := by decide!

theorem Envelope2Pt_unit_bounds (time c : ℚ) (hc : 0 < c) :
    (0 ≤ Envelope2Pt time 0 0 c 1 ∧ Envelope2Pt time 0 0 c 1 ≤ 1) ∧
    (0 ≤ Envelope2Pt time 0 1 c 0 ∧ Envelope2Pt time 0 1 c 0 ≤ 1) := by
  unfold Envelope2Pt
  by_cases h1 : time ≤ 0
  · simp [h1]
  · by_cases h2 : c ≤ time
    · simp [h1, h2]
    · have ht : 0 < time := not_le.mp h1
      have htc : time < c := not_le.mp h2
      have hq0 : 0 ≤ time / c := div_nonneg ht.le hc.le
      have hq1 : time / c ≤ 1 := (div_le_one hc).mpr htc.le
      simp only [h1, h2, if_false, sub_zero]
      refine ⟨⟨by linarith, by linarith⟩, ⟨by linarith, by linarith⟩⟩

theorem binary32Ops_Envelope2Pt (time time0 volume0 time1 volume1 : ℚ) :
    binary32Ops.Envelope2Pt time time0 volume0 time1 volume1 =
      round32 (Envelope2Pt time time0 volume0 time1 volume1) := by
  simp only [binary32Ops, forceRat_eq]

theorem binary32Ops_ofSize (n : Nat) : binary32Ops.ofSize n = round32 (n : ℚ) := by
  simp only [binary32Ops, forceNat_eq]
  rw [round32Frac_eq _ _ Nat.one_pos]
  simp

theorem binary32Ops_Envelope2Pt_bounds (time : ℚ) :
    (0 ≤ binary32Ops.Envelope2Pt time 0 0 binary32Ops.lit01 1 ∧
      binary32Ops.Envelope2Pt time 0 0 binary32Ops.lit01 1 ≤ 1) ∧
    (0 ≤ binary32Ops.Envelope2Pt time 0 1 binary32Ops.lit01 0 ∧
      binary32Ops.Envelope2Pt time 0 1 binary32Ops.lit01 0 ≤ 1) := by
  have hc : 0 < binary32Ops.lit01 := by rw [binary32Ops_lit01]; norm_num
  obtain ⟨⟨h1, h2⟩, ⟨h3, h4⟩⟩ := Envelope2Pt_unit_bounds time binary32Ops.lit01 hc
  rw [binary32Ops_Envelope2Pt, binary32Ops_Envelope2Pt]
  refine ⟨⟨?_, ?_⟩, ⟨?_, ?_⟩⟩
  · have := round32_mono _ _ h1
    rwa [round32_zero] at this
  · have := round32_mono _ _ h2
    rwa [round32_one] at this
  · have := round32_mono _ _ h3
    rwa [round32_zero] at this
  · have := round32_mono _ _ h4
    rwa [round32_one] at this

theorem binary32Ops_monotone : MonotoneOps binary32Ops where
  ofSize_mono := fun a b h => by
    rw [binary32Ops_ofSize, binary32Ops_ofSize]
    apply round32_mono
    exact_mod_cast h
  div_mono := fun x y d hd h => by
    show div32 x d ≤ div32 y d
    rw [div32_eq, div32_eq]
    exact round32_mono _ _ (div_le_div_of_nonneg_right h hd.le)
  sub_mono := fun x y z h => by
    show sub32 x z ≤ sub32 y z
    rw [sub32_eq, sub32_eq]
    exact round32_mono _ _ (by linarith)
  mul_zero := fun x => by
    show mul32 x 0 = 0
    rw [mul32_eq, mul_zero, round32_zero]
  zero_mul := fun x => by
    show mul32 0 x = 0
    rw [mul32_eq, zero_mul, round32_zero]
  clamped := fun time h => by
    have hc : 0 < binary32Ops.lit01 := by rw [binary32Ops_lit01]; norm_num
    rw [binary32Ops_Envelope2Pt]
    have h0 : ¬ time ≤ 0 := by linarith
    unfold Envelope2Pt
    rw [if_neg h0, if_pos h, round32_zero]

/-! ## The envelope gain and the death test -/

/-- C18: the envelope gain is in `[0, 1]`, and the death test.  In every `float` arithmetic `A`,
for every note state, every age in seconds and every sample rate `> 0`: if `Envelope2Pt` returns a
value between its two endpoint values 0 and 1, the gain that `GenerateEnvelope` returns is between
0 and 1, also at a latching call, where the returned gain is the release envelope at the time in
release of that call; and the note is dead after the call exactly when it was dead before or it is
released after the latch of this call (`m_releaseAge ≠ 0`) and the time in release that the code
computes, `ageInSeconds - float(m_releaseAge) / sampleRate` with the roundings of `A`, exceeds
`0.1f`. -/
theorem C18_envelope_gain_in_unit_interval (A : FloatOps) (note : SNote) (t sr : ℚ)
    (_hsr : 0 < sr)
    (hE : ∀ time : ℚ,
      (0 ≤ A.Envelope2Pt time 0 0 A.lit01 1 ∧ A.Envelope2Pt time 0 0 A.lit01 1 ≤ 1) ∧
      (0 ≤ A.Envelope2Pt time 0 1 A.lit01 0 ∧ A.Envelope2Pt time 0 1 A.lit01 0 ≤ 1)) :
    0 ≤ (GenerateEnvelopeFl A note t sr).2 ∧ (GenerateEnvelopeFl A note t sr).2 ≤ 1 ∧
    ((GenerateEnvelopeFl A note t sr).1.m_dead = true ↔
      note.m_dead = true ∨
        ((GenerateEnvelopeFl A note t sr).1.m_releaseAge ≠ 0 ∧
          A.sub t (A.div (A.ofSize (GenerateEnvelopeFl A note t sr).1.m_releaseAge) sr) >
            A.lit01)) ∧
    (note.m_releaseAge = 0 → note.m_wantsKeyRelease = true → t > A.lit01 → note.m_age ≠ 0 →
      (GenerateEnvelopeFl A note t sr).1.m_releaseAge = note.m_age ∧
      (GenerateEnvelopeFl A note t sr).2 =
        A.Envelope2Pt (A.sub t (A.div (A.ofSize note.m_age) sr)) 0 1 A.lit01 0) := by
  refine ⟨?_, ?_, GenerateEnvelopeFl_dead_iff A note t sr,
    fun hR hw ht hage => GenerateEnvelopeFl_latch A note t sr hR hw ht hage⟩
  · rcases GenerateEnvelopeFl_value_cases A note t sr with h | h | ⟨x, h⟩
    · rw [h]
    · rw [h]; exact (hE t).1.1
    · rw [h]; exact (hE x).2.1
  · rcases GenerateEnvelopeFl_value_cases A note t sr with h | h | ⟨x, h⟩
    · rw [h]; exact zero_le_one
    · rw [h]; exact (hE t).1.2
    · rw [h]; exact (hE x).2.2

/-- Witness of C18: the call that `GenerateNoteSample` makes at 44100 Hz on a note of age 8825 that
was released at age 4415.  In binary32 the time in release is `6710887 / 2^26`, above `0.1f`, and
the call marks the note dead with a gain in `[0, 1]`; in exact arithmetic the time in release is
`1/10` and the same call leaves the note alive. -/
theorem C18_envelope_gain_in_unit_interval_witness :
    (GenerateEnvelopeFl binary32Ops (SNote.mk 440 EWaveForm.e_waveSaw 8826 false true 4415)
      (binary32Ops.div (binary32Ops.ofSize 8825) 44100) 44100).1.m_dead = true ∧
    0 ≤ (GenerateEnvelopeFl binary32Ops (SNote.mk 440 EWaveForm.e_waveSaw 8826 false true 4415)
      (binary32Ops.div (binary32Ops.ofSize 8825) 44100) 44100).2 ∧
    (GenerateEnvelopeFl binary32Ops (SNote.mk 440 EWaveForm.e_waveSaw 8826 false true 4415)
      (binary32Ops.div (binary32Ops.ofSize 8825) 44100) 44100).2 ≤ 1 ∧
    binary32Ops.sub (binary32Ops.div (binary32Ops.ofSize 8825) 44100)
      (binary32Ops.div (binary32Ops.ofSize 4415) 44100) = 6710887 / 67108864 ∧
    (GenerateEnvelopeFl exactOps (SNote.mk 440 EWaveForm.e_waveSaw 8826 false true 4415)
      (exactOps.div (exactOps.ofSize 8825) 44100) 44100).1.m_dead = false :=
  have h := C18_envelope_gain_in_unit_interval binary32Ops
    (SNote.mk 440 EWaveForm.e_waveSaw 8826 false true 4415)
    (binary32Ops.div (binary32Ops.ofSize 8825) 44100) 44100 (by norm_num)
    binary32Ops_Envelope2Pt_bounds
  ⟨h.2.2.1.mpr (Or.inr ⟨by decide!, by decide!⟩), h.1, h.2.1, by decide!, by decide!⟩

/-! ## Dead notes -/

/-- C5 (counterexample): a sample-backed note created with frequency 0, flagged by `StopNote(0)`
and rendered 6 times at 10 samples per second is reachable and dead (its release envelope has
run out), yet the next `GenerateNoteSample` call returns `1/2`, not 0; in binary32 and in exact
arithmetic alike. -/
theorem C5_dead_sample_note_still_sounds :
    ReachFl binary32Ops demoEnv 10 (0 + 6)
      (renderTimesFl binary32Ops demoEnv 10 6
        (stopNoteOne 0 (SNote.new 0 EWaveForm.e_sampleCymbals))) ∧
    (renderTimesFl binary32Ops demoEnv 10 6
      (stopNoteOne 0 (SNote.new 0 EWaveForm.e_sampleCymbals))).m_dead = true ∧
    (GenerateNoteSampleFl binary32Ops demoEnv
      (renderTimesFl binary32Ops demoEnv 10 6
        (stopNoteOne 0 (SNote.new 0 EWaveForm.e_sampleCymbals))) 10).2 = 1 / 2 ∧
    (renderTimesFl exactOps demoEnv 10 6
      (stopNoteOne 0 (SNote.new 0 EWaveForm.e_sampleCymbals))).m_dead = true ∧
    (GenerateNoteSampleFl exactOps demoEnv
      (renderTimesFl exactOps demoEnv 10 6
        (stopNoteOne 0 (SNote.new 0 EWaveForm.e_sampleCymbals))) 10).2 = 1 / 2 :=
  ⟨ReachFl_renderTimes binary32Ops demoEnv 10 6 0 _
      (ReachFl.stop 0 (ReachFl.fresh 0 EWaveForm.e_sampleCymbals)),
    by decide!, by decide!, by decide!, by decide!⟩

/-- C5 (amended): a dead note contributes exactly 0.  In every `float` arithmetic `A` whose
rounding is monotone (`MonotoneOps`, which holds for binary32), at a sample rate `> 0`, for every
note state reachable from a freshly constructed `SNote` by `GenerateNoteSample` calls at that
sample rate and `StopNote` calls, absent wrap-around of `size_t`: if `m_dead` is true before a
`GenerateNoteSample` call and the note is procedural, or is sample-backed with its release age
not latched (`m_releaseAge = 0`), the call returns exactly 0; and the release age of a reachable
note is not latched as long as `m_wantsKeyRelease` is false. -/
theorem C5_dead_note_is_silent (A : FloatOps) (hA : MonotoneOps A) (E : Env) (sr : ℚ)
    (hsr : 0 < sr) (k : Nat) (n : SNote)
    (hreach : ReachFl A E sr k n) (hwrap : (k + 1) * maxChannels E < SIZE_MOD)
    (hdead : n.m_dead = true)
    (hkind : isProcedural n.m_waveForm = true ∨ n.m_releaseAge = 0) :
    (GenerateNoteSampleFl A E n sr).2 = 0 ∧ (n.m_wantsKeyRelease = false → n.m_releaseAge = 0) := by
  have hM : 1 ≤ maxChannels E := le_max_left _ _
  have hk0 : k * maxChannels E < SIZE_MOD :=
    lt_of_le_of_lt (Nat.mul_le_mul_right _ (Nat.le_succ k)) hwrap
  have hk1 : k + 1 < SIZE_MOD :=
    lt_of_le_of_lt (Nat.le_mul_of_pos_right (k + 1) hM) hwrap
  obtain ⟨hage, hRw, hproc, hsamp⟩ := ReachFl_invariant A hA E sr hsr hreach hk0
  have hadd : size_add n.m_age 1 = k + 1 := by
    rw [hage]; exact size_add_one_of_lt k hk1
  refine ⟨?_, ?_⟩
  · by_cases hp : isProcedural n.m_waveForm = true
    · obtain ⟨hR, hprog⟩ := hproc hdead hp
      rw [GenerateNoteSampleFl_procedural A E n sr hp,
        GenerateEnvelopeFl_release A { n with m_age := size_add n.m_age 1 } _ sr hR]
      have hx : A.sub (A.div (A.ofSize n.m_age) sr) (A.div (A.ofSize n.m_releaseAge) sr) >
          A.lit01 := by
        rw [hage]; exact hprog k (Nat.le_succ k)
      simp only [hA.clamped _ hx.le, hA.zero_mul, hA.mul_zero]
    · have hp2 : isProcedural n.m_waveForm = false := by simpa using hp
      have hR : n.m_releaseAge = 0 := by
        rcases hkind with h | h
        · exact absurd h hp
        · exact h
      have hex := hsamp hdead hp2 hR
      rw [GenerateNoteSampleFl_sampled A E n sr hp2]
      apply SampleAudioSampleFl_exhausted
      rw [(GenerateEnvelopeFl_fields A { n with m_age := size_add n.m_age 1 } _ sr).2.2.1]
      simp only [hadd]
      have hmul : size_mul (k + 1) (clipOf E n.m_waveForm).m_numChannels =
          (k + 1) * (clipOf E n.m_waveForm).m_numChannels := by
        unfold size_mul
        apply Nat.mod_eq_of_lt
        calc (k + 1) * (clipOf E n.m_waveForm).m_numChannels
            ≤ (k + 1) * maxChannels E :=
              Nat.mul_le_mul_left _ (clipOf_channels_le E n.m_waveForm)
          _ < SIZE_MOD := hwrap
      rw [hmul]
      rw [hage] at hex
      exact le_trans hex (Nat.mul_le_mul_right _ (Nat.le_succ k))
  · intro hw
    by_contra hR
    rw [hRw hR] at hw
    exact absurd hw (by decide)

/-- Witness of C5: in binary32 at 10 samples per second, a saw note that is rendered 4 times,
released and rendered 3 more times is dead (the time in release `0.6f - 0.5f` exceeds `0.1f`; in
exact arithmetic the corresponding note is still alive), and the next sample it contributes
is 0. -/
theorem C5_dead_note_is_silent_witness :
    (renderTimesFl binary32Ops demoEnv 10 3 (stopNoteOne 440
      (renderTimesFl binary32Ops demoEnv 10 4 (SNote.new 440 EWaveForm.e_waveSaw)))).m_dead
      = true ∧
    (renderTimesFl exactOps demoEnv 10 3 (stopNoteOne 440
      (renderTimesFl exactOps demoEnv 10 4 (SNote.new 440 EWaveForm.e_waveSaw)))).m_dead
      = false ∧
    (GenerateNoteSampleFl binary32Ops demoEnv
      (renderTimesFl binary32Ops demoEnv 10 3 (stopNoteOne 440
        (renderTimesFl binary32Ops demoEnv 10 4 (SNote.new 440 EWaveForm.e_waveSaw))))
      10).2 = 0 :=
  ⟨by decide!, by decide!,
    (C5_dead_note_is_silent binary32Ops binary32Ops_monotone demoEnv 10 (by norm_num) (0 + 4 + 3)
      (renderTimesFl binary32Ops demoEnv 10 3 (stopNoteOne 440
        (renderTimesFl binary32Ops demoEnv 10 4 (SNote.new 440 EWaveForm.e_waveSaw))))
      (ReachFl_renderTimes binary32Ops demoEnv 10 3 (0 + 4) _
        (ReachFl.stop 440
          (ReachFl_renderTimes binary32Ops demoEnv 10 4 0 _
            (ReachFl.fresh 440 EWaveForm.e_waveSaw))))
      (by decide) (by decide!) (Or.inl (by decide!))).1⟩

end DemoFiltering
